import Mathlib

/-!
# xuanxuan: chat and member directories

A shallow embedding of `app/core/members.js` and `app/core/im/im-chats.js`.

* JavaScript strings are lists of characters (`Str`); the built-in string and
  array operations the two modules call (`indexOf`, `trim`, `toLowerCase`,
  `split`, `join`, the default `sort`, `Number.parseInt`, `Object.keys`,
  `Object.assign`) are written out below.
* A plain object used as a dictionary is the association list of its own
  entries in insertion order (`Obj`); the names it inherits from
  `Object.prototype` are listed in `prototypeKeys`.
* A number is an integer; what is stated of its string form or of a parse is
  stated for integers of magnitude below 2^53 (`Val.Safe`).
* The module-level variables (`chats`, `publicChats`, `members`), the current
  user (`profile.user`) and the log of events handed to
  `Events.emitDataChange` form the `State`; an exported function takes the state
  and returns, with its result, the state it leaves.
* A dereference of `null` raises a `TypeError`, so such functions return
  `Except JsError`.
* The functions that work on messages also reach the table
  `db.database.chatMessages` and may throw after they have written; they take an
  `Env` and end in an `Outcome`, which keeps the environment they leave. A promise
  is settled when it is returned. A call that nests without end is given the room
  on the call stack as an argument and throws a `RangeError` when it is used up.
* The classes `Chat`, `Member`, the helper `StringHelper` and the event bus are
  imported by the two modules from files that are not part of the sources; what
  is used of them is either a parameter (`ChatModel`, `MessageModel`, `TextOps`)
  or a definition whose doc comment says that it is modelled from the
  specification.
-/

namespace Xuanxuan

/-! ## Strings -/

/-- A JavaScript string. -/
abbrev Str := List Char

/-- The `<` of two strings: lexicographic on the character codes. JavaScript compares the
UTF-16 code units; this is the same order for strings whose characters lie in the basic plane
(below U+10000), which is what `Val.Safe` asks of a string. -/
def strLt : Str → Str → Bool
  | [], [] => false
  | [], _ :: _ => true
  | _ :: _, [] => false
  | a :: as, b :: bs =>
    if a.toNat < b.toNat then true
    else if b.toNat < a.toNat then false
    else strLt as bs

/-- `findIn.indexOf(sKey)` scanning from the left; `i` is the index of the head of the text. -/
def indexOfFrom (sKey : Str) : Str → Nat → Option Nat
  | [], i => if sKey.isPrefixOf [] then some i else none
  | c :: cs, i => if sKey.isPrefixOf (c :: cs) then some i else indexOfFrom sKey cs (i + 1)

/-- `findIn.indexOf(sKey)`: the first index at which `sKey` occurs, `-1` when it does not occur. -/
def indexOf (findIn sKey : Str) : Int :=
  match indexOfFrom sKey findIn 0 with
  | some i => (i : Int)
  | none => -1

/-- The characters `String.prototype.trim` strips: white space and line terminators. -/
def isTrimChar (c : Char) : Bool :=
  let n := c.toNat
  n = 0x09 || n = 0x0A || n = 0x0B || n = 0x0C || n = 0x0D || n = 0x20 || n = 0xA0
    || n = 0x1680 || (0x2000 ≤ n && n ≤ 0x200A) || n = 0x2028 || n = 0x2029
    || n = 0x202F || n = 0x205F || n = 0x3000 || n = 0xFEFF

/-- `s.trim()`. -/
def trim (s : Str) : Str :=
  ((s.dropWhile isTrimChar).reverse.dropWhile isTrimChar).reverse

/-- `s.toLowerCase()`, on the letters `A` to `Z`; other characters are kept.
`String.prototype.toLowerCase` also lowers the cased letters outside ASCII; a statement that
depends on which letters are lowered takes the operation as a parameter (`TextOps`). -/
def toLowerCase (s : Str) : Str := s.map Char.toLower

/-- `s.split(sep)` for a one-character separator: never the empty array. -/
def split (sep : Char) : Str → List Str
  | [] => [[]]
  | c :: cs =>
    if c = sep then [] :: split sep cs
    else
      match split sep cs with
      | [] => [[c]]
      | t :: ts => (c :: t) :: ts

/-- `arr.join(sep)` on an array of strings. -/
def join (sep : Str) : List Str → Str
  | [] => []
  | [s] => s
  | s :: t :: ts => s ++ sep ++ join sep (t :: ts)

/-- `s.includes(c)` for a one-character needle. -/
def includes (s : Str) (c : Char) : Bool := s.contains c

/-- Modelled from the spec: `StringHelper.isEmpty` of `utils/string-helper`, which is not
among the sources, read as the test for the empty string: the per-term scoring "returns 0 if
either is empty". The specification also has "Empty/whitespace query → empty result
immediately"; whether the helper holds of a string of white space is not decided by the
sources, and the statements about such a query take the helper as a parameter (`TextOps`). -/
def isEmpty (s : Str) : Bool := s.isEmpty

/-! ## Numbers and values -/

/-- A JavaScript value that is used as an identity: an integer number, `NaN`, or a string. -/
inductive Val where
  | int (z : Int)
  | nan
  | str (s : Str)
  deriving DecidableEq, Repr

/-- The decimal digits of a natural number. -/
def decimal (n : Nat) : Str := Nat.toDigits 10 n

/-- `String(v)`, the conversion `join`, the default `sort` and property access apply: the
decimal digits of an integer. A number is a double: this is its string form when it is an
integer of magnitude below 2^53; beyond, `String` prints the shortest digits that read back
as the double, in exponent form from 1e21 on ("1e+21"), which is not modelled (`Val.Safe`). -/
def Val.toStr : Val → Str
  | .int (.ofNat n) => decimal n
  | .int (.negSucc n) => '-' :: decimal (n + 1)
  | .nan => ['N', 'a', 'N']
  | .str s => s

/-- The strict equality `a === b`; `NaN` is not equal to itself. -/
def Val.strictEq : Val → Val → Bool
  | .int a, .int b => a = b
  | .str a, .str b => a = b
  | _, _ => false

/-- Insertion of `x`, which stood before them, into a list sorted by the default comparison:
`x` passes the elements whose string form is smaller than its own. -/
def sortInsert (x : Val) : List Val → List Val
  | [] => [x]
  | y :: ys => if strLt y.toStr x.toStr then y :: sortInsert x ys else x :: y :: ys

/-- `arr.sort()` without a comparison function: the elements are ordered by their string
forms, elements with equal string forms keep their order. -/
def sortDefault : List Val → List Val
  | [] => []
  | x :: xs => sortInsert x (sortDefault xs)

/-- `arr.join(sep)` on an array of values. -/
def joinVals (sep : Str) (vs : List Val) : Str := join sep (vs.map Val.toStr)

/-- The value of a digit character in radix 10 or 16. -/
def digitValue (radix : Nat) (c : Char) : Option Nat :=
  let n := c.toNat
  let v : Option Nat :=
    if 48 ≤ n ∧ n ≤ 57 then some (n - 48)
    else if 97 ≤ n ∧ n ≤ 122 then some (n - 97 + 10)
    else if 65 ≤ n ∧ n ≤ 90 then some (n - 65 + 10)
    else none
  match v with
  | some d => if d < radix then some d else none
  | none => none

/-- The longest prefix of digits of the radix, as a number; `none` when there is no digit. -/
def parseDigits (radix : Nat) (s : Str) : Option Nat :=
  let ds := (s.map (digitValue radix)).takeWhile Option.isSome
  match ds with
  | [] => none
  | _ => some (ds.foldl (fun acc d => acc * radix + d.getD 0) 0)

/-- `Number.parseInt(s)` with no radix: leading white space is skipped, a sign is read, a
`0x` prefix selects radix 16, and the longest run of digits is the result. The result is
exact; `Number.parseInt` returns a double, which is this number when its magnitude is below
2^53 and the nearest double beyond (`Val.Safe`). -/
def parseInt (s : Str) : Val :=
  let s := s.dropWhile isTrimChar
  let (neg, s) :=
    match s with
    | '-' :: r => (true, r)
    | '+' :: r => (false, r)
    | r => (false, r)
  let (radix, s) :=
    match s with
    | '0' :: 'x' :: r => (16, r)
    | '0' :: 'X' :: r => (16, r)
    | r => (10, r)
  match parseDigits radix s with
  | none => .nan
  | some n => .int (if neg then -(n : Int) else (n : Int))

/-- The truth value of a value in a condition: `0`, `NaN` and the empty string are falsy. -/
def Val.truthy : Val → Bool
  | .int z => z ≠ 0
  | .nan => false
  | .str s => !s.isEmpty

/-- The values on which `Val.toStr`, `parseInt` and `strLt` are those of JavaScript: `NaN`,
an integer of magnitude below 2^53 (a number that `String` prints, and `Number.parseInt`
reads, digit by digit), and a string of characters of the basic plane (one UTF-16 code unit
each). -/
def Val.Safe : Val → Prop
  | .int z => z.natAbs < 2 ^ 53
  | .nan => True
  | .str s => ∀ c ∈ s, c.toNat < 0x10000

/-! ## Objects used as dictionaries -/

/-- A plain object used as a dictionary from strings: its own entries, no key twice, in the
order `Object.keys` lists them. A new key is listed last, which is the order of keys that are
not array indices; `Object.keys` lists integer-like keys (`"7"`) before the others, in
ascending numeric order, so a statement that depends on the order of the keys is about keys
that are not integer-like, or is made for every order of the keys. The properties an object
inherits from `Object.prototype` are not entries (`prototypeKeys`). -/
abbrev Obj (α : Type) := List (Str × α)

/-- The names of the properties a plain object `{}` inherits from `Object.prototype`. The
read `obj[k]` of such a name that is not an own key finds the inherited value, a function or,
for `__proto__`, the prototype itself: a truthy value that is neither a stored record nor
`undefined`. -/
def prototypeKeys : List Str :=
  ["constructor".toList, "__proto__".toList, "hasOwnProperty".toList, "isPrototypeOf".toList,
    "propertyIsEnumerable".toList, "toString".toList, "toLocaleString".toList,
    "valueOf".toList, "__defineGetter__".toList, "__defineSetter__".toList,
    "__lookupGetter__".toList, "__lookupSetter__".toList]

/-- The read `obj[k]` of an own property; `none` is `undefined`. For a key of `prototypeKeys`
that is not an own key the read in JavaScript finds the inherited value instead; where a
function reads a key it is given, the statements about it are made for keys that are not in
`prototypeKeys`, or the read of the inherited value is written out (`chatsMessagesOf`). -/
def Obj.lookup {α : Type} : Obj α → Str → Option α
  | [], _ => none
  | (k', v) :: rest, k => if k' = k then some v else Obj.lookup rest k

/-- The write `obj[k] = v`: an existing key keeps its place, a new key is added last. -/
def Obj.set {α : Type} : Obj α → Str → α → Obj α
  | [], k, v => [(k, v)]
  | (k', v') :: rest, k, v => if k' = k then (k, v) :: rest else (k', v') :: Obj.set rest k v

/-- `Object.keys(obj)`. -/
def Obj.keys {α : Type} (o : Obj α) : List Str := o.map Prod.fst

/-- The values of the object in key order, `Object.keys(obj).map(x => obj[x])`. -/
def Obj.values {α : Type} (o : Obj α) : List α := o.map Prod.snd

/-- The assignment `obj[k] = v` of an object `v` on a plain object `{}`: the key `__proto__`
is the accessor of `Object.prototype`, so the assignment replaces the prototype of `obj` and
adds no property; any other key is written as an own property. -/
def Obj.store {α : Type} (o : Obj α) (k : Str) (v : α) : Obj α :=
  if k = "__proto__".toList then o else Obj.set o k v

/-- `Object.assign(target, source)`: every entry of `source` is written into `target`. -/
def Obj.assign {α : Type} (target source : Obj α) : Obj α :=
  source.foldl (fun t p => Obj.set t p.1 p.2) target

/-- `delete obj[k]`. -/
def Obj.delete {α : Type} (o : Obj α) (k : Str) : Obj α := o.filter (fun p => p.1 ≠ k)

/-- The last record of a list that carries the key `k`. -/
def lastWith {β : Type} (key : β → Str) (l : List β) (k : Str) : Option β :=
  l.reverse.find? (fun c => decide (key c = k))

/-! ## Data model -/

/-- The errors raised: `TypeError` by a dereference of `null` or `undefined` and by an
assignment to a constant, `ReferenceError` by the use of a name that is not declared,
`RangeError` when the call stack is exhausted. -/
inductive JsError where
  | typeError
  | referenceError
  | rangeError
  deriving DecidableEq, Repr

/-- The file payload of a message: the server id (`0` when there is none), the flag `send`
(`none` when absent) and the file name. -/
structure FileContent where
  id : Nat
  send : Option Bool
  name : Str
  deriving DecidableEq, Repr

/-- A chat message: its own identifier `gid`, the server-assigned `id` (`0` when there is
none), the gid of its chat, its content type and, for a file message, the file payload. -/
structure ChatMessage where
  gid : Str
  id : Nat
  cgid : Str
  contentType : Str
  fileContent : Option FileContent
  deriving DecidableEq, Repr

/-- A member record. -/
structure Member where
  id : Val
  account : Val
  realname : Str
  email : Str
  mobile : Str
  isMe : Bool
  deriving DecidableEq, Repr

/-- The values of `Chat.TYPES`. -/
inductive ChatType where
  | one2one
  | group
  | system
  | publicChat
  deriving DecidableEq, Repr

/-- A chat record. `type` is `none` when the chat was built without one, `name` is empty and
`lastActiveTime` is `0` when unset, `membersSet` is the member index `updateMembersSet`
records, `messages` is the message window. -/
structure Chat where
  gid : Str
  name : Str
  type : Option ChatType
  members : List Val
  createdBy : Str
  noticeCount : Nat
  star : Bool
  lastActiveTime : Nat
  hasSetMessages : Bool
  score : Nat
  membersSet : Option (List Val)
  messages : List ChatMessage := []
  deriving DecidableEq, Repr

/-- The object literal handed to `new Chat(...)`: absent properties are `none`. -/
structure ChatData where
  gid : Option Str
  name : Option Str
  members : Option (List Val)
  createdBy : Option Str
  type : Option ChatType
  star : Option Bool
  deriving DecidableEq, Repr

/-- `Object.assign(base, over)` on two chat literals: a property of `over` wins. -/
def ChatData.assign (base over : ChatData) : ChatData :=
  { gid := over.gid.orElse (fun _ => base.gid)
    name := over.name.orElse (fun _ => base.name)
    members := over.members.orElse (fun _ => base.members)
    createdBy := over.createdBy.orElse (fun _ => base.createdBy)
    type := over.type.orElse (fun _ => base.type)
    star := over.star.orElse (fun _ => base.star) }

/-- The object literal `{}`. -/
def ChatData.empty : ChatData :=
  { gid := none, name := none, members := none, createdBy := none, type := none, star := none }

/-- The current user, `profile.user`. -/
structure User where
  id : Val
  account : Str
  deriving DecidableEq, Repr

/-- The payload of a call of `Events.emitDataChange`. -/
inductive Event where
  | chats (changed : Obj Chat)
  | members (changed : Obj Member)
  | publicChats (list : List Chat)
  deriving DecidableEq, Repr

/-- The module state: the variables `chats` and `publicChats` of `im-chats.js`, the variable
`members` of `members.js` (`none` is `null`), the current user, and the events published so
far, oldest first. -/
structure State where
  chats : Option (Obj Chat)
  publicChats : Option (List Chat)
  members : Option (Obj Member)
  user : User
  events : List Event
  deriving DecidableEq, Repr

/-- The object `imApp` that `search` hands to the chat methods. -/
structure App where
  members : Option (Obj Member)
  user : User

/-- What `search` reads of the member `chat.getTheOtherOne` returns; an absent property is
the empty string. -/
structure Contact where
  account : Str
  email : Str
  mobile : Str
  deriving DecidableEq, Repr

/-- The part of `models/chat` the directory calls and that is not among the sources:
the constructor, `Chat.create`, and the methods `search` reads names from. -/
structure ChatModel where
  construct : ChatData → Chat
  create : Chat → Chat
  getDisplayName : App → Chat → Str
  getPinYin : App → Chat → Str
  getTheOtherOne : App → Chat → Option Contact

/-- Modelled from the spec: the getter `chat.isOne2One` of `models/chat` ("contact" admits
only one2one chats). -/
def Chat.isOne2One (c : Chat) : Bool := c.type = some .one2one

/-- Modelled from the spec: the getter `chat.isGroup` of `models/chat`. -/
def Chat.isGroup (c : Chat) : Bool := c.type = some .group

/-- Modelled from the spec: the getter `chat.isSystem` of `models/chat`. -/
def Chat.isSystem (c : Chat) : Bool := c.type = some .system

/-- Modelled from the spec: the getter `chat.isGroupOrSystem` of `models/chat` ("chats whose
type is group or system"). -/
def Chat.isGroupOrSystem (c : Chat) : Bool := c.isGroup || c.isSystem

/-- Modelled from the spec: `chat.updateMembersSet(members)` of `models/chat`, which
"pre-computes the member-set index" of the chat. -/
def Chat.updateMembersSet (c : Chat) (members : List Val) : Chat :=
  { c with membersSet := some members }

/-- Modelled from the spec: `Chat.sort(result, sortList, app)` of `models/chat` for a
comparison function as `sortList`: the array is reordered in place so that it is ascending
for the comparison, elements that compare equal keeping their order. -/
def Chat.sort (result : List Chat) (sortList : Chat → Chat → Int) : List Chat :=
  result.insertionSort (fun x y => sortList x y ≤ 0)

/-- Modelled from the spec: `new Member({id, account, realname})` of `models/member`; the
properties that are not given are empty. -/
def Member.construct (id account : Val) (realname : Str) : Member :=
  { id := id, account := account, realname := realname, email := [], mobile := [], isMe := false }

/-! ## `members.js` -/

/-- The callback order of `members.forEach`: the stored members in key order, none while
the directory is `null`. -/
def Members.forEach (s : State) : List Member :=
  match s.members with
  | none => []
  | some ms => Obj.values ms

/-- The placeholder `get` synthesises for an unknown identity. -/
def Members.placeholder (idOrAccount : Val) : Member :=
  Member.construct idOrAccount idOrAccount ("User-".toList ++ idOrAccount.toStr)

/-- `get(idOrAccount)` of `members.js`. The result `none` is `undefined`. -/
def Members.get (s : State) (idOrAccount : Val) : Except JsError (Option Member × State) :=
  match s.members with
  | none => .error .typeError
  | some ms =>
    match Obj.lookup ms idOrAccount.toStr with
    | some member => .ok (some member, s)
    | none =>
      let findId := (Obj.keys ms).find? (fun x =>
        match Obj.lookup ms x with
        | some m => m.account.strictEq idOrAccount
        | none => false)
      match findId with
      | some x =>
        if x.isEmpty then .ok (some (Members.placeholder idOrAccount), s)
        else .ok (Obj.lookup ms x, s)
      | none => .ok (some (Members.placeholder idOrAccount), s)

/-! ## `im-chats.js` -/

/-- The values of `SEARCH_SCORE_MAP`; `includeMatch` is its property `include`. -/
structure SearchScoreMap where
  matchAll : Nat
  matchPrefix : Nat
  includeMatch : Nat
  similar : Nat

/-- The constant `SEARCH_SCORE_MAP`. -/
def SEARCH_SCORE_MAP : SearchScoreMap :=
  { matchAll := 100, matchPrefix := 75, includeMatch := 50, similar := 10 }

/-- The callback order of `forEach`: the chats in key order, none while `chats` is `null`. -/
def forEach (s : State) : List Chat :=
  match s.chats with
  | none => []
  | some m => Obj.values m

/-- `get(gid)`. The result `none` is `undefined`. -/
def get (M : ChatModel) (s : State) (gid : Str) : Except JsError (Option Chat × State) :=
  match s.chats with
  | none => .error .typeError
  | some m =>
    match Obj.lookup m gid with
    | some chat => .ok (some chat, s)
    | none =>
      if includes gid '&' then
        let members := (split '&' gid).map parseInt
        let chat := M.construct
          { gid := some gid, name := none, members := some members, createdBy := some s.user.account,
            type := some .one2one, star := none }
        .ok (some (chat.updateMembersSet members), s)
      else .ok (none, s)

/-- The argument of `update`: absent (or `null`), one chat, or an array of chats. -/
inductive UpdateArg where
  | missing
  | single (chat : Chat)
  | list (chatArr : List Chat)

/-- The object `newchats` that `update` builds from the array, by the assignments
`newchats[chat.gid] = chat` on a plain `{}`. -/
def newchatsOf (M : ChatModel) (chatArr : List Chat) : Obj Chat :=
  chatArr.foldl (fun newchats chat => Obj.store newchats (M.create chat).gid (M.create chat)) []

/-- `update(chatArr)`. -/
def update (M : ChatModel) (s : State) (arg : UpdateArg) : Except JsError State :=
  match arg with
  | .missing => .ok s
  | .single chat =>
    match s.chats with
    | none => .error .typeError
    | some m =>
      .ok { s with chats := some (Obj.assign m (newchatsOf M [chat])),
                   events := s.events ++ [Event.chats (newchatsOf M [chat])] }
  | .list chatArr =>
    if chatArr.length = 0 then .ok s
    else
      match s.chats with
      | none => .error .typeError
      | some m =>
        .ok { s with chats := some (Obj.assign m (newchatsOf M chatArr)),
                     events := s.events ++ [Event.chats (newchatsOf M chatArr)] }

/-- `getAll()`. -/
def getAll (s : State) : List Chat :=
  match s.chats with
  | none => []
  | some m => (Obj.keys m).filterMap (fun x => Obj.lookup m x)

/-- The gid `getContactChat` derives for a member id and the id of the current user. -/
def contactGid (memberId userId : Val) : Str := joinVals ['&'] (sortDefault [memberId, userId])

/-- `getContactChat(member)`. -/
def getContactChat (M : ChatModel) (s : State) (member : Member) :
    Except JsError (Chat × State) :=
  let members := sortDefault [member.id, s.user.id]
  let gid := joinVals ['&'] members
  match get M s gid with
  | .error e => .error e
  | .ok (some chat, s1) => .ok (chat, s1)
  | .ok (none, s1) =>
    let chat := M.construct
      { gid := some gid, name := none, members := some members, createdBy := some s1.user.account,
        type := some .one2one, star := none }
    match update M s1 (.single chat) with
    | .error e => .error e
    | .ok s2 => .ok (chat, s2)

/-- The loop of `getContactsChats` over the members `ms`, with `contactsChats` collected so
far. -/
def collectContactsChats (M : ChatModel) :
    List Member → State → List Chat → Except JsError (List Chat × State)
  | [], s, contactsChats => .ok (contactsChats, s)
  | member :: ms, s, contactsChats =>
    if !(member.id.strictEq s.user.id) then
      match getContactChat M s member with
      | .error e => .error e
      | .ok (chat, s1) => collectContactsChats M ms s1 (contactsChats ++ [chat])
    else collectContactsChats M ms s contactsChats

/-- `getContactsChats()`. -/
def getContactsChats (M : ChatModel) (s : State) : Except JsError (List Chat × State) :=
  match collectContactsChats M (Members.forEach s) s [] with
  | .error e => .error e
  | .ok (contactsChats, s1) =>
    match update M s1 (.list contactsChats) with
    | .error e => .error e
    | .ok s2 => .ok (contactsChats, s2)

/-- The condition argument of `query`: `null`, an object of property values (given by the
tests `conditionObj[key] === chat[key]` of its keys), a function (which may write to the chat
it is given), an array of gids, or a value of another type such as `undefined`. -/
inductive Condition where
  | null
  | object (conditionObj : List (Chat → Bool))
  | function (condition : Chat → Bool × Chat)
  | array (gids : List Str)
  | other

/-- The first step of `query`: a condition with `typeof condition === 'object'` is replaced
by the function that compares the properties named by its keys. An array is such an object:
its keys are its indices, and a chat has no property named by an index, so each comparison
`conditionObj[key] !== chat[key]` holds. `Object.keys(null)` raises. -/
def Condition.toFunction : Condition → Except JsError Condition
  | .null => .error .typeError
  | .object conditionObj => .ok (.function (fun chat => (conditionObj.all (fun test => test chat), chat)))
  | .array gids => .ok (.function (fun chat => (gids.all (fun _ => false), chat)))
  | .function f => .ok (.function f)
  | .other => .ok .other

/-- The loop `forEach(chat => if(condition(chat)) result.push(chat))` of `query` over the
entries of `chats`: the chats pushed, and the entries as the calls leave them. -/
def queryLoop (condition : Chat → Bool × Chat) : Obj Chat → List Chat × Obj Chat
  | [] => ([], [])
  | (k, chat) :: rest =>
    let r := condition chat
    let rs := queryLoop condition rest
    (if r.1 then r.2 :: rs.1 else rs.1, (k, r.2) :: rs.2)

/-- The loop `condition.forEach(x => ...)` of `query` over an array of gids. -/
def queryList (M : ChatModel) (s : State) : List Str → Except JsError (List Chat)
  | [] => .ok []
  | x :: xs =>
    match get M s x with
    | .error e => .error e
    | .ok (chat, _) =>
      match queryList M s xs with
      | .error e => .error e
      | .ok rest => .ok (match chat with | some c => c :: rest | none => rest)

/-- `query(condition, sortList, app)`, for a comparison function as `sortList`. -/
def query (M : ChatModel) (s : State) (condition : Condition)
    (sortList : Option (Chat → Chat → Int)) : Except JsError (List Chat × State) :=
  match s.chats with
  | none => .ok ([], s)
  | some m =>
    match condition.toFunction with
    | .error e => .error e
    | .ok condition =>
      let run : Except JsError (List Chat × State) :=
        match condition with
        | .function f =>
          let r := queryLoop f m
          .ok (r.1, { s with chats := some r.2 })
        | .array gids =>
          match queryList M s gids with
          | .error e => .error e
          | .ok result => .ok (result, s)
        | _ => .ok (getAll s, s)
      match run with
      | .error e => .error e
      | .ok (result, s1) =>
        match sortList with
        | some cmp =>
          if result.length ≠ 0 then .ok (Chat.sort result cmp, s1) else .ok (result, s1)
        | none => .ok (result, s1)

/-- The function `caculateScore(sKey, findIn)` inside `search`. -/
def caculateScore (sKey findIn : Str) : Nat :=
  if isEmpty sKey || isEmpty findIn then 0
  else if sKey = findIn then SEARCH_SCORE_MAP.matchAll
  else
    let idx := indexOf findIn sKey
    if idx = 0 then SEARCH_SCORE_MAP.matchPrefix
    else if idx > 0 then SEARCH_SCORE_MAP.includeMatch
    else 0

/-- What the body of `search.forEach(s => ...)` adds to `score` for the term `s`. -/
def termScore (chat : Chat) (chatGid chatName pinYin theOtherOneAccount
    theOtherOneContactInfo : Str) (s : Str) : Nat :=
  if isEmpty s then 0
  else
    let r : Str × Nat :=
      if s.length > 1 then
        if s.head? = some '#' then
          (s.tail,
            2 * caculateScore s.tail chatGid
              + (if chat.isSystem || chat.isGroup then
                  2 * caculateScore s.tail chatName
                    + (if chat.isSystem then 2 * caculateScore s.tail "system".toList else 0)
                else 0))
        else if s.head? = some '@' then
          (s.tail, if chat.isOne2One then 2 * caculateScore s.tail theOtherOneAccount else 0)
        else (s, 0)
      else (s, 0)
    r.2 + caculateScore r.1 chatName + caculateScore r.1 pinYin
      + (if theOtherOneContactInfo.isEmpty then 0 else caculateScore r.1 theOtherOneContactInfo)

/-- The account and the contact information `search` reads for a chat. -/
def theOtherOneInfo (M : ChatModel) (app : App) (chat : Chat) : Str × Str :=
  if chat.isOne2One then
    match M.getTheOtherOne app chat with
    | some theOtherOne => (theOtherOne.account, theOtherOne.email ++ theOtherOne.mobile)
    | none => ([], [])
  else ([], [])

/-- The value of `score` after the loop over the terms, for a chat that passed the type
filter. -/
def chatScore (M : ChatModel) (app : App) (terms : List Str) (chat : Chat) : Nat :=
  terms.foldl (fun score s =>
    score + termScore chat (toLowerCase chat.gid) (toLowerCase (M.getDisplayName app chat))
      (M.getPinYin app chat) (theOtherOneInfo M app chat).1 (theOtherOneInfo M app chat).2 s) 0

/-- The flag `hasChatType = !!chatType`. -/
def hasChatType (chatType : Option Str) : Bool :=
  match chatType with
  | none => false
  | some t => !t.isEmpty

/-- The test of `search` that drops a chat of the wrong type. -/
def typeExcluded (chatType : Option Str) (chat : Chat) : Bool :=
  hasChatType chatType
    && ((decide (chatType = some "contact".toList) && !chat.isOne2One)
      || (decide (chatType = some "group".toList) && !chat.isGroupOrSystem))

/-- The function `search` hands to `query`: the answer, and the chat with its `score`
written. -/
def searchCondition (M : ChatModel) (app : App) (terms : List Str) (chatType : Option Str)
    (chat : Chat) : Bool × Chat :=
  if typeExcluded chatType chat then (false, chat)
  else
    (decide (chatScore M app terms chat > 0), { chat with score := chatScore M app terms chat })

/-- The comparison function `(x, y) => x.score - y.score`. -/
def scoreOrder (x y : Chat) : Int := (x.score : Int) - (y.score : Int)

/-- The terms of a query, `search.trim().toLowerCase().split(' ')`. -/
def searchTerms (search : Str) : List Str := split ' ' (toLowerCase (trim search))

/-- The statement `if(!hasChatType || chatType === 'contact') getContactsChats();` of
`search`. -/
def materializeContacts (M : ChatModel) (s : State) (chatType : Option Str) :
    Except JsError State :=
  if !hasChatType chatType || decide (chatType = some "contact".toList) then
    match getContactsChats M s with
    | .error e => .error e
    | .ok (_, s1) => .ok s1
  else .ok s

/-- `search(search, chatType)`, up to its `return`. -/
def search (M : ChatModel) (s : State) (search : Str) (chatType : Option Str) :
    Except JsError (List Chat × State) :=
  if isEmpty search then .ok ([], s)
  else
    if (searchTerms search).length = 0 then .ok ([], s)
    else
      match materializeContacts M s chatType with
      | .error e => .error e
      | .ok s1 =>
        query M s1
          (.function (searchCondition M { members := s1.members, user := s1.user }
            (searchTerms search) chatType))
          (some scoreOrder)

/-- What the calls `caculateScore(s, chatName)` in the body of `search.forEach(s => ...)` add
to `score` for the term `s`. -/
def nameTermScore (chat : Chat) (chatName : Str) (s : Str) : Nat :=
  if isEmpty s then 0
  else if s.length > 1 ∧ s.head? = some '#' then
    (if chat.isSystem || chat.isGroup then 2 * caculateScore s.tail chatName else 0)
      + caculateScore s.tail chatName
  else if s.length > 1 ∧ s.head? = some '@' then caculateScore s.tail chatName
  else caculateScore s chatName

/-- What the display name of a chat contributes to its score. -/
def nameContribution (M : ChatModel) (app : App) (terms : List Str) (chat : Chat) : Nat :=
  terms.foldl (fun score s =>
    score + nameTermScore chat (toLowerCase (M.getDisplayName app chat)) s) 0

/-! ## `search` with its text helpers as parameters -/

/-- The two text operations of `search` that the sources do not fix letter by letter:
`StringHelper.isEmpty` of `utils/string-helper`, which is not among the sources, and the
built-in `String.prototype.toLowerCase`, which lowers every cased letter of Unicode. -/
structure TextOps where
  isEmpty : Str → Bool
  toLowerCase : Str → Str

/-- The text operations of the definitions above: the test for the empty string, and the
lowering of the letters `A` to `Z`. -/
def exactText : TextOps := { isEmpty := isEmpty, toLowerCase := toLowerCase }

/-- Text operations for which a string of white space is empty: the test for a string that
is empty once trimmed, and the lowering of the letters `A` to `Z`. -/
def blankText : TextOps :=
  { isEmpty := fun s => (trim s).isEmpty, toLowerCase := toLowerCase }

/-- The function `caculateScore(sKey, findIn)` inside `search`, for the text operations
`T`. -/
def caculateScoreWith (T : TextOps) (sKey findIn : Str) : Nat :=
  if T.isEmpty sKey || T.isEmpty findIn then 0
  else if sKey = findIn then SEARCH_SCORE_MAP.matchAll
  else
    let idx := indexOf findIn sKey
    if idx = 0 then SEARCH_SCORE_MAP.matchPrefix
    else if idx > 0 then SEARCH_SCORE_MAP.includeMatch
    else 0

/-- What the body of `search.forEach(s => ...)` adds to `score` for the term `s`, for the
text operations `T`. -/
def termScoreWith (T : TextOps) (chat : Chat) (chatGid chatName pinYin theOtherOneAccount
    theOtherOneContactInfo : Str) (s : Str) : Nat :=
  if T.isEmpty s then 0
  else
    let r : Str × Nat :=
      if s.length > 1 then
        if s.head? = some '#' then
          (s.tail,
            2 * caculateScoreWith T s.tail chatGid
              + (if chat.isSystem || chat.isGroup then
                  2 * caculateScoreWith T s.tail chatName
                    + (if chat.isSystem then 2 * caculateScoreWith T s.tail "system".toList
                      else 0)
                else 0))
        else if s.head? = some '@' then
          (s.tail,
            if chat.isOne2One then 2 * caculateScoreWith T s.tail theOtherOneAccount else 0)
        else (s, 0)
      else (s, 0)
    r.2 + caculateScoreWith T r.1 chatName + caculateScoreWith T r.1 pinYin
      + (if theOtherOneContactInfo.isEmpty then 0
        else caculateScoreWith T r.1 theOtherOneContactInfo)

/-- The value of `score` after the loop over the terms, for a chat that passed the type
filter, for the text operations `T`. -/
def chatScoreWith (T : TextOps) (M : ChatModel) (app : App) (terms : List Str) (chat : Chat) :
    Nat :=
  terms.foldl (fun score s =>
    score + termScoreWith T chat (T.toLowerCase chat.gid)
      (T.toLowerCase (M.getDisplayName app chat))
      (M.getPinYin app chat) (theOtherOneInfo M app chat).1 (theOtherOneInfo M app chat).2 s) 0

/-- The function `search` hands to `query`, for the text operations `T`. -/
def searchConditionWith (T : TextOps) (M : ChatModel) (app : App) (terms : List Str)
    (chatType : Option Str) (chat : Chat) : Bool × Chat :=
  if typeExcluded chatType chat then (false, chat)
  else
    (decide (chatScoreWith T M app terms chat > 0),
      { chat with score := chatScoreWith T M app terms chat })

/-- The terms of a query, `search.trim().toLowerCase().split(' ')`, for the text operations
`T`. -/
def searchTermsWith (T : TextOps) (search : Str) : List Str :=
  split ' ' (T.toLowerCase (trim search))

/-- `search(search, chatType)`, up to its `return`, for the text operations `T`. -/
def searchWith (T : TextOps) (M : ChatModel) (s : State) (search : Str)
    (chatType : Option Str) : Except JsError (List Chat × State) :=
  if T.isEmpty search then .ok ([], s)
  else
    if (searchTermsWith T search).length = 0 then .ok ([], s)
    else
      match materializeContacts M s chatType with
      | .error e => .error e
      | .ok s1 =>
        query M s1
          (.function (searchConditionWith T M { members := s1.members, user := s1.user }
            (searchTermsWith T search) chatType))
          (some scoreOrder)

/-- What the calls `caculateScore(s, chatName)` in the body of `search.forEach(s => ...)` add
to `score` for the term `s`, for the text operations `T`. -/
def nameTermScoreWith (T : TextOps) (chat : Chat) (chatName : Str) (s : Str) : Nat :=
  if T.isEmpty s then 0
  else if s.length > 1 ∧ s.head? = some '#' then
    (if chat.isSystem || chat.isGroup then 2 * caculateScoreWith T s.tail chatName else 0)
      + caculateScoreWith T s.tail chatName
  else if s.length > 1 ∧ s.head? = some '@' then caculateScoreWith T s.tail chatName
  else caculateScoreWith T s chatName

/-- What the display name of a chat contributes to its score, for the text operations `T`. -/
def nameContributionWith (T : TextOps) (M : ChatModel) (app : App) (terms : List Str)
    (chat : Chat) : Nat :=
  terms.foldl (fun score s =>
    score + nameTermScoreWith T chat (T.toLowerCase (M.getDisplayName app chat)) s) 0

/-- A member reference handed to `createWithMembers`: a member object or an id. -/
inductive MemberRef where
  | object (member : Member)
  | id (memberId : Val)

/-- The first argument of `createWithMembers`: one reference or an array of them. -/
inductive MembersArg where
  | single (member : MemberRef)
  | list (chatMembers : List MemberRef)

/-- The references handed to `createWithMembers`, mapped to ids. -/
def memberRefIds (arg : MembersArg) : List Val :=
  let chatMembers : List MemberRef := match arg with | .single r => [r] | .list rs => rs
  chatMembers.map (fun member =>
    match member with
    | .object m => m.id
    | .id v => v)

/-- The ids `createWithMembers` works with: the references mapped to ids, and the id of the
current user pushed when `find` returns nothing truthy. -/
def chatMemberIds (userMeId : Val) (arg : MembersArg) : List Val :=
  let chatMembers : List MemberRef := match arg with | .single r => [r] | .list rs => rs
  let ids := chatMembers.map (fun member =>
    match member with
    | .object m => m.id
    | .id v => v)
  match ids.find? (fun memberId => memberId.strictEq userMeId) with
  | some v => if v.truthy then ids else ids ++ [userMeId]
  | none => ids ++ [userMeId]

/-- `createWithMembers(chatMembers, chatSetting)`. -/
def createWithMembers (M : ChatModel) (s : State) (arg : MembersArg) (chatSetting : ChatData) :
    Except JsError (Chat × State) :=
  let chatMembers := chatMemberIds s.user.id arg
  if chatMembers.length = 2 then
    let sorted := sortDefault chatMembers
    let gid := joinVals ['&'] sorted
    match get M s gid with
    | .error e => .error e
    | .ok (some chat, s1) => .ok (chat, s1)
    | .ok (none, s1) =>
      .ok (M.construct (ChatData.assign
        { gid := none, name := none, members := some sorted, createdBy := some s1.user.account,
          type := none, star := none } chatSetting), s1)
  else
    .ok (M.construct (ChatData.assign
      { gid := none, name := none, members := some chatMembers, createdBy := some s.user.account,
        type := none, star := none } chatSetting), s)

/-! ## A concrete chat model -/

/-- A chat model for the examples: the constructor copies the properties it is given,
`Chat.create` returns the chat it is given, the display name is the `name` of the chat, and
there is neither a phonetic key nor a resolvable other participant. -/
def plainModel : ChatModel :=
  { construct := fun d =>
      { gid := d.gid.getD [], name := d.name.getD [], type := d.type,
        members := d.members.getD [], createdBy := d.createdBy.getD [], noticeCount := 0,
        star := d.star.getD false, lastActiveTime := 0, hasSetMessages := false, score := 0,
        membersSet := none }
    create := fun chat => chat
    getDisplayName := fun _ chat => chat.name
    getPinYin := fun _ _ => []
    getTheOtherOne := fun _ _ => none }

/-- A member with the given numeric id and account. -/
def memberOf (id : Nat) (account : String) : Member :=
  { id := .int id, account := .str account.toList, realname := account.toList, email := [],
    mobile := [], isMe := false }

/-- A group chat with the given gid and name. -/
def groupChat (gid name : String) : Chat :=
  { gid := gid.toList, name := name.toList, type := some .group, members := [], createdBy := [],
    noticeCount := 0, star := false, lastActiveTime := 0, hasSetMessages := false, score := 0,
    membersSet := none }

/-- An initialised state with the given chats and members, for the user with the given id. -/
def stateOf (chats : Obj Chat) (members : Obj Member) (userId : Nat) : State :=
  { chats := some chats, publicChats := none, members := some members,
    user := { id := .int userId, account := "me".toList }, events := [] }

/-! ## Well-formed directories -/

/-- The constructor of `models/chat` keeps the gid it is given ("a new one2one Chat anchored
at that gid"). -/
def ChatModel.KeepsGid (M : ChatModel) : Prop :=
  ∀ (d : ChatData) (g : Str), d.gid = some g → (M.construct d).gid = g

/-- Every chat of the mapping is stored under its own gid, as `update` stores it. -/
def KeyedByGid (m : Obj Chat) : Prop := ∀ p ∈ m, p.2.gid = p.1

/-- The decimal forms of two ids joined by `&`, the one that is smaller as a text first. -/
def textOrderGid (a b : Nat) : Str :=
  if strLt (decimal b) (decimal a) then decimal b ++ '&' :: decimal a
  else decimal a ++ '&' :: decimal b

/-! ## `members.js`: `guess` and `query` -/

/-- `guess(search)` of `members.js`. The result `none` is `undefined`. -/
def Members.guess (s : State) (search : Val) : Except JsError (Option Member × State) :=
  match Members.get s search with
  | .error e => .error e
  | .ok (some member, s1) => .ok (some member, s1)
  | .ok (none, s1) =>
    match s1.members with
    | none => .error .typeError
    | some ms =>
      let findId := (Obj.keys ms).find? (fun x =>
        match Obj.lookup ms x with
        | some xMember =>
          xMember.account.strictEq search || (Val.str xMember.realname).strictEq search
        | none => false)
      match findId with
      | some x => if x.isEmpty then .ok (none, s1) else .ok (Obj.lookup ms x, s1)
      | none => .ok (none, s1)

/-- `getAll()` of `members.js`. -/
def Members.getAll (s : State) : List Member :=
  match s.members with
  | none => []
  | some ms => (Obj.keys ms).filterMap (fun x => Obj.lookup ms x)

/-- The condition argument of `query` of `members.js`: `null`, an object of property values
(given by the tests `conditionObj[key] === member[key]` of its keys), a function, an array of
identities, or a value of another type such as `undefined`. -/
inductive MemberCondition where
  | null
  | object (conditionObj : List (Member → Bool))
  | function (condition : Member → Bool)
  | array (ids : List Val)
  | other

/-- The first step of `query` of `members.js`: a condition with
`typeof condition === 'object'` is replaced by the function that compares the properties named
by its keys. An array is such an object: its keys are its indices, and a member has no
property named by an index, so each comparison `conditionObj[key] !== member[key]` holds.
`Object.keys(null)` raises. -/
def MemberCondition.toFunction : MemberCondition → Except JsError MemberCondition
  | .null => .error .typeError
  | .object conditionObj => .ok (.function (fun member => conditionObj.all (fun test => test member)))
  | .array ids => .ok (.function (fun _ => ids.all (fun _ => false)))
  | .function f => .ok (.function f)
  | .other => .ok .other

/-- The loop `condition.forEach(x => ...)` of `query` of `members.js` over an array of
identities. -/
def Members.queryList (s : State) : List Val → Except JsError (List Member)
  | [] => .ok []
  | x :: xs =>
    match Members.get s x with
    | .error e => .error e
    | .ok (member, _) =>
      match Members.queryList s xs with
      | .error e => .error e
      | .ok rest => .ok (match member with | some m => m :: rest | none => rest)

/-- `query(condition, sortList)` of `members.js`. The sort list is given by what
`Member.sort(result, sortList, userId)` of `models/member`, which is not among the sources,
makes of the array. -/
def Members.query (s : State) (condition : MemberCondition)
    (sortList : Option (List Member → List Member)) : Except JsError (List Member × State) :=
  match condition.toFunction with
  | .error e => .error e
  | .ok condition =>
    let run : Except JsError (List Member) :=
      match condition with
      | .function f => .ok ((Members.forEach s).filter f)
      | .array ids => Members.queryList s ids
      | _ => .ok (Members.getAll s)
    match run with
    | .error e => .error e
    | .ok result =>
      match sortList with
      | some sort => if result.length ≠ 0 then .ok (sort result, s) else .ok (result, s)
      | none => .ok (result, s)

/-! ## `im-chats.js`: recent chats -/

/-- The constant `MAX_RECENT_TIME`. -/
def MAX_RECENT_TIME : Nat := 1000 * 60 * 60 * 24 * 7

/-- The test of the filter of `getRecents`; `now` is `new Date().getTime()`. -/
def isRecent (now : Nat) (includeStar : Bool) (chat : Chat) : Bool :=
  decide (chat.noticeCount ≠ 0) || (includeStar && chat.star)
    || (decide (chat.lastActiveTime ≠ 0)
      && decide ((now : Int) - (chat.lastActiveTime : Int) ≤ (MAX_RECENT_TIME : Int)))

/-- `getRecents(includeStar = true)`, at the time `now`; `includeStar` is `none` when the
argument is not given. -/
def getRecents (s : State) (now : Nat) (includeStar : Option Bool) : List Chat :=
  let all := getAll s
  if all.length < 2 then all
  else all.filter (isRecent now (includeStar.getD true))

/-! ## `im-chats.js`: messages and the message store -/

/-- A promise that is settled: resolved with a value, or rejected with a message or with an
error raised in a callback. -/
inductive Promise (α : Type) where
  | resolved (value : α)
  | rejected (reason : Str)
  | failed (error : JsError)
  deriving DecidableEq, Repr

/-- The part of `models/chat` and `models/chat-message` that the message functions call and
that is not among the sources: `ChatMessage.create`, `message.plain()`,
`chat.addMessages(messages, isInit)`, `chat.muted()` and `chat.removeMessage(gid)`. -/
structure MessageModel where
  create : ChatMessage → ChatMessage
  plain : ChatMessage → ChatMessage
  addMessages : Chat → List ChatMessage → Bool → Chat
  muted : Chat → Chat
  removeMessage : Chat → Str → Chat

/-- The module state together with what the message functions reach besides it: the rows of
the table `db.database.chatMessages`, the arguments of the calls of its `bulkPut` and the
keys of the calls of its `delete`, the calls of `chat.addMessages` (the chat as it was, the
messages, the flag), and the number of calls of `updateChatNotice.do()`. A store operation
completes when it is called. -/
structure Env where
  state : State
  chatMessages : List ChatMessage
  bulkPutLog : List (List ChatMessage)
  deleteLog : List Str
  addMessagesLog : List (Chat × List ChatMessage × Bool)
  noticeRequests : Nat
  deriving DecidableEq, Repr

/-- How a call ends: it returns a value or it throws, and leaves an environment. -/
inductive Outcome (α : Type) where
  | returned (value : α) (env : Env)
  | threw (error : JsError) (env : Env)
  deriving DecidableEq, Repr

/-- A write to a chat object: when the mapping holds a chat under the key, it is that object
that was written to, and the mapping holds the chat as written. -/
def writeChat (s : State) (key : Str) (chat : Chat) : State :=
  match s.chats with
  | none => s
  | some m =>
    match Obj.lookup m key with
    | some _ => { s with chats := some (Obj.set m key chat) }
    | none => s

/-- `Events.emitDataChange({chats: changed})`. -/
def emitChats (s : State) (changed : Obj Chat) : State :=
  { s with events := s.events ++ [Event.chats changed] }

/-- `deleteLocalMessage(message)`. The name `gid` in its last statement is declared nowhere in
the module. -/
def deleteLocalMessage (W : MessageModel) (M : ChatModel) (env : Env) (message : ChatMessage) :
    Outcome (Promise Unit) :=
  if message.id ≠ 0 then
    .returned (.rejected "Cannot delete a remote chat message.".toList) env
  else
    match get M env.state message.cgid with
    | .error e => .threw e env
    | .ok (none, _) => .threw .typeError env
    | .ok (some chat, s1) =>
      let removed := W.removeMessage chat message.gid
      let s2 := writeChat s1 message.cgid removed
      let s3 := emitChats s2 [(removed.gid, removed)]
      .threw .referenceError { env with state := s3 }

/-- The constant `CHATS_LIMIT_DEFAULT`. -/
def CHATS_LIMIT_DEFAULT : Nat := 100

/-- An object of field values handed to `where`: an absent property is `none`. -/
structure MessageQuery where
  gid : Option Str
  cgid : Option Str
  contentType : Option Str
  deriving DecidableEq, Repr

/-- `Object.assign(base, over)` on two field objects. -/
def MessageQuery.assign (base over : MessageQuery) : MessageQuery :=
  { gid := over.gid.orElse (fun _ => base.gid)
    cgid := over.cgid.orElse (fun _ => base.cgid)
    contentType := over.contentType.orElse (fun _ => base.contentType) }

/-- The rows `where(queryObject)` selects: those that agree with every property given. -/
def MessageQuery.selects (q : MessageQuery) (row : ChatMessage) : Bool :=
  (match q.gid with | some g => decide (row.gid = g) | none => true)
    && (match q.cgid with | some g => decide (row.cgid = g) | none => true)
    && (match q.contentType with | some t => decide (row.contentType = t) | none => true)

/-- The truth value of a field object in a condition: an object is truthy. -/
def MessageQuery.truthy (_ : MessageQuery) : Bool := true

/-- `loadChatMessages(chat, queryObject, limit = CHATS_LIMIT_DEFAULT)`; an argument that is
not given is `none`. The variable `collection` is declared with `const`, and
`queryObject` is assigned a field object before it is tested. -/
def loadChatMessages (W : MessageModel) (env : Env) (chat : Chat)
    (queryObject : Option MessageQuery) (limit : Option Nat) :
    Outcome (Promise (List ChatMessage)) :=
  let gid := chat.gid
  let queryObject : MessageQuery :=
    match queryObject with
    | some q => MessageQuery.assign { gid := some gid, cgid := none, contentType := none } q
    | none => { gid := some gid, cgid := none, contentType := none }
  let collection := env.chatMessages.filter queryObject.selects
  if limit.getD CHATS_LIMIT_DEFAULT ≠ 0 then .threw .typeError env
  else
    if collection.length ≠ 0 then
      let result := collection.map W.create
      if !queryObject.truthy then
        let seeded := W.addMessages chat result true
        let s1 := writeChat env.state chat.gid seeded
        let s2 := emitChats s1 [(seeded.gid, seeded)]
        .returned (.resolved result)
          { env with state := s2,
                     addMessagesLog := env.addMessagesLog ++ [(chat, result, true)] }
      else .returned (.resolved result) env
    else .returned (.resolved []) env

/-- A value handed to the callback of `getChatFiles`: a message, a file payload, or
`undefined`. -/
inductive FileItem where
  | message (m : ChatMessage)
  | file (f : FileContent)
  | undefined
  deriving DecidableEq, Repr

/-- The read `fileMessage.fileContent`; `none` when the read raises. -/
def FileItem.fileContent : FileItem → Option FileItem
  | .message m =>
    match m.fileContent with
    | some f => some (.file f)
    | none => some .undefined
  | .file _ => some .undefined
  | .undefined => none

/-- The loop `fileMessages.forEach(...)` of the callback of `getChatFiles`; `none` when a read
raises. -/
def sentFiles : List FileItem → Option (List FileItem)
  | [] => some []
  | fileMessage :: rest =>
    match fileMessage.fileContent with
    | some (.file f) =>
      match sentFiles rest with
      | some files => some (if f.send = some true ∧ f.id ≠ 0 then .file f :: files else files)
      | none => none
    | _ => none

/-- The mapping `fileMessages.map(fileMessage => fileMessage.fileContent)`; `none` when a read
raises. -/
def allFiles : List FileItem → Option (List FileItem)
  | [] => some []
  | fileMessage :: rest =>
    match fileMessage.fileContent, allFiles rest with
    | some f, some files => some (f :: files)
    | _, _ => none

/-- The callback `getChatFiles` hands to `then`. -/
def filesCallback (includeFailFile : Bool) (fileMessages : List FileItem) :
    Promise (List FileItem) :=
  if fileMessages.length ≠ 0 then
    match (if includeFailFile then allFiles fileMessages else sentFiles fileMessages) with
    | some files => .resolved files
    | none => .failed .typeError
  else .resolved []

/-- `promise.then(callback)` for a settled promise. -/
def Promise.andThen {α β : Type} (p : Promise α) (callback : α → Promise β) : Promise β :=
  match p with
  | .resolved value => callback value
  | .rejected reason => .rejected reason
  | .failed error => .failed error

/-- `getChatFiles(chat, includeFailFile = false)` with room for `depth` nested calls on the
call stack. The function it calls is `getChatFiles` itself, with the field object
`{contentType: 'file'}`, which is truthy, as `includeFailFile`. -/
def getChatFiles : Nat → Env → Chat → Bool → Outcome (Promise (List FileItem))
  | 0, env, _, _ => .threw .rangeError env
  | depth + 1, env, chat, includeFailFile =>
    match getChatFiles depth env chat true with
    | .threw e env1 => .threw e env1
    | .returned p env1 => .returned (p.andThen (filesCallback includeFailFile)) env1

/-- The first argument of `updateChatMessages`: one message or an array of messages. -/
inductive MessagesArg where
  | single (message : ChatMessage)
  | list (messages : List ChatMessage)

/-- The object `chatsMessages` that `updateChatMessages` builds when no message carries a
gid of `prototypeKeys`: the messages under the `cgid` they carry. -/
def groupByCgid (messages : List ChatMessage) : Obj (List ChatMessage) :=
  messages.foldl (fun chatsMessages message =>
    match Obj.lookup chatsMessages message.cgid with
    | none => Obj.set chatsMessages message.cgid [message]
    | some batch => Obj.set chatsMessages message.cgid (batch ++ [message])) []

/-- The loop `messages.forEach(...)` of `updateChatMessages` over the normalized messages,
on the object `chatsMessages` built so far. The read `chatsMessages[message.cgid]` finds the
array stored under the gid, to which the message is pushed, or nothing, and the gid is
written; for a gid of `prototypeKeys` it finds the inherited value, which is truthy and has
no `push`, and the call of `push` raises a `TypeError`. -/
def chatsMessagesOf : List ChatMessage → Obj (List ChatMessage) →
    Except JsError (Obj (List ChatMessage))
  | [], chatsMessages => .ok chatsMessages
  | message :: rest, chatsMessages =>
    match Obj.lookup chatsMessages message.cgid with
    | some batch => chatsMessagesOf rest (Obj.set chatsMessages message.cgid (batch ++ [message]))
    | none =>
      if message.cgid ∈ prototypeKeys then .error .typeError
      else chatsMessagesOf rest (Obj.set chatsMessages message.cgid [message])

/-- The loop `Object.keys(chatsMessages).forEach(cgid => ...)` of `updateChatMessages`. -/
def deliverMessages (W : MessageModel) (M : ChatModel) (muted : Bool) :
    Obj (List ChatMessage) → Env → Outcome Unit
  | [], env => .returned () env
  | (cgid, batch) :: rest, env =>
    match get M env.state cgid with
    | .error e => .threw e env
    | .ok (none, _) => deliverMessages W M muted rest env
    | .ok (some chat, s1) =>
      let added := W.addMessages chat batch false
      let written := if muted then W.muted added else added
      deliverMessages W M muted rest
        { env with state := writeChat s1 cgid written,
                   addMessagesLog := env.addMessagesLog ++ [(chat, batch, false)] }

/-- `bulkPut(rows)` on the table: a row replaces the row with its `gid`, or is added. -/
def bulkPut (table rows : List ChatMessage) : List ChatMessage :=
  rows.foldl (fun t row => (t.filter (fun r => r.gid ≠ row.gid)) ++ [row]) table

/-- `updateChatMessages(messages, muted)`. The promise it returns is that of `bulkPut`,
resolved with the key of the last row, or `Promise.resolve(0)`. -/
def updateChatMessages (W : MessageModel) (M : ChatModel) (env : Env) (messages : MessagesArg)
    (muted : Bool) : Outcome (Promise Val) :=
  let messages : List ChatMessage :=
    match messages with
    | .single message => [message]
    | .list messages => messages
  let messagesForUpdate := messages.map W.create
  match chatsMessagesOf messagesForUpdate [] with
  | .error e => .threw e env
  | .ok chatsMessages =>
    match deliverMessages W M muted chatsMessages env with
    | .threw e env1 => .threw e env1
    | .returned _ env1 =>
      let env2 := { env1 with noticeRequests := env1.noticeRequests + 1 }
      if messagesForUpdate.length ≠ 0 then
        let rows := messagesForUpdate.map (fun x => W.plain x)
        .returned
          (.resolved (match rows.getLast? with | some row => .str row.gid | none => .int 0))
          { env2 with chatMessages := bulkPut env2.chatMessages rows,
                      bulkPutLog := env2.bulkPutLog ++ [rows] }
      else .returned (.resolved (.int 0)) env2

/-! ## More concrete models -/

/-- A message model for the examples: messages are kept as they are, `addMessages` appends
to the window (or replaces it and marks the chat as loaded), `muted` clears the notice
count, `removeMessage` drops the message with the gid from the window. -/
def plainMessages : MessageModel :=
  { create := fun message => message
    plain := fun message => message
    addMessages := fun chat messages isInit =>
      if isInit then { chat with messages := messages, hasSetMessages := true }
      else { chat with messages := chat.messages ++ messages,
                       noticeCount := chat.noticeCount + messages.length }
    muted := fun chat => { chat with noticeCount := 0 }
    removeMessage := fun chat gid =>
      { chat with messages := chat.messages.filter (fun m => m.gid ≠ gid) } }

/-- A text message with the given gid, server id and chat gid. -/
def textMessage (gid : String) (id : Nat) (cgid : String) : ChatMessage :=
  { gid := gid.toList, id := id, cgid := cgid.toList, contentType := "text".toList,
    fileContent := none }

/-- An environment with the given state and table rows, and empty logs. -/
def envOf (state : State) (rows : List ChatMessage) : Env :=
  { state := state, chatMessages := rows, bulkPutLog := [], deleteLog := [],
    addMessagesLog := [], noticeRequests := 0 }

/-- The constructor of `models/chat` keeps the gid, the type and the members it is given. -/
def ChatModel.KeepsData (M : ChatModel) : Prop :=
  ∀ (d : ChatData),
    (∀ g, d.gid = some g → (M.construct d).gid = g)
      ∧ (∀ t, d.type = some t → (M.construct d).type = some t)
      ∧ (∀ ms, d.members = some ms → (M.construct d).members = ms)

/-! ## The score of a chat, as the specification gives it -/

/-- From the specification: `base(x)`, the term scored at normal weight against the lowercase
display name, the phonetic key and, for a one2one chat, the email of the other participant
followed by the mobile number. -/
def specBase (M : ChatModel) (app : App) (chat : Chat) (x : Str) : Nat :=
  caculateScore x (toLowerCase (M.getDisplayName app chat))
    + caculateScore x (M.getPinYin app chat)
    + (if chat.isOne2One then
        match M.getTheOtherOne app chat with
        | some theOtherOne => caculateScore x (theOtherOne.email ++ theOtherOne.mobile)
        | none => 0
      else 0)

/-- From the specification: `term(t)`, what a term that is not empty contributes. -/
def specTerm (M : ChatModel) (app : App) (chat : Chat) (t : Str) : Nat :=
  if 1 < t.length ∧ t.head? = some '#' then
    2 * caculateScore t.tail (toLowerCase chat.gid)
      + (if chat.isGroup ∨ chat.isSystem then
          2 * caculateScore t.tail (toLowerCase (M.getDisplayName app chat))
        else 0)
      + (if chat.isSystem then 2 * caculateScore t.tail "system".toList else 0)
      + specBase M app chat t.tail
  else if 1 < t.length ∧ t.head? = some '@' then
    (if chat.isOne2One then
        match M.getTheOtherOne app chat with
        | some theOtherOne => 2 * caculateScore t.tail theOtherOne.account
        | none => 0
      else 0)
      + specBase M app chat t.tail
  else specBase M app chat t

/-- From the specification: the score of a chat, the sum of `term(t)` over the terms that are
not empty. -/
def specScore (M : ChatModel) (app : App) (terms : List Str) (chat : Chat) : Nat :=
  ((terms.filter (fun t => decide (t ≠ []))).map (specTerm M app chat)).sum

/-- The chat `get` resolves for a gid in a state, if it resolves one. -/
def resolves (M : ChatModel) (s : State) (gid : Str) : Option Chat :=
  match get M s gid with
  | .ok (some chat, _) => some chat
  | _ => none

/-- The call of `chat.addMessages` that is due for the gid `cgid` when the normalized
messages are `normalized`: the chat `get` resolves receives the messages that carry `cgid`, in
their order; no call when `get` resolves no chat. -/
def deliveryFor (M : ChatModel) (s : State) (normalized : List ChatMessage) (cgid : Str) :
    Option (Chat × List ChatMessage × Bool) :=
  (resolves M s cgid).map (fun chat =>
    (chat, normalized.filter (fun x => decide (x.cgid = cgid)), false))

/-! ## Facts about the string operations -/

theorem indexOfFrom_some (sKey : Str) : ∀ (findIn : Str) (i j : Nat),
    indexOfFrom sKey findIn i = some j →
      ∃ k, j = i + k ∧ sKey <+: findIn.drop k ∧ ∀ k', k' < k → ¬ sKey <+: findIn.drop k'
  | [], i, j, h => by
    simp only [indexOfFrom] at h
    split at h
    · rename_i hp
      refine ⟨0, by simpa using (Option.some.inj h).symm, ?_, by simp⟩
      simpa using List.isPrefixOf_iff_prefix.mp hp
    · cases h
  | c :: cs, i, j, h => by
    simp only [indexOfFrom] at h
    split at h
    · rename_i hp
      refine ⟨0, by simpa using (Option.some.inj h).symm, ?_, by simp⟩
      simpa using List.isPrefixOf_iff_prefix.mp hp
    · rename_i hp
      obtain ⟨k, hj, hk, hmin⟩ := indexOfFrom_some sKey cs (i + 1) j h
      refine ⟨k + 1, by omega, by simpa using hk, ?_⟩
      intro k' hk'
      cases k' with
      | zero =>
        intro hpre
        exact hp (List.isPrefixOf_iff_prefix.mpr (by simpa using hpre))
      | succ n => simpa using hmin n (by omega)

theorem indexOfFrom_none (sKey : Str) : ∀ (findIn : Str) (i : Nat),
    indexOfFrom sKey findIn i = none → ∀ k, ¬ sKey <+: findIn.drop k
  | [], i, h, k => by
    simp only [indexOfFrom] at h
    split at h
    · cases h
    · rename_i hp
      intro hpre
      exact hp (List.isPrefixOf_iff_prefix.mpr (by simpa using hpre))
  | c :: cs, i, h, k => by
    simp only [indexOfFrom] at h
    split at h
    · cases h
    · rename_i hp
      cases k with
      | zero =>
        intro hpre
        exact hp (List.isPrefixOf_iff_prefix.mpr (by simpa using hpre))
      | succ n => simpa using indexOfFrom_none sKey cs (i + 1) h n

theorem indexOf_eq_zero_iff (findIn sKey : Str) : indexOf findIn sKey = 0 ↔ sKey <+: findIn := by
  unfold indexOf
  cases h : indexOfFrom sKey findIn 0 with
  | none =>
    have := indexOfFrom_none sKey findIn 0 h 0
    simp only [List.drop_zero] at this
    simp [this]
  | some j =>
    obtain ⟨k, hj, hk, hmin⟩ := indexOfFrom_some sKey findIn 0 j h
    constructor
    · intro h0
      have : k = 0 := by simp at h0; omega
      subst this
      simpa using hk
    · intro hpre
      have : k = 0 := by
        by_contra hne
        exact hmin 0 (Nat.pos_of_ne_zero hne) (by simpa using hpre)
      subst this
      simp [hj]

theorem indexOf_pos_iff (findIn sKey : Str) :
    0 < indexOf findIn sKey ↔ ¬ sKey <+: findIn ∧ ∃ i, 0 < i ∧ sKey <+: findIn.drop i := by
  unfold indexOf
  cases h : indexOfFrom sKey findIn 0 with
  | none =>
    have hn := indexOfFrom_none sKey findIn 0 h
    constructor
    · intro h0; simp at h0
    · rintro ⟨_, i, _, hi⟩
      exact absurd hi (hn i)
  | some j =>
    obtain ⟨k, hj, hk, hmin⟩ := indexOfFrom_some sKey findIn 0 j h
    have hjk : j = k := by omega
    subst hjk
    constructor
    · intro h0
      have hpos : 0 < j := by simpa using h0
      exact ⟨by simpa using hmin 0 hpos, j, hpos, hk⟩
    · rintro ⟨hnp, _⟩
      have : j ≠ 0 := by
        rintro rfl
        exact hnp (by simpa using hk)
      simp only [Nat.cast_pos]
      omega

open Classical in
/-- The value of `caculateScore` by cases. -/
theorem caculateScore_cases (term field : Str) :
    caculateScore term field =
        (if term = [] ∨ field = [] then 0
         else if term = field then 100
         else if term <+: field then 75
         else if ∃ i, 0 < i ∧ term <+: field.drop i then 50
         else 0) := by
  unfold caculateScore isEmpty
  by_cases he : term = [] ∨ field = []
  · rw [if_pos he]
    rcases he with h | h <;> simp [h]
  · rw [if_neg he]
    have h1 : term ≠ [] := fun h => he (Or.inl h)
    have h2 : field ≠ [] := fun h => he (Or.inr h)
    have hb : (List.isEmpty term || List.isEmpty field) = false := by
      cases term <;> cases field <;> simp_all
    rw [hb]
    simp only [Bool.false_eq_true, if_false]
    by_cases heq : term = field
    · simp [heq, SEARCH_SCORE_MAP]
    · rw [if_neg heq, if_neg heq]
      by_cases hp : term <+: field
      · have := (indexOf_eq_zero_iff field term).mpr hp
        simp [this, hp, SEARCH_SCORE_MAP]
      · have h0 : indexOf field term ≠ 0 := fun h => hp ((indexOf_eq_zero_iff field term).mp h)
        rw [if_neg hp]
        by_cases hi : ∃ i, 0 < i ∧ term <+: field.drop i
        · have := (indexOf_pos_iff field term).mpr ⟨hp, hi⟩
          simp [h0, this, hi, SEARCH_SCORE_MAP]
        · have : ¬ 0 < indexOf field term := fun h => hi ((indexOf_pos_iff field term).mp h).2
          simp only [gt_iff_lt]
          simp [h0, this, hi]

/-! ## Facts about dictionaries -/

theorem Obj.lookup_set_self {α : Type} : ∀ (o : Obj α) (k : Str) (v : α),
    Obj.lookup (Obj.set o k v) k = some v
  | [], k, v => by simp [Obj.set, Obj.lookup]
  | (k', v') :: rest, k, v => by
    by_cases h : k' = k
    · subst h
      simp [Obj.set, Obj.lookup]
    · simp only [Obj.set, Obj.lookup, h, if_false, Obj.lookup_set_self rest k v]

theorem Obj.lookup_set_other {α : Type} : ∀ (o : Obj α) (k : Str) (v : α) (k₁ : Str), k₁ ≠ k →
    Obj.lookup (Obj.set o k v) k₁ = Obj.lookup o k₁
  | [], k, v, k₁, hne => by simp [Obj.set, Obj.lookup, Ne.symm hne]
  | (k', v') :: rest, k, v, k₁, hne => by
    by_cases h : k' = k
    · subst h
      simp [Obj.set, Obj.lookup, Ne.symm hne]
    · by_cases h1 : k' = k₁
      · subst h1
        simp only [Obj.set, Obj.lookup, h, if_false, if_true]
      · simp only [Obj.set, Obj.lookup, h, h1, if_false, Obj.lookup_set_other rest k v k₁ hne]

theorem Obj.lookup_eq_none_iff {α : Type} : ∀ (o : Obj α) (k : Str),
    Obj.lookup o k = none ↔ k ∉ Obj.keys o
  | [], k => by simp [Obj.lookup, Obj.keys]
  | (k', v') :: rest, k => by
    have ih := Obj.lookup_eq_none_iff rest k
    by_cases h : k' = k
    · simp only [Obj.lookup, Obj.keys, h, if_true, List.map_cons, List.mem_cons, true_or,
        not_true_eq_false]
      simp
    · simp only [Obj.keys] at ih
      simp only [Obj.lookup, Obj.keys, h, if_false, ih, List.map_cons, List.mem_cons,
        Ne.symm h, false_or]

theorem Obj.mem_of_lookup {α : Type} : ∀ (o : Obj α) (k : Str) (v : α),
    Obj.lookup o k = some v → (k, v) ∈ o
  | [], k, v, h => by simp [Obj.lookup] at h
  | (k', v') :: rest, k, v, h => by
    by_cases hk : k' = k
    · subst hk
      simp only [Obj.lookup, if_true, Option.some.injEq] at h
      subst h
      exact List.mem_cons_self _ _
    · simp only [Obj.lookup, hk, if_false] at h
      exact List.mem_cons_of_mem _ (Obj.mem_of_lookup rest k v h)

theorem Obj.lookup_of_mem {α : Type} : ∀ (o : Obj α) (k : Str) (v : α),
    (Obj.keys o).Nodup → (k, v) ∈ o → Obj.lookup o k = some v
  | [], k, v, _, h => by simp at h
  | (k', v') :: rest, k, v, hnd, h => by
    simp only [Obj.keys, List.map_cons, List.nodup_cons] at hnd
    rcases List.mem_cons.mp h with h | h
    · cases h
      simp [Obj.lookup]
    · have hk : k' ≠ k := by
        rintro rfl
        exact hnd.1 (List.mem_map.mpr ⟨(k', v), h, rfl⟩)
      simp only [Obj.lookup, hk, if_false]
      exact Obj.lookup_of_mem rest k v hnd.2 h

theorem Obj.mem_keys_set {α : Type} : ∀ (o : Obj α) (k : Str) (v : α) (k₁ : Str),
    k₁ ∈ Obj.keys (Obj.set o k v) ↔ k₁ ∈ Obj.keys o ∨ k₁ = k
  | [], k, v, k₁ => by simp [Obj.set, Obj.keys]
  | (k', v') :: rest, k, v, k₁ => by
    have ih := Obj.mem_keys_set rest k v k₁
    simp only [Obj.keys] at ih
    by_cases h : k' = k
    · subst h
      simp only [Obj.set, Obj.keys, if_true, List.map_cons, List.mem_cons]
      tauto
    · simp only [Obj.set, Obj.keys, h, if_false, List.map_cons, List.mem_cons, ih]
      tauto

theorem Obj.nodup_keys_set {α : Type} : ∀ (o : Obj α) (k : Str) (v : α),
    (Obj.keys o).Nodup → (Obj.keys (Obj.set o k v)).Nodup
  | [], k, v, _ => by simp [Obj.set, Obj.keys]
  | (k', v') :: rest, k, v, hnd => by
    simp only [Obj.keys, List.map_cons, List.nodup_cons] at hnd
    by_cases h : k' = k
    · subst h
      simp only [Obj.set, Obj.keys, if_true, List.map_cons, List.nodup_cons]
      exact hnd
    · simp only [Obj.set, Obj.keys, h, if_false, List.map_cons, List.nodup_cons]
      refine ⟨?_, Obj.nodup_keys_set rest k v hnd.2⟩
      intro hm
      have := (Obj.mem_keys_set rest k v k').mp hm
      rcases this with h1 | h1
      · exact hnd.1 h1
      · exact h h1

theorem lastWith_append_singleton {β : Type} (key : β → Str) (l : List β) (c : β) (k : Str) :
    lastWith key (l ++ [c]) k = if key c = k then some c else lastWith key l k := by
  simp only [lastWith, List.reverse_append, List.reverse_cons, List.reverse_nil, List.nil_append,
    List.singleton_append, List.find?_cons]
  by_cases h : key c = k <;> simp [h]

theorem lastWith_isSome {β : Type} (key : β → Str) (l : List β) (k : Str) :
    (lastWith key l k).isSome ↔ k ∈ l.map key := by
  simp only [lastWith, List.find?_isSome, List.mem_reverse, decide_eq_true_eq, List.mem_map]

theorem lastWith_key {β : Type} (key : β → Str) (l : List β) (k : Str) (c : β)
    (h : lastWith key l k = some c) : key c = k ∧ c ∈ l := by
  have h1 := List.find?_some h
  have h2 := List.mem_of_find?_eq_some h
  exact ⟨by simpa using h1, by simpa using h2⟩

/-- Writing the records of `l` one after another: a key of `l` ends with the value of the last
record that carries it, the other keys are kept, and no key is doubled. -/
theorem foldl_set_spec {α β : Type} (key : β → Str) (val : β → α) : ∀ (l : List β)
    (init : Obj α),
    (∀ k, Obj.lookup (l.foldl (fun o c => Obj.set o (key c) (val c)) init) k
        = ((lastWith key l k).map val).orElse (fun _ => Obj.lookup init k))
      ∧ (∀ k, k ∈ Obj.keys (l.foldl (fun o c => Obj.set o (key c) (val c)) init)
          ↔ k ∈ Obj.keys init ∨ k ∈ l.map key)
      ∧ ((Obj.keys init).Nodup →
          (Obj.keys (l.foldl (fun o c => Obj.set o (key c) (val c)) init)).Nodup) := by
  intro l
  induction l using List.reverseRecOn with
  | nil =>
    intro init
    simp [lastWith]
  | append_singleton l c ih =>
    intro init
    obtain ⟨h1, h2, h3⟩ := ih init
    simp only [List.foldl_append, List.foldl_cons, List.foldl_nil]
    refine ⟨?_, ?_, ?_⟩
    · intro k
      rw [lastWith_append_singleton]
      by_cases hk : key c = k
      · subst hk
        simp [Obj.lookup_set_self]
      · rw [Obj.lookup_set_other _ _ _ _ (Ne.symm hk), h1 k, if_neg hk]
    · intro k
      rw [Obj.mem_keys_set, h2 k]
      simp only [List.map_append, List.map_cons, List.map_nil, List.mem_append,
        List.mem_singleton]
      tauto
    · intro hnd
      exact Obj.nodup_keys_set _ _ _ (h3 hnd)

theorem foldl_store_eq {α β : Type} (key : β → Str) (val : β → α) : ∀ (l : List β)
    (init : Obj α),
    l.foldl (fun o c => Obj.store o (key c) (val c)) init
      = (l.filter (fun c => decide (key c ≠ "__proto__".toList))).foldl
          (fun o c => Obj.set o (key c) (val c)) init := by
  intro l
  induction l with
  | nil =>
    intro init
    rfl
  | cons c l ih =>
    intro init
    by_cases h : key c = "__proto__".toList
    · rw [List.filter_cons_of_neg (by simpa using h), List.foldl_cons, ← ih]
      simp only [Obj.store, h, if_true]
    · rw [List.filter_cons_of_pos (by simpa using h), List.foldl_cons, List.foldl_cons, ← ih]
      simp only [Obj.store, h, if_false]

theorem newchatsOf_eq (M : ChatModel) (chatArr : List Chat) :
    newchatsOf M chatArr
      = ((chatArr.map M.create).filter (fun c => decide (c.gid ≠ "__proto__".toList))).foldl
          (fun o c => Obj.set o c.gid c) [] := by
  unfold newchatsOf
  rw [← foldl_store_eq Chat.gid (fun c => c), List.foldl_map]

/-- Writing the chats of a list one after another under their gids: one entry for each gid,
holding the last chat with that gid. -/
theorem foldl_set_gid_spec (l : List Chat) :
    (∀ g, Obj.lookup (l.foldl (fun o c => Obj.set o c.gid c) []) g = lastWith Chat.gid l g)
      ∧ (∀ g, g ∈ Obj.keys (l.foldl (fun o c => Obj.set o c.gid c) []) ↔ g ∈ l.map Chat.gid)
      ∧ (Obj.keys (l.foldl (fun o c => Obj.set o c.gid c) [])).Nodup
      ∧ (∀ p ∈ l.foldl (fun o c => Obj.set o c.gid c) [], p.2.gid = p.1) := by
  obtain ⟨h1, h2, h3⟩ := foldl_set_spec Chat.gid (fun c => c) l []
  refine ⟨?_, ?_, h3 (by simp [Obj.keys]), ?_⟩
  · intro g
    rw [h1 g]
    cases lastWith Chat.gid l g <;> simp [Obj.lookup]
  · intro g
    rw [h2 g]
    simp [Obj.keys]
  · rintro ⟨k, c⟩ hp
    have hl := Obj.lookup_of_mem _ k c (h3 (by simp [Obj.keys])) hp
    rw [h1 k] at hl
    cases hlw : lastWith Chat.gid l k with
    | none => simp [hlw, Obj.lookup] at hl
    | some c' =>
      simp only [hlw, Option.map_some', Option.orElse, Option.some.injEq] at hl
      subst hl
      exact (lastWith_key _ _ _ _ hlw).1

/-- The object `newchats` of `update`: one entry for each gid of the array other than
`__proto__`, holding the last canonical chat with that gid. -/
theorem newchatsOf_spec (M : ChatModel) (chatArr : List Chat) :
    (∀ g, Obj.lookup (newchatsOf M chatArr) g
        = lastWith Chat.gid
            ((chatArr.map M.create).filter (fun c => decide (c.gid ≠ "__proto__".toList))) g)
      ∧ (∀ g, g ∈ Obj.keys (newchatsOf M chatArr)
          ↔ g ∈ ((chatArr.map M.create).filter
              (fun c => decide (c.gid ≠ "__proto__".toList))).map Chat.gid)
      ∧ (Obj.keys (newchatsOf M chatArr)).Nodup
      ∧ (∀ p ∈ newchatsOf M chatArr, p.2.gid = p.1) := by
  rw [newchatsOf_eq]
  exact foldl_set_gid_spec _

/-- The object `newchats` of `update` for an array in which no canonical chat has the gid
`__proto__`: one entry for each gid of the array, holding the last canonical chat with that
gid. -/
theorem newchatsOf_plain (M : ChatModel) (chatArr : List Chat)
    (hproto : ∀ c ∈ chatArr, (M.create c).gid ≠ "__proto__".toList) :
    (∀ g, Obj.lookup (newchatsOf M chatArr) g = lastWith Chat.gid (chatArr.map M.create) g)
      ∧ (∀ g, g ∈ Obj.keys (newchatsOf M chatArr) ↔ g ∈ (chatArr.map M.create).map Chat.gid)
      ∧ (Obj.keys (newchatsOf M chatArr)).Nodup
      ∧ (∀ p ∈ newchatsOf M chatArr, p.2.gid = p.1) := by
  have hf : (chatArr.map M.create).filter (fun c => decide (c.gid ≠ "__proto__".toList))
      = chatArr.map M.create := by
    apply List.filter_eq_self.mpr
    intro c hc
    obtain ⟨d, hd, rfl⟩ := List.mem_map.mp hc
    simpa using hproto d hd
  have h := newchatsOf_spec M chatArr
  rw [hf] at h
  exact h

/-- `Object.assign(target, source)` for a source without doubled keys: a key of the source
takes the value of the source, the other keys keep theirs. -/
theorem Obj.assign_spec {α : Type} (target source : Obj α) (hs : (Obj.keys source).Nodup) :
    (∀ k, Obj.lookup (Obj.assign target source) k
        = (Obj.lookup source k).orElse (fun _ => Obj.lookup target k))
      ∧ (∀ k, k ∈ Obj.keys (Obj.assign target source)
          ↔ k ∈ Obj.keys target ∨ k ∈ Obj.keys source)
      ∧ ((Obj.keys target).Nodup → (Obj.keys (Obj.assign target source)).Nodup) := by
  obtain ⟨h1, h2, h3⟩ := foldl_set_spec (Prod.fst : Str × α → Str) Prod.snd source target
  refine ⟨?_, h2, h3⟩
  intro k
  have := h1 k
  unfold Obj.assign
  rw [this]
  cases hl : lastWith Prod.fst source k with
  | none =>
    have : Obj.lookup source k = none := by
      rw [Obj.lookup_eq_none_iff]
      intro hk
      have := (lastWith_isSome Prod.fst source k).mpr hk
      simp [hl] at this
    simp [this]
  | some p =>
    obtain ⟨hk, hp⟩ := lastWith_key _ _ _ _ hl
    have : Obj.lookup source k = some p.2 := by
      apply Obj.lookup_of_mem _ _ _ hs
      rw [← hk]
      exact hp
    simp [this]
/-! ## Facts about the default order and the contact gid -/

theorem charToNat_inj (a b : Char) (h : a.toNat = b.toNat) : a = b := by
  apply Char.ext
  apply UInt32.ext
  exact h

theorem strLt_asymm : ∀ (a b : Str), strLt a b = true → strLt b a = false
  | [], [], h => by simp [strLt] at h
  | [], _ :: _, _ => by simp [strLt]
  | _ :: _, [], h => by simp [strLt] at h
  | x :: xs, y :: ys, h => by
    simp only [strLt] at h ⊢
    by_cases h1 : x.toNat < y.toNat
    · have h2 : ¬ y.toNat < x.toNat := by omega
      simp [h1, h2]
    · by_cases h2 : y.toNat < x.toNat
      · simp [h1, h2] at h
      · simp only [h1, h2, if_false] at h ⊢
        exact strLt_asymm xs ys h

theorem strLt_trichotomy : ∀ (a b : Str), strLt a b = false → strLt b a = false → a = b
  | [], [], _, _ => rfl
  | [], _ :: _, h, _ => by simp [strLt] at h
  | _ :: _, [], _, h => by simp [strLt] at h
  | x :: xs, y :: ys, h, h' => by
    simp only [strLt] at h h'
    by_cases h1 : x.toNat < y.toNat
    · simp [h1] at h
    · by_cases h2 : y.toNat < x.toNat
      · simp [h2] at h'
      · simp only [h1, h2, if_false] at h h'
        have hxy : x = y := charToNat_inj x y (by omega)
        rw [hxy, strLt_trichotomy xs ys h h']

theorem sortDefault_pair (a b : Val) :
    sortDefault [a, b] = if strLt b.toStr a.toStr then [b, a] else [a, b] := by
  simp [sortDefault, sortInsert]

theorem contactGid_eq (a b : Val) :
    contactGid a b
      = if strLt b.toStr a.toStr then b.toStr ++ '&' :: a.toStr else a.toStr ++ '&' :: b.toStr := by
  unfold contactGid
  rw [sortDefault_pair]
  split <;> simp [joinVals, join]

theorem contactGid_comm (a b : Val) : contactGid a b = contactGid b a := by
  rw [contactGid_eq, contactGid_eq]
  cases h1 : strLt b.toStr a.toStr with
  | true =>
    rw [strLt_asymm _ _ h1]
    simp
  | false =>
    cases h2 : strLt a.toStr b.toStr with
    | true => simp
    | false =>
      rw [strLt_trichotomy _ _ h1 h2]

theorem includes_contactGid (a b : Val) : includes (contactGid a b) '&' = true := by
  rw [contactGid_eq]
  unfold includes
  split <;> simp

theorem contactGid_nat (a b : Nat) : contactGid (.int a) (.int b) = textOrderGid a b := by
  rw [contactGid_eq]
  rfl

/-! ## Facts about `get` and `getContactChat` -/

/-- On an initialised mapping `get` returns without changing the state: the stored chat, or
for a gid with `&` a chat it builds, or `undefined`. -/
theorem get_ok (M : ChatModel) (s : State) (m : Obj Chat) (gid : Str) (hinit : s.chats = some m) :
    ∃ r, get M s gid = .ok (r, s)
      ∧ (∀ c, Obj.lookup m gid = some c → r = some c)
      ∧ (Obj.lookup m gid = none → includes gid '&' = true →
          r = some ((M.construct
            { gid := some gid, name := none, members := some ((split '&' gid).map parseInt),
              createdBy := some s.user.account, type := some .one2one,
              star := none }).updateMembersSet ((split '&' gid).map parseInt)))
      ∧ (Obj.lookup m gid = none → includes gid '&' = false → r = none) := by
  unfold get
  simp only [hinit]
  cases hl : Obj.lookup m gid with
  | some c =>
    exact ⟨some c, rfl, fun c' h => (by cases h; rfl), fun h => (by cases h),
      fun h => (by cases h)⟩
  | none =>
    cases hi : includes gid '&' with
    | true =>
      exact ⟨_, by simp, fun c h => (by cases h), fun _ _ => rfl, fun _ h => (by cases h)⟩
    | false =>
      exact ⟨none, by simp, fun c h => (by cases h), fun _ h => (by cases h), fun _ _ => rfl⟩

/-- For a gid with `&`, `get` on an initialised mapping returns a chat, and that chat carries
the gid when the stored chats are keyed by their gids and the constructor keeps the gid. -/
theorem get_contact (M : ChatModel) (s : State) (m : Obj Chat) (gid : Str)
    (hinit : s.chats = some m) (hamp : includes gid '&' = true) :
    ∃ c, get M s gid = .ok (some c, s)
      ∧ (M.KeepsGid → KeyedByGid m → c.gid = gid)
      ∧ (∀ c', Obj.lookup m gid = some c' → c = c') := by
  obtain ⟨r, hr, h1, h2, _⟩ := get_ok M s m gid hinit
  cases hl : Obj.lookup m gid with
  | some c =>
    have := h1 c hl
    subst this
    refine ⟨c, hr, ?_, fun c' h => (by cases h; rfl)⟩
    intro _ hk
    exact hk (gid, c) (Obj.mem_of_lookup m gid c hl)
  | none =>
    have := h2 hl hamp
    subst this
    refine ⟨_, hr, ?_, fun c' h => (by cases h)⟩
    intro hM _
    exact hM _ gid rfl

/-- On an initialised mapping `getContactChat` returns what `get` returns for the contact gid,
and leaves the state as it was: the branch that constructs and registers a chat is never
reached. -/
theorem getContactChat_ok (M : ChatModel) (s : State) (m : Obj Chat) (member : Member)
    (hinit : s.chats = some m) :
    ∃ c, getContactChat M s member = .ok (c, s)
      ∧ get M s (contactGid member.id s.user.id) = .ok (some c, s)
      ∧ (M.KeepsGid → KeyedByGid m → c.gid = contactGid member.id s.user.id)
      ∧ (∀ c', Obj.lookup m (contactGid member.id s.user.id) = some c' → c = c') := by
  obtain ⟨c, hc, h1, h2⟩ :=
    get_contact M s m (contactGid member.id s.user.id) hinit (includes_contactGid _ _)
  refine ⟨c, ?_, hc, h1, h2⟩
  unfold getContactChat
  unfold contactGid at hc
  simp only [hc]

theorem chatMemberIds_two (M : ChatModel) (s : State) (m : Obj Chat) (arg : MembersArg)
    (setting : ChatData) (x y : Val) (hinit : s.chats = some m)
    (hids : chatMemberIds s.user.id arg = [x, y]) :
    ∃ c, createWithMembers M s arg setting = .ok (c, s)
      ∧ (M.KeepsGid → KeyedByGid m → c.gid = contactGid x y) := by
  obtain ⟨c, hc, h1, _⟩ := get_contact M s m (contactGid x y) hinit (includes_contactGid _ _)
  refine ⟨c, ?_, h1⟩
  unfold createWithMembers
  unfold contactGid at hc
  simp only [hids, List.length_cons, List.length_nil, if_true, hc]
/-! ## Decimal forms of equal length -/

theorem digitChar_toNat (d : Nat) (h : d < 10) : (Nat.digitChar d).toNat = 48 + d := by
  interval_cases d <;> rfl

theorem toDigitsCore_eq : ∀ (fuel n : Nat) (ds : List Char), n < fuel →
    Nat.toDigitsCore 10 fuel n ds
      = ((if n = 0 then [0] else (Nat.digits 10 n).reverse).map Nat.digitChar) ++ ds := by
  intro fuel
  induction fuel with
  | zero => intro n ds h; omega
  | succ fuel ih =>
    intro n ds h
    unfold Nat.toDigitsCore
    by_cases h0 : n / 10 = 0
    · have hlt : n < 10 := by omega
      have hmod : n % 10 = n := Nat.mod_eq_of_lt hlt
      simp only [h0, if_true, hmod]
      by_cases hn : n = 0
      · subst hn
        simp
      · simp [hn, Nat.digits_of_lt 10 n hn hlt]
    · have hn : n ≠ 0 := by
        rintro rfl
        exact h0 rfl
      have hdiv : n / 10 < fuel := by omega
      simp only [h0, if_false]
      rw [ih (n / 10) _ hdiv]
      rw [if_neg h0, if_neg hn]
      rw [Nat.digits_def' (by norm_num) (Nat.pos_of_ne_zero hn)]
      simp

theorem decimal_eq (n : Nat) :
    decimal n = (if n = 0 then [0] else (Nat.digits 10 n).reverse).map Nat.digitChar := by
  unfold decimal Nat.toDigits
  rw [toDigitsCore_eq (n + 1) n [] (by omega)]
  simp

theorem strLt_digits : ∀ (l₁ l₂ : List Nat), l₁.length = l₂.length →
    (∀ d ∈ l₁, d < 10) → (∀ d ∈ l₂, d < 10) →
    (strLt (l₁.map Nat.digitChar) (l₂.map Nat.digitChar) = true
      ↔ Nat.ofDigits 10 l₁.reverse < Nat.ofDigits 10 l₂.reverse)
  | [], [], _, _, _ => by simp [strLt]
  | [], _ :: _, h, _, _ => by simp at h
  | _ :: _, [], h, _, _ => by simp at h
  | d₁ :: l₁, d₂ :: l₂, h, h₁, h₂ => by
    have hlen : l₁.length = l₂.length := by simpa using h
    have ih := strLt_digits l₁ l₂ hlen (fun d hd => h₁ d (List.mem_cons_of_mem _ hd))
      (fun d hd => h₂ d (List.mem_cons_of_mem _ hd))
    have hd₁ : d₁ < 10 := h₁ d₁ (List.mem_cons_self _ _)
    have hd₂ : d₂ < 10 := h₂ d₂ (List.mem_cons_self _ _)
    have hb₁ : Nat.ofDigits 10 l₁.reverse < 10 ^ l₁.length := by
      have := @Nat.ofDigits_lt_base_pow_length 10 l₁.reverse (by norm_num)
        (fun x hx => h₁ x (List.mem_cons_of_mem _ (List.mem_reverse.mp hx)))
      simpa using this
    have hb₂ : Nat.ofDigits 10 l₂.reverse < 10 ^ l₁.length := by
      have := @Nat.ofDigits_lt_base_pow_length 10 l₂.reverse (by norm_num)
        (fun x hx => h₂ x (List.mem_cons_of_mem _ (List.mem_reverse.mp hx)))
      simpa [hlen] using this
    simp only [List.map_cons, strLt, digitChar_toNat d₁ hd₁, digitChar_toNat d₂ hd₂,
      List.reverse_cons, Nat.ofDigits_append, Nat.ofDigits_singleton, List.length_reverse,
      ← hlen]
    generalize Nat.ofDigits 10 l₁.reverse = v₁ at *
    generalize Nat.ofDigits 10 l₂.reverse = v₂ at *
    generalize 10 ^ l₁.length = P at *
    by_cases c₁ : d₁ < d₂
    · have : P * (d₁ + 1) ≤ P * d₂ := Nat.mul_le_mul_left P c₁
      have hc : 48 + d₁ < 48 + d₂ := by omega
      simp only [hc, if_true, true_iff]
      rw [Nat.mul_add, Nat.mul_one] at this
      omega
    · by_cases c₂ : d₂ < d₁
      · have : P * (d₂ + 1) ≤ P * d₁ := Nat.mul_le_mul_left P c₂
        have hc : ¬ 48 + d₁ < 48 + d₂ := by omega
        have hc' : 48 + d₂ < 48 + d₁ := by omega
        simp only [hc, hc', if_true, if_false, Bool.false_eq_true, false_iff]
        rw [Nat.mul_add, Nat.mul_one] at this
        omega
      · have heq : d₁ = d₂ := by omega
        subst heq
        simp only [Nat.lt_irrefl, if_false, ih]
        omega

theorem strLt_decimal (a b : Nat) (h : (decimal a).length = (decimal b).length) :
    strLt (decimal a) (decimal b) = true ↔ a < b := by
  have key : ∀ n : Nat, (∀ d ∈ (if n = 0 then [0] else (Nat.digits 10 n).reverse), d < 10)
      ∧ Nat.ofDigits 10 (if n = 0 then [0] else (Nat.digits 10 n).reverse).reverse = n := by
    intro n
    by_cases hn : n = 0
    · subst hn
      simp
    · simp only [hn, if_false, List.reverse_reverse, Nat.ofDigits_digits, and_true]
      intro d hd
      exact Nat.digits_lt_base (by norm_num) (List.mem_reverse.mp hd)
  rw [decimal_eq a, decimal_eq b] at h ⊢
  rw [strLt_digits _ _ (by simpa using h) (key a).1 (key b).1, (key a).2, (key b).2]

theorem textOrderGid_of_length_eq (a b : Nat) (h : (decimal a).length = (decimal b).length) :
    textOrderGid a b = decimal (min a b) ++ '&' :: decimal (max a b) := by
  unfold textOrderGid
  by_cases hlt : b < a
  · rw [if_pos ((strLt_decimal b a h.symm).mpr hlt)]
    rw [Nat.min_eq_right (Nat.le_of_lt hlt), Nat.max_eq_left (Nat.le_of_lt hlt)]
  · have : ¬ strLt (decimal b) (decimal a) = true := fun hs => hlt ((strLt_decimal b a h.symm).mp hs)
    rw [if_neg this]
    rw [Nat.min_eq_left (Nat.le_of_not_lt hlt), Nat.max_eq_right (Nat.le_of_not_lt hlt)]

theorem plainModel_keepsGid : plainModel.KeepsGid := by
  intro d g h
  simp [plainModel, h]

/-! ## Facts about `update`, `getContactsChats` and `search` -/

/-- A mapping without doubled keys in which every chat is stored under its gid stays so
when `update` merges a batch into it. -/
theorem assign_newchats_wf (M : ChatModel) (m : Obj Chat) (chatArr : List Chat)
    (hnd : (Obj.keys m).Nodup) (hkeyed : KeyedByGid m) :
    (Obj.keys (Obj.assign m (newchatsOf M chatArr))).Nodup
      ∧ KeyedByGid (Obj.assign m (newchatsOf M chatArr)) := by
  obtain ⟨n1, n2, n3, n4⟩ := newchatsOf_spec M chatArr
  obtain ⟨a1, a2, a3⟩ := Obj.assign_spec m (newchatsOf M chatArr) n3
  refine ⟨a3 hnd, ?_⟩
  rintro ⟨k, c⟩ hp
  have hl := Obj.lookup_of_mem _ k c (a3 hnd) hp
  rw [a1 k] at hl
  cases hn : Obj.lookup (newchatsOf M chatArr) k with
  | some c' =>
    simp only [hn, Option.orElse, Option.some.injEq] at hl
    subst hl
    exact n4 (k, c') (Obj.mem_of_lookup _ _ _ hn)
  | none =>
    simp only [hn, Option.orElse] at hl
    exact hkeyed (k, c) (Obj.mem_of_lookup _ _ _ hl)

theorem update_list_ok (M : ChatModel) (s : State) (m : Obj Chat) (chatArr : List Chat)
    (hinit : s.chats = some m) :
    ∃ s₁ m₁, update M s (.list chatArr) = .ok s₁ ∧ s₁.chats = some m₁
      ∧ s₁.members = s.members ∧ s₁.user = s.user
      ∧ ((Obj.keys m).Nodup → KeyedByGid m → (Obj.keys m₁).Nodup ∧ KeyedByGid m₁)
      ∧ (chatArr = [] → s₁ = s) := by
  by_cases h : chatArr.length = 0
  · refine ⟨s, m, by simp [update, h], hinit, rfl, rfl, fun a b => ⟨a, b⟩, fun _ => rfl⟩
  · refine ⟨State.mk (some (Obj.assign m (newchatsOf M chatArr))) s.publicChats s.members s.user
        (s.events ++ [Event.chats (newchatsOf M chatArr)]),
      Obj.assign m (newchatsOf M chatArr), by simp only [update, h, if_false, hinit],
      rfl, rfl, rfl, fun a b => assign_newchats_wf M m chatArr a b, ?_⟩
    intro hnil
    rw [hnil] at h
    exact absurd rfl h

theorem collectContactsChats_ok (M : ChatModel) (s : State) (m : Obj Chat)
    (hinit : s.chats = some m) : ∀ (ms : List Member) (acc : List Chat),
    ∃ cs, collectContactsChats M ms s acc = .ok (cs, s)
  | [], acc => ⟨acc, rfl⟩
  | member :: ms, acc => by
    unfold collectContactsChats
    by_cases h : (!(member.id.strictEq s.user.id)) = true
    · obtain ⟨c, hc, _⟩ := getContactChat_ok M s m member hinit
      simp only [h, if_true, hc]
      exact collectContactsChats_ok M s m hinit ms (acc ++ [c])
    · simp only [h, if_false]
      exact collectContactsChats_ok M s m hinit ms acc

theorem getContactsChats_ok (M : ChatModel) (s : State) (m : Obj Chat)
    (hinit : s.chats = some m) :
    ∃ cs s₁ m₁, getContactsChats M s = .ok (cs, s₁) ∧ s₁.chats = some m₁
      ∧ s₁.members = s.members ∧ s₁.user = s.user
      ∧ ((Obj.keys m).Nodup → KeyedByGid m → (Obj.keys m₁).Nodup ∧ KeyedByGid m₁) := by
  obtain ⟨cs, hcs⟩ := collectContactsChats_ok M s m hinit (Members.forEach s) []
  obtain ⟨s₁, m₁, hu, h1, h2, h3, h4, _⟩ := update_list_ok M s m cs hinit
  refine ⟨cs, s₁, m₁, ?_, h1, h2, h3, h4⟩
  unfold getContactsChats
  simp only [hcs, hu]

theorem materializeContacts_ok (M : ChatModel) (s : State) (m : Obj Chat)
    (chatType : Option Str) (hinit : s.chats = some m) :
    ∃ s₁ m₁, materializeContacts M s chatType = .ok s₁ ∧ s₁.chats = some m₁
      ∧ s₁.members = s.members ∧ s₁.user = s.user
      ∧ ((Obj.keys m).Nodup → KeyedByGid m → (Obj.keys m₁).Nodup ∧ KeyedByGid m₁) := by
  unfold materializeContacts
  split
  · obtain ⟨cs, s₁, m₁, h0, h1, h2, h3, h4⟩ := getContactsChats_ok M s m hinit
    exact ⟨s₁, m₁, by simp only [h0], h1, h2, h3, h4⟩
  · exact ⟨s, m, rfl, hinit, rfl, rfl, fun a b => ⟨a, b⟩⟩

/-- The chats `query` pushes for the condition of `search`: the chats that are not excluded
by their type and score above 0, each with its score written, in key order. -/
theorem queryLoop_searchCondition (M : ChatModel) (app : App) (terms : List Str)
    (chatType : Option Str) : ∀ (m : Obj Chat),
    (queryLoop (searchCondition M app terms chatType) m).1
      = ((Obj.values m).filter (fun c =>
            !typeExcluded chatType c && decide (0 < chatScore M app terms c))).map
          (fun c => { c with score := chatScore M app terms c })
  | [] => rfl
  | (k, c) :: rest => by
    have ih := queryLoop_searchCondition M app terms chatType rest
    simp only [Obj.values] at ih
    simp only [queryLoop, Obj.values, List.map_cons, List.filter_cons, ih]
    unfold searchCondition
    cases ht : typeExcluded chatType c with
    | true => simp
    | false =>
      by_cases hs : 0 < chatScore M app terms c
      · simp [hs]
      · simp [hs]

/-- The result of `search` on an initialised mapping, for a query that is not empty. -/
theorem search_eq (M : ChatModel) (s : State) (m : Obj Chat) (q : Str) (chatType : Option Str)
    (hinit : s.chats = some m) (hq : q ≠ []) :
    ∃ s₁ m₁ s', materializeContacts M s chatType = .ok s₁ ∧ s₁.chats = some m₁
      ∧ ((Obj.keys m).Nodup → KeyedByGid m → (Obj.keys m₁).Nodup ∧ KeyedByGid m₁)
      ∧ search M s q chatType = .ok
          (Chat.sort (((Obj.values m₁).filter (fun c =>
              !typeExcluded chatType c
                && decide (0 < chatScore M ⟨s₁.members, s₁.user⟩ (searchTerms q) c))).map
            (fun c => { c with
              score := chatScore M ⟨s₁.members, s₁.user⟩ (searchTerms q) c })) scoreOrder, s') := by
  obtain ⟨s₁, m₁, h0, h1, _, _, h4⟩ := materializeContacts_ok M s m chatType hinit
  have hqe : isEmpty q = false := by
    cases q with
    | nil => exact absurd rfl hq
    | cons _ _ => rfl
  have hterms : (searchTerms q).length ≠ 0 := by
    unfold searchTerms
    cases h : toLowerCase (trim q) with
    | nil => simp [split]
    | cons c cs =>
      simp only [split]
      split
      · simp
      · split <;> simp
  have hL := queryLoop_searchCondition M ⟨s₁.members, s₁.user⟩ (searchTerms q) chatType m₁
  refine ⟨s₁, m₁, State.mk (some (queryLoop (searchCondition M ⟨s₁.members, s₁.user⟩
    (searchTerms q) chatType) m₁).2) s₁.publicChats s₁.members s₁.user s₁.events, h0, h1, h4, ?_⟩
  unfold search
  simp only [hqe, Bool.false_eq_true, if_false, hterms, h0]
  unfold query
  simp only [h1, Condition.toFunction, hL]
  split
  · rfl
  · rename_i hz
    have hnil : ((Obj.values m₁).filter (fun c =>
              !typeExcluded chatType c
                && decide (0 < chatScore M ⟨s₁.members, s₁.user⟩ (searchTerms q) c))).map
            (fun c => { c with
              score := chatScore M ⟨s₁.members, s₁.user⟩ (searchTerms q) c }) = [] := by
      apply List.length_eq_zero.mp
      simpa using hz
    rw [hnil]
    rfl
theorem getContactChat_uninit (M : ChatModel) (s : State) (member : Member)
    (hnone : s.chats = none) : getContactChat M s member = .error .typeError := by
  unfold getContactChat get
  simp only [hnone]

theorem collectContactsChats_uninit (M : ChatModel) (s : State) (hnone : s.chats = none) :
    ∀ (ms : List Member) (acc r : List Chat) (s₁ : State),
      collectContactsChats M ms s acc = .ok (r, s₁) → r = acc ∧ s₁ = s
  | [], acc, r, s₁, h => by
    simp only [collectContactsChats, Except.ok.injEq, Prod.mk.injEq] at h
    exact ⟨h.1.symm, h.2.symm⟩
  | member :: ms, acc, r, s₁, h => by
    unfold collectContactsChats at h
    by_cases hc : (!(member.id.strictEq s.user.id)) = true
    · simp only [hc, if_true, getContactChat_uninit M s member hnone] at h
      cases h
    · simp only [hc, if_false] at h
      exact collectContactsChats_uninit M s hnone ms acc r s₁ h

theorem materializeContacts_uninit (M : ChatModel) (s s₁ : State) (chatType : Option Str)
    (hnone : s.chats = none) (h : materializeContacts M s chatType = .ok s₁) : s₁ = s := by
  unfold materializeContacts at h
  split at h
  · unfold getContactsChats at h
    cases hc : collectContactsChats M (Members.forEach s) s [] with
    | error e => simp [hc] at h
    | ok r =>
      obtain ⟨cs, s₂⟩ := r
      obtain ⟨h1, h2⟩ := collectContactsChats_uninit M s hnone _ _ _ _ hc
      subst h1
      subst h2
      simp only [hc, update, List.length_nil, if_true, Except.ok.injEq] at h
      exact h.symm
  · simp only [Except.ok.injEq] at h
    exact h.symm

/-- While `chats` is `null`, a `search` that returns returns the empty list. -/
theorem search_uninit (M : ChatModel) (s : State) (q : Str) (chatType : Option Str)
    (result : List Chat) (s' : State) (hnone : s.chats = none)
    (h : search M s q chatType = .ok (result, s')) : result = [] := by
  unfold search at h
  split at h
  · simp only [Except.ok.injEq, Prod.mk.injEq] at h
    exact h.1.symm
  · split at h
    · simp only [Except.ok.injEq, Prod.mk.injEq] at h
      exact h.1.symm
    · cases hm : materializeContacts M s chatType with
      | error e => simp [hm] at h
      | ok s₁ =>
        have := materializeContacts_uninit M s s₁ chatType hnone hm
        subst this
        simp only [hm, query, hnone, Except.ok.injEq, Prod.mk.injEq] at h
        exact h.1.symm

theorem chatSort_sorted (l : List Chat) :
    (Chat.sort l scoreOrder).Pairwise (fun x y => x.score ≤ y.score) := by
  unfold Chat.sort
  haveI : IsTotal Chat (fun x y => scoreOrder x y ≤ 0) :=
    ⟨fun x y => by unfold scoreOrder; omega⟩
  haveI : IsTrans Chat (fun x y => scoreOrder x y ≤ 0) :=
    ⟨fun x y z hxy hyz => by unfold scoreOrder at *; omega⟩
  have h := List.sorted_insertionSort (fun x y => scoreOrder x y ≤ 0) l
  refine List.Pairwise.imp ?_ h
  intro x y hxy
  unfold scoreOrder at hxy
  omega

theorem chatSort_perm (l : List Chat) (cmp : Chat → Chat → Int) : (Chat.sort l cmp).Perm l :=
  List.perm_insertionSort _ l

theorem values_gid_eq_keys (m : Obj Chat) (hkeyed : KeyedByGid m) :
    (Obj.values m).map Chat.gid = Obj.keys m := by
  unfold Obj.values Obj.keys
  rw [List.map_map]
  apply List.map_congr_left
  intro p hp
  exact hkeyed p hp
/-! ## Facts about the terms of a query and the name score -/

theorem toLower_toNat (c : Char) :
    c.toLower.toNat = if 65 ≤ c.toNat ∧ c.toNat ≤ 90 then c.toNat + 32 else c.toNat := by
  by_cases h : 65 ≤ c.toNat ∧ c.toNat ≤ 90
  · rw [if_pos h]
    obtain ⟨h1, h2⟩ := h
    have hc : c = Char.ofNat c.toNat := (Char.ofNat_toNat c).symm
    generalize c.toNat = n at hc h1 h2 ⊢
    subst hc
    interval_cases n <;> rfl
  · rw [if_neg h]
    unfold Char.toLower
    simp only [ge_iff_le, h, if_false]

theorem isTrimChar_iff (c : Char) :
    isTrimChar c = true ↔
      (c.toNat = 0x09 ∨ c.toNat = 0x0A ∨ c.toNat = 0x0B ∨ c.toNat = 0x0C ∨ c.toNat = 0x0D
        ∨ c.toNat = 0x20 ∨ c.toNat = 0xA0 ∨ c.toNat = 0x1680
        ∨ (0x2000 ≤ c.toNat ∧ c.toNat ≤ 0x200A) ∨ c.toNat = 0x2028 ∨ c.toNat = 0x2029
        ∨ c.toNat = 0x202F ∨ c.toNat = 0x205F ∨ c.toNat = 0x3000 ∨ c.toNat = 0xFEFF) := by
  simp only [isTrimChar, Bool.or_eq_true, Bool.and_eq_true, decide_eq_true_eq, or_assoc]

theorem isTrimChar_toLower (c : Char) : isTrimChar c.toLower = isTrimChar c := by
  rw [Bool.eq_iff_iff, isTrimChar_iff, isTrimChar_iff, toLower_toNat]
  by_cases h : 65 ≤ c.toNat ∧ c.toNat ≤ 90
  · rw [if_pos h]
    omega
  · rw [if_neg h]

theorem toLower_eq_of_toNat (c : Char) (n : Nat) (hn : n < 65) (h : c.toLower.toNat = n) :
    c.toNat = n := by
  rw [toLower_toNat] at h
  split at h <;> omega

theorem dropWhile_of_head {p : Char → Bool} : ∀ (l : Str), (∀ c ∈ l, p c = false) →
    l.dropWhile p = l
  | [], _ => rfl
  | c :: cs, h => by
    simp [List.dropWhile, h c (List.mem_cons_self _ _)]

theorem trim_eq_self (q : Str) (h : ∀ c ∈ q, isTrimChar c = false) : trim q = q := by
  unfold trim
  rw [dropWhile_of_head q h, dropWhile_of_head q.reverse (fun c hc => h c (List.mem_reverse.mp hc)),
    List.reverse_reverse]

theorem split_eq_singleton (sep : Char) : ∀ (l : Str), sep ∉ l → split sep l = [l]
  | [], _ => rfl
  | c :: cs, h => by
    have hc : c ≠ sep := fun e => h (e ▸ List.mem_cons_self _ _)
    have ih := split_eq_singleton sep cs (fun hm => h (List.mem_cons_of_mem _ hm))
    simp only [split, hc, if_false, ih]

theorem caculateScore_self (s : Str) (h : s ≠ []) : caculateScore s s = 100 := by
  have := (caculateScore_cases s s)
  rw [this]
  simp [h]

theorem caculateScore_empty_field (s : Str) : caculateScore s [] = 0 := by
  unfold caculateScore isEmpty
  simp

theorem nameTermScore_plain (chat : Chat) (chatName s : Str) (h₁ : s ≠ [])
    (h₂ : s.head? ≠ some '#') (h₃ : s.head? ≠ some '@') :
    nameTermScore chat chatName s = caculateScore s chatName := by
  unfold nameTermScore isEmpty
  have : s.isEmpty = false := by
    cases s with
    | nil => exact absurd rfl h₁
    | cons _ _ => rfl
  simp [this, h₂, h₃]

/-- The score a term adds is what the display name adds and what the term would add to a chat
without a display name. -/
theorem termScore_name_split (chat : Chat) (chatGid chatName pinYin account info s : Str) :
    termScore chat chatGid chatName pinYin account info s
      = nameTermScore chat chatName s + termScore chat chatGid [] pinYin account info s := by
  unfold termScore nameTermScore
  by_cases he : isEmpty s = true
  · simp [he]
  · by_cases h1 : s.length > 1
    · by_cases h2 : s.head? = some '#'
      · cases hb : (chat.isSystem || chat.isGroup) <;>
          simp [he, h1, h2, hb, caculateScore_empty_field] <;> omega
      · by_cases h3 : s.head? = some '@'
        · simp [he, h1, h3, caculateScore_empty_field]
          omega
        · simp [he, h1, h2, h3, caculateScore_empty_field]
          omega
    · simp [he, h1, caculateScore_empty_field]
      omega

theorem foldl_add_eq_sum {α : Type} (f : α → Nat) : ∀ (l : List α) (init : Nat),
    l.foldl (fun acc s => acc + f s) init = init + (l.map f).sum
  | [], init => by simp
  | x :: xs, init => by
    simp only [List.foldl_cons, List.map_cons, List.sum_cons]
    rw [foldl_add_eq_sum f xs (init + f x)]
    omega

/-- The score of a chat is what its display name contributes and the score the chat would
have without a display name. -/
theorem chatScore_name_split (M : ChatModel) (app : App) (terms : List Str) (chat : Chat) :
    chatScore M app terms chat
      = nameContribution M app terms chat
        + chatScore { M with getDisplayName := fun _ _ => [] } app terms chat := by
  unfold chatScore nameContribution
  rw [foldl_add_eq_sum, foldl_add_eq_sum, foldl_add_eq_sum]
  simp only [Nat.zero_add]
  rw [← List.sum_map_add]
  congr 1
  apply List.map_congr_left
  intro s _
  exact termScore_name_split chat _ _ _ _ _ s
/-! ## Facts about `query` with an array, `getChatFiles` and `loadChatMessages` -/

theorem queryLoop_const_false : ∀ (m : Obj Chat),
    queryLoop (fun chat => (false, chat)) m = ([], m)
  | [] => rfl
  | (k, c) :: rest => by
    simp only [queryLoop, queryLoop_const_false rest]
    rfl

theorem query_array_cons (M : ChatModel) (s : State) (gid : Str) (gids : List Str) :
    query M s (.array (gid :: gids)) none = .ok ([], s) := by
  unfold query
  cases hs : s.chats with
  | none => rfl
  | some m =>
    simp only [Condition.toFunction, List.all_cons, Bool.false_and, queryLoop_const_false]
    cases s
    simp only at hs
    subst hs
    rfl

theorem Members.query_ids_cons (s : State) (id : Val) (ids : List Val) :
    Members.query s (.array (id :: ids)) none = .ok ([], s) := by
  unfold Members.query
  simp [MemberCondition.toFunction]

theorem getChatFiles_overflow : ∀ (depth : Nat) (env : Env) (chat : Chat) (includeFailFile : Bool),
    getChatFiles depth env chat includeFailFile = .threw .rangeError env
  | 0, _, _, _ => rfl
  | depth + 1, env, chat, includeFailFile => by
    simp only [getChatFiles, getChatFiles_overflow depth env chat true]
/-! ## The score of a chat and the formula of the specification -/

theorem termScore_eq_specTerm (M : ChatModel) (app : App) (chat : Chat) (t : Str)
    (ht : t ≠ []) :
    termScore chat (toLowerCase chat.gid) (toLowerCase (M.getDisplayName app chat))
        (M.getPinYin app chat) (theOtherOneInfo M app chat).1 (theOtherOneInfo M app chat).2 t
      = specTerm M app chat t := by
  have he : isEmpty t = false := by
    cases t with
    | nil => exact absurd rfl ht
    | cons _ _ => rfl
  have hcontact : ∀ x : Str,
      (if (theOtherOneInfo M app chat).2.isEmpty then 0
        else caculateScore x (theOtherOneInfo M app chat).2)
      = (if chat.isOne2One then
          match M.getTheOtherOne app chat with
          | some theOtherOne => caculateScore x (theOtherOne.email ++ theOtherOne.mobile)
          | none => 0
        else 0) := by
    intro x
    unfold theOtherOneInfo
    cases h1 : chat.isOne2One with
    | false => simp
    | true =>
      cases h2 : M.getTheOtherOne app chat with
      | none => simp
      | some o =>
        simp only [if_true]
        split
        · rename_i hemp
          have : o.email ++ o.mobile = [] := List.isEmpty_iff.mp hemp
          rw [this, caculateScore_empty_field]
        · rfl
  have haccount : ∀ x : Str,
      (if chat.isOne2One then 2 * caculateScore x (theOtherOneInfo M app chat).1 else 0)
      = (if chat.isOne2One then
          match M.getTheOtherOne app chat with
          | some theOtherOne => 2 * caculateScore x theOtherOne.account
          | none => 0
        else 0) := by
    intro x
    unfold theOtherOneInfo
    cases h1 : chat.isOne2One with
    | false => simp
    | true =>
      cases h2 : M.getTheOtherOne app chat with
      | none => simp [caculateScore_empty_field]
      | some o => simp
  unfold termScore specTerm specBase
  simp only [he, Bool.false_eq_true, if_false]
  by_cases h1 : 1 < t.length
  · by_cases h2 : t.head? = some '#'
    · simp only [gt_iff_lt, h1, h2, if_true, and_self, hcontact]
      cases hs : chat.isSystem <;> cases hg : chat.isGroup <;> simp <;> omega
    · by_cases h3 : t.head? = some '@'
      · have h2' : ¬ (some '@' = some '#') := by decide
        simp only [gt_iff_lt, h1, h3, h2', if_true, if_false, and_false, and_self, hcontact,
          haccount]
        omega
      · simp only [gt_iff_lt, h1, h2, h3, if_true, if_false, and_false, hcontact]
        omega
  · simp only [gt_iff_lt, h1, if_false, false_and, hcontact]
    omega

theorem termScore_nil (chat : Chat) (a b c d e : Str) : termScore chat a b c d e [] = 0 := by
  simp [termScore, isEmpty]

theorem sum_map_filter_nonempty (f g : Str → Nat) (hnil : f [] = 0)
    (hfg : ∀ t, t ≠ [] → f t = g t) : ∀ (l : List Str),
    (l.map f).sum = ((l.filter (fun t => decide (t ≠ []))).map g).sum
  | [] => rfl
  | t :: ts => by
    have ih := sum_map_filter_nonempty f g hnil hfg ts
    by_cases h : t = []
    · subst h
      simp [hnil, ih]
    · simp [h, hfg t h, ih]

theorem chatScore_eq_specScore (M : ChatModel) (app : App) (terms : List Str) (chat : Chat) :
    chatScore M app terms chat = specScore M app terms chat := by
  unfold chatScore specScore
  rw [foldl_add_eq_sum, Nat.zero_add]
  exact sum_map_filter_nonempty _ _ (termScore_nil _ _ _ _ _ _)
    (fun t ht => termScore_eq_specTerm M app chat t ht) terms
/-! ## Parsing a gid of two decimal numbers -/

theorem decimal_digits (n : Nat) : ∀ c ∈ decimal n, 48 ≤ c.toNat ∧ c.toNat ≤ 57 := by
  intro c hc
  rw [decimal_eq] at hc
  obtain ⟨d, hd, rfl⟩ := List.mem_map.mp hc
  have hlt : d < 10 := by
    by_cases hn : n = 0
    · simp only [hn, if_true, List.mem_singleton] at hd
      omega
    · simp only [hn, if_false, List.mem_reverse] at hd
      exact Nat.digits_lt_base (by norm_num) hd
  rw [digitChar_toNat d hlt]
  omega

theorem decimal_ne_nil (n : Nat) : decimal n ≠ [] := by
  rw [decimal_eq]
  by_cases hn : n = 0
  · simp [hn]
  · simp only [hn, if_false, ne_eq, List.map_eq_nil_iff, List.reverse_eq_nil_iff]
    exact fun h => hn (Nat.digits_eq_nil_iff_eq_zero.mp h)

theorem split_append_sep (sep : Char) : ∀ (l₁ l₂ : Str), sep ∉ l₁ →
    split sep (l₁ ++ sep :: l₂) = l₁ :: split sep l₂
  | [], l₂, _ => by simp [split]
  | c :: cs, l₂, h => by
    have hc : c ≠ sep := fun e => h (e ▸ List.mem_cons_self _ _)
    have ih := split_append_sep sep cs l₂ (fun hm => h (List.mem_cons_of_mem _ hm))
    have ih' : split sep (cs.append (sep :: l₂)) = cs :: split sep l₂ := ih
    simp only [List.cons_append, split, hc, if_false]
    rw [ih']

theorem split_two_decimals (a b : Nat) :
    split '&' (decimal a ++ '&' :: decimal b) = [decimal a, decimal b] := by
  have hno : ∀ n : Nat, '&' ∉ decimal n := by
    intro n h
    have := decimal_digits n _ h
    revert this
    decide
  rw [split_append_sep '&' _ _ (hno a), split_eq_singleton '&' _ (hno b)]

theorem digitValue_digitChar (d : Nat) (h : d < 10) :
    digitValue 10 (Nat.digitChar d) = some d := by
  interval_cases d <;> rfl

theorem foldl_digits (l : List Nat) : ∀ (acc : Nat),
    l.foldl (fun acc d => acc * 10 + d) acc
      = acc * 10 ^ l.length + Nat.ofDigits 10 l.reverse := by
  induction l with
  | nil => intro acc; simp
  | cons d l ih =>
    intro acc
    simp only [List.foldl_cons, ih, List.reverse_cons, Nat.ofDigits_append,
      Nat.ofDigits_singleton, List.length_reverse, List.length_cons]
    ring

theorem parseDigits_decimal (n : Nat) : parseDigits 10 (decimal n) = some n := by
  have key : ∀ l : List Nat, l ≠ [] → (∀ d ∈ l, d < 10) →
      parseDigits 10 (l.map Nat.digitChar) = some (Nat.ofDigits 10 l.reverse) := by
    intro l hl hd
    have hmap : (l.map Nat.digitChar).map (digitValue 10) = l.map some := by
      rw [List.map_map]
      apply List.map_congr_left
      intro d hdm
      exact digitValue_digitChar d (hd d hdm)
    have htake : (l.map some).takeWhile Option.isSome = l.map some := by
      rw [List.takeWhile_eq_self_iff]
      intro x hx
      obtain ⟨d, _, rfl⟩ := List.mem_map.mp hx
      rfl
    unfold parseDigits
    simp only [hmap, htake]
    cases l with
    | nil => exact absurd rfl hl
    | cons d ds =>
      simp only [List.map_cons]
      rw [← List.map_cons, List.foldl_map]
      simp only [Option.getD_some]
      rw [foldl_digits]
      simp
  rw [decimal_eq]
  by_cases hn : n = 0
  · subst hn
    rfl
  · simp only [hn, if_false]
    rw [key _ (by
        simp only [ne_eq, List.reverse_eq_nil_iff]
        exact fun h => hn (Nat.digits_eq_nil_iff_eq_zero.mp h))
      (fun d hd => Nat.digits_lt_base (by norm_num) (List.mem_reverse.mp hd))]
    simp [Nat.ofDigits_digits]
theorem parseInt_digitsHead (c : Char) (cs : Str) (hc : 48 ≤ c.toNat ∧ c.toNat ≤ 57)
    (hx : ∀ r, cs ≠ 'x' :: r) (hX : ∀ r, cs ≠ 'X' :: r) :
    parseInt (c :: cs)
      = match parseDigits 10 (c :: cs) with
        | none => .nan
        | some n => .int (n : Int) := by
  have htrim : isTrimChar c = false := by
    rw [Bool.eq_false_iff, Ne, isTrimChar_iff]
    omega
  have hminus : c ≠ '-' := by
    rintro rfl
    revert hc
    decide
  have hplus : c ≠ '+' := by
    rintro rfl
    revert hc
    decide
  unfold parseInt
  simp only [List.dropWhile, htrim]
  have h1 : (match c :: cs with
      | '-' :: r => (true, r)
      | '+' :: r => (false, r)
      | r => (false, r)) = (false, c :: cs) := by
    split
    · rename_i h
      exact absurd (List.cons.inj h).1 hminus
    · rename_i h
      exact absurd (List.cons.inj h).1 hplus
    · rfl
  have h2 : (match c :: cs with
      | '0' :: 'x' :: r => (16, r)
      | '0' :: 'X' :: r => (16, r)
      | r => (10, r)) = (10, c :: cs) := by
    split
    · rename_i h
      exact absurd (List.cons.inj h).2 (hx _)
    · rename_i h
      exact absurd (List.cons.inj h).2 (hX _)
    · rfl
  simp only [h1, h2]
  cases parseDigits 10 (c :: cs) <;> simp

theorem parseInt_decimal (n : Nat) : parseInt (decimal n) = .int n := by
  have hd := decimal_digits n
  have hne := decimal_ne_nil n
  have hp := parseDigits_decimal n
  generalize decimal n = s at hd hne hp
  cases s with
  | nil => exact absurd rfl hne
  | cons c cs =>
    have hx : ∀ r, cs ≠ 'x' :: r := by
      rintro r rfl
      have := hd 'x' (by simp)
      revert this
      decide
    have hX : ∀ r, cs ≠ 'X' :: r := by
      rintro r rfl
      have := hd 'X' (by simp)
      revert this
      decide
    rw [parseInt_digitsHead c cs (hd c (List.mem_cons_self _ _)) hx hX, hp]

/-- The members `get` parses from a gid of two decimal numbers. -/
theorem parse_two_decimals (a b : Nat) :
    (split '&' (decimal a ++ '&' :: decimal b)).map parseInt = [.int a, .int b] := by
  rw [split_two_decimals]
  simp [parseInt_decimal]

theorem strictEq_eq (v w : Val) (h : v.strictEq w = true) : v = w := by
  cases v <;> cases w <;> simp_all [Val.strictEq]

theorem user_mem_chatMemberIds (userMeId : Val) (arg : MembersArg) :
    userMeId ∈ chatMemberIds userMeId arg := by
  unfold chatMemberIds
  simp only
  split
  · rename_i v hf
    split
    · have h1 := List.find?_some hf
      have h2 := List.mem_of_find?_eq_some hf
      rw [← strictEq_eq _ _ h1]
      exact h2
    · simp
  · simp

theorem plainModel_keepsData : plainModel.KeepsData := by
  intro d
  refine ⟨?_, ?_, ?_⟩
  · intro g h
    simp [plainModel, h]
  · intro t h
    simp [plainModel, h]
  · intro ms h
    simp [plainModel, h]

theorem keepsGid_of_keepsData (M : ChatModel) (h : M.KeepsData) : M.KeepsGid :=
  fun d g hg => (h d).1 g hg

/-- The chat `get` builds for a gid with `&` that the mapping does not hold. -/
theorem get_spec_aux (M : ChatModel) (hM : M.KeepsData) (s : State) (m : Obj Chat) (gid : Str)
    (hinit : s.chats = some m) (hnone : Obj.lookup m gid = none)
    (hamp : includes gid '&' = true) :
    ∃ c s', get M s gid = .ok (some c, s')
      ∧ (∀ c' s'', get M s gid = .ok (some c', s'') → c' = c ∧ c'.type = some .one2one
          ∧ c'.members = (split '&' gid).map parseInt) := by
  obtain ⟨r, hr, _, h2, _⟩ := get_ok M s m gid hinit
  have hd := hM
    { gid := some gid, name := none, members := some ((split '&' gid).map parseInt),
      createdBy := some s.user.account, type := some .one2one, star := none }
  refine ⟨_, s, by rw [hr, h2 hnone hamp], ?_⟩
  intro c' s'' hc'
  rw [hr, h2 hnone hamp] at hc'
  cases hc'
  exact ⟨rfl, hd.2.1 _ rfl, hd.2.2 _ rfl⟩
/-! ## Facts about `updateChatMessages` -/

theorem filter_cgid_eq_nil (l : List ChatMessage) (k : Str) (h : k ∉ l.map ChatMessage.cgid) :
    l.filter (fun x => decide (x.cgid = k)) = [] := by
  rw [List.filter_eq_nil_iff]
  intro x hx hk
  exact h (List.mem_map.mpr ⟨x, hx, by simpa using hk⟩)

/-- The object `chatsMessages`: no key twice, the keys are the gids the messages carry, and
under each key are the messages that carry it, in their order. -/
theorem groupByCgid_spec (l : List ChatMessage) :
    (Obj.keys (groupByCgid l)).Nodup
      ∧ (∀ k, k ∈ Obj.keys (groupByCgid l) ↔ k ∈ l.map ChatMessage.cgid)
      ∧ (∀ k, k ∈ l.map ChatMessage.cgid →
          Obj.lookup (groupByCgid l) k = some (l.filter (fun x => decide (x.cgid = k)))) := by
  induction l using List.reverseRecOn with
  | nil => simp [groupByCgid, Obj.keys]
  | append_singleton l x ih =>
    obtain ⟨h1, h2, h3⟩ := ih
    have hstep : groupByCgid (l ++ [x])
        = (match Obj.lookup (groupByCgid l) x.cgid with
          | none => Obj.set (groupByCgid l) x.cgid [x]
          | some batch => Obj.set (groupByCgid l) x.cgid (batch ++ [x])) := by
      unfold groupByCgid
      rw [List.foldl_append]
      rfl
    have hkeys : ∀ k, k ∈ Obj.keys (groupByCgid (l ++ [x]))
        ↔ k ∈ Obj.keys (groupByCgid l) ∨ k = x.cgid := by
      intro k
      rw [hstep]
      split <;> exact Obj.mem_keys_set _ _ _ _
    refine ⟨?_, ?_, ?_⟩
    · rw [hstep]
      split <;> exact Obj.nodup_keys_set _ _ _ h1
    · intro k
      rw [hkeys, h2]
      simp only [List.map_append, List.map_cons, List.map_nil, List.mem_append,
        List.mem_singleton]
    · intro k hk
      rw [hstep]
      by_cases hkx : k = x.cgid
      · subst hkx
        by_cases hmem : x.cgid ∈ l.map ChatMessage.cgid
        · rw [h3 _ hmem]
          simp only [Obj.lookup_set_self]
          simp [List.filter_append]
        · have hnone : Obj.lookup (groupByCgid l) x.cgid = none := by
            rw [Obj.lookup_eq_none_iff, h2]
            exact hmem
          rw [hnone]
          simp only [Obj.lookup_set_self]
          simp [List.filter_append, filter_cgid_eq_nil l _ hmem]
      · have hmem : k ∈ l.map ChatMessage.cgid := by
          simp only [List.map_append, List.map_cons, List.map_nil, List.mem_append,
            List.mem_singleton] at hk
          rcases hk with h | h
          · exact h
          · exact absurd h hkx
        have hother : Obj.lookup (match Obj.lookup (groupByCgid l) x.cgid with
            | none => Obj.set (groupByCgid l) x.cgid [x]
            | some batch => Obj.set (groupByCgid l) x.cgid (batch ++ [x])) k
            = Obj.lookup (groupByCgid l) k := by
          split <;> exact Obj.lookup_set_other _ _ _ _ hkx
        rw [hother, h3 k hmem]
        have hx : ¬ (x.cgid = k) := fun h => hkx h.symm
        simp [List.filter_append, hx]

theorem resolves_congr (M : ChatModel) (s s' : State) (m m' : Obj Chat) (k : Str)
    (hs : s.chats = some m) (hs' : s'.chats = some m') (hu : s'.user = s.user)
    (hl : Obj.lookup m' k = Obj.lookup m k) : resolves M s' k = resolves M s k := by
  unfold resolves get
  simp only [hs, hs', hl, hu]
  cases m.lookup k with
  | some c => rfl
  | none =>
    cases includes k '&' with
    | true => rfl
    | false => rfl

theorem get_eq_resolves (M : ChatModel) (s : State) (m : Obj Chat) (k : Str)
    (hs : s.chats = some m) : get M s k = .ok (resolves M s k, s) := by
  obtain ⟨r, hr, _⟩ := get_ok M s m k hs
  unfold resolves
  rw [hr]
  cases r <;> rfl

theorem writeChat_spec (s : State) (m : Obj Chat) (k : Str) (chat : Chat)
    (hs : s.chats = some m) :
    ∃ m', (writeChat s k chat).chats = some m' ∧ (writeChat s k chat).user = s.user
      ∧ (writeChat s k chat).events = s.events
      ∧ (∀ k', k' ≠ k → Obj.lookup m' k' = Obj.lookup m k') := by
  unfold writeChat
  simp only [hs]
  cases hl : Obj.lookup m k with
  | none => exact ⟨m, hs, rfl, rfl, fun _ _ => rfl⟩
  | some c =>
    exact ⟨Obj.set m k chat, rfl, rfl, rfl, fun k' hk' => Obj.lookup_set_other m k chat k' hk'⟩

/-- The loop of `updateChatMessages` over the batches: it returns, and it has called
`addMessages` once for each batch whose gid `get` resolved at the start. -/
theorem deliverMessages_spec (W : MessageModel) (M : ChatModel) (muted : Bool) :
    ∀ (entries : Obj (List ChatMessage)) (env : Env)
    (m : Obj Chat), (Obj.keys entries).Nodup → env.state.chats = some m →
    ∃ env' m', deliverMessages W M muted entries env = .returned () env'
      ∧ env'.state.chats = some m'
      ∧ env'.addMessagesLog = env.addMessagesLog ++ entries.filterMap (fun e =>
          (resolves M env.state e.1).map (fun chat => (chat, e.2, false)))
      ∧ env'.chatMessages = env.chatMessages ∧ env'.bulkPutLog = env.bulkPutLog
      ∧ env'.deleteLog = env.deleteLog ∧ env'.noticeRequests = env.noticeRequests
      ∧ env'.state.events = env.state.events
  | [], env, m, _, hs => ⟨env, m, rfl, hs, by simp, rfl, rfl, rfl, rfl, rfl⟩
  | (k, batch) :: rest, env, m, hnd, hs => by
    simp only [Obj.keys, List.map_cons, List.nodup_cons] at hnd
    have hget := get_eq_resolves M env.state m k hs
    cases hr : resolves M env.state k with
    | none =>
      obtain ⟨env', m', h1, h2, h3, h4⟩ :=
        deliverMessages_spec W M muted rest env m hnd.2 hs
      refine ⟨env', m', ?_, h2, ?_, h4⟩
      · simp only [deliverMessages, hget, hr]
        exact h1
      · rw [h3]
        simp [hr]
    | some chat =>
      obtain ⟨m₁, hm₁, hu₁, he₁, hlk⟩ := writeChat_spec env.state m k
        (if muted then W.muted (W.addMessages chat batch false)
          else W.addMessages chat batch false) hs
      obtain ⟨env', m', h1, h2, h3, h4, h5, h6, h7, h8⟩ :=
        deliverMessages_spec W M muted rest
          { env with
            state := writeChat env.state k
              (if muted then W.muted (W.addMessages chat batch false)
                else W.addMessages chat batch false),
            addMessagesLog := env.addMessagesLog ++ [(chat, batch, false)] } m₁ hnd.2 hm₁
      refine ⟨env', m', ?_, h2, ?_, h4, h5, h6, h7, ?_⟩
      · simp only [deliverMessages, hget, hr]
        exact h1
      · rw [h3]
        simp only [List.filterMap_cons, hr, Option.map_some', List.append_assoc,
          List.singleton_append]
        congr 2
        apply List.filterMap_congr
        intro e he
        have hek : e.1 ≠ k := by
          intro h
          exact hnd.1 (List.mem_map.mpr ⟨e, he, h⟩)
        rw [resolves_congr M env.state _ m m₁ e.1 hs hm₁ hu₁ (hlk e.1 hek)]
      · rw [h8]
        exact he₁

theorem resolves_gid (M : ChatModel) (hM : M.KeepsGid) (s : State) (m : Obj Chat)
    (hs : s.chats = some m) (hkeyed : KeyedByGid m) (k : Str) (chat : Chat)
    (h : resolves M s k = some chat) : chat.gid = k := by
  obtain ⟨r, hr, h1, h2, h3⟩ := get_ok M s m k hs
  have hrr : r = some chat := by
    have := get_eq_resolves M s m k hs
    rw [hr, h] at this
    cases this
    rfl
  subst hrr
  cases hl : Obj.lookup m k with
  | some c =>
    have := h1 c hl
    cases this
    exact hkeyed (k, chat) (Obj.mem_of_lookup m k chat hl)
  | none =>
    cases hi : includes k '&' with
    | true =>
      have := h2 hl hi
      cases this
      exact hM _ k rfl
    | false =>
      have := h3 hl hi
      cases this

theorem groupByCgid_entries (l : List ChatMessage) :
    ∀ e ∈ groupByCgid l, e.2 = l.filter (fun x => decide (x.cgid = e.1)) := by
  obtain ⟨h1, h2, h3⟩ := groupByCgid_spec l
  rintro ⟨k, batch⟩ he
  have hl := Obj.lookup_of_mem _ k batch h1 he
  have hk : k ∈ Obj.keys (groupByCgid l) := List.mem_map.mpr ⟨(k, batch), he, rfl⟩
  rw [h3 k ((h2 k).mp hk)] at hl
  cases hl
  rfl

theorem contactGid_members (a b : Nat) :
    (split '&' (contactGid (.int a) (.int b))).map parseInt = sortDefault [.int a, .int b] := by
  rw [contactGid_nat, sortDefault_pair]
  unfold textOrderGid
  have h : ∀ n : Nat, (Val.int (n : Int)).toStr = decimal n := fun _ => rfl
  rw [h a, h b]
  split
  · exact parse_two_decimals b a
  · exact parse_two_decimals a b

theorem mem_sortDefault_pair (v a b : Val) (h : v ∈ [a, b]) : v ∈ sortDefault [a, b] := by
  rw [sortDefault_pair]
  split
  · simp only [List.mem_cons, List.mem_singleton, List.not_mem_nil, or_false] at h ⊢
    tauto
  · exact h
/-- The ids `createWithMembers` works with, in closed form: the id of the current user is
pushed unless the ids hold a value strictly equal to it and it is truthy. -/
theorem chatMemberIds_eq (userMeId : Val) (arg : MembersArg) :
    chatMemberIds userMeId arg
      = if (memberRefIds arg).any (fun memberId => memberId.strictEq userMeId) && userMeId.truthy
        then memberRefIds arg else memberRefIds arg ++ [userMeId] := by
  unfold chatMemberIds memberRefIds
  simp only
  split
  · rename_i v hf
    have h1 := List.find?_some hf
    have h2 := List.mem_of_find?_eq_some hf
    have hv : v = userMeId := strictEq_eq _ _ h1
    have hany : (List.map (fun member =>
        match member with
        | .object m => m.id
        | .id v => v)
        (match arg with | .single r => [r] | .list rs => rs)).any
          (fun memberId => memberId.strictEq userMeId) = true :=
      List.any_eq_true.mpr ⟨v, h2, h1⟩
    rw [hany, Bool.true_and, hv]
  · rename_i hf
    have hany : (List.map (fun member =>
        match member with
        | .object m => m.id
        | .id v => v)
        (match arg with | .single r => [r] | .list rs => rs)).any
          (fun memberId => memberId.strictEq userMeId) = false := by
      rw [List.any_eq_false]
      intro x hx
      have := List.find?_eq_none.mp hf x hx
      simpa using this
    rw [hany, Bool.false_and]
    simp
/-- The loop that builds `chatsMessages` completes when no message carries a gid of
`prototypeKeys`, and builds the messages grouped by the gid they carry. -/
theorem chatsMessagesOf_ok : ∀ (l : List ChatMessage) (acc : Obj (List ChatMessage)),
    (∀ x ∈ l, x.cgid ∉ prototypeKeys) →
    chatsMessagesOf l acc
      = .ok (l.foldl (fun chatsMessages message =>
          match Obj.lookup chatsMessages message.cgid with
          | none => Obj.set chatsMessages message.cgid [message]
          | some batch => Obj.set chatsMessages message.cgid (batch ++ [message])) acc) := by
  intro l
  induction l with
  | nil =>
    intro acc _
    rfl
  | cons x l ih =>
    intro acc h
    have hx : x.cgid ∉ prototypeKeys := h x (List.mem_cons_self _ _)
    have hl : ∀ y ∈ l, y.cgid ∉ prototypeKeys := fun y hy => h y (List.mem_cons_of_mem _ hy)
    rw [chatsMessagesOf, List.foldl_cons]
    cases hlk : Obj.lookup acc x.cgid with
    | some batch => exact ih _ hl
    | none =>
      simp only [hx, if_false]
      exact ih _ hl

theorem chatsMessagesOf_groupByCgid (l : List ChatMessage)
    (h : ∀ x ∈ l, x.cgid ∉ prototypeKeys) : chatsMessagesOf l [] = .ok (groupByCgid l) :=
  chatsMessagesOf_ok l [] h

/-- The loop that builds `chatsMessages` raises a `TypeError` when a message carries a gid of
`prototypeKeys`. -/
theorem chatsMessagesOf_throws : ∀ (l : List ChatMessage) (acc : Obj (List ChatMessage)),
    (∀ k ∈ Obj.keys acc, k ∉ prototypeKeys) → (∃ x ∈ l, x.cgid ∈ prototypeKeys) →
    chatsMessagesOf l acc = .error .typeError := by
  intro l
  induction l with
  | nil =>
    intro acc _ h
    obtain ⟨x, hx, _⟩ := h
    cases hx
  | cons x l ih =>
    intro acc hacc h
    rw [chatsMessagesOf]
    by_cases hx : x.cgid ∈ prototypeKeys
    · have hnone : Obj.lookup acc x.cgid = none := by
        rw [Obj.lookup_eq_none_iff]
        intro hk
        exact hacc _ hk hx
      simp only [hnone, hx, if_true]
    · have hrest : ∃ y ∈ l, y.cgid ∈ prototypeKeys := by
        obtain ⟨y, hy, hyp⟩ := h
        rcases List.mem_cons.mp hy with rfl | hy'
        · exact absurd hyp hx
        · exact ⟨y, hy', hyp⟩
      have hkeys : ∀ (v : List ChatMessage), ∀ k ∈ Obj.keys (Obj.set acc x.cgid v),
          k ∉ prototypeKeys := by
        intro v k hk
        rw [Obj.mem_keys_set] at hk
        rcases hk with hk | rfl
        · exact hacc k hk
        · exact hx
      cases hlk : Obj.lookup acc x.cgid with
      | some batch => exact ih _ (hkeys _) hrest
      | none =>
        simp only [hx, if_false]
        exact ih _ (hkeys _) hrest
/-! ## Facts about `search` with its text helpers as parameters -/

theorem caculateScoreWith_exactText (sKey findIn : Str) :
    caculateScoreWith exactText sKey findIn = caculateScore sKey findIn := rfl

theorem chatScoreWith_exactText (M : ChatModel) (app : App) (terms : List Str) (chat : Chat) :
    chatScoreWith exactText M app terms chat = chatScore M app terms chat := rfl

theorem nameContributionWith_exactText (M : ChatModel) (app : App) (terms : List Str)
    (chat : Chat) :
    nameContributionWith exactText M app terms chat = nameContribution M app terms chat := rfl

theorem searchTermsWith_exactText (q : Str) : searchTermsWith exactText q = searchTerms q := rfl

/-- With the test for the empty string and the lowering of `A` to `Z` as text helpers,
`searchWith` is `search`. -/
theorem searchWith_exactText (M : ChatModel) (s : State) (q : Str) (chatType : Option Str) :
    searchWith exactText M s q chatType = search M s q chatType := rfl

theorem caculateScoreWith_self (T : TextOps) (s : Str) (h : T.isEmpty s = false) :
    caculateScoreWith T s s = 100 := by
  unfold caculateScoreWith
  simp [h, SEARCH_SCORE_MAP]

theorem nameTermScoreWith_plain (T : TextOps) (chat : Chat) (chatName s : Str)
    (h₁ : T.isEmpty s = false) (h₂ : s.head? ≠ some '#') (h₃ : s.head? ≠ some '@') :
    nameTermScoreWith T chat chatName s = caculateScoreWith T s chatName := by
  unfold nameTermScoreWith
  simp [h₁, h₂, h₃]

/-- What the display name adds for a term is part of what the term adds. -/
theorem nameTermScoreWith_le (T : TextOps) (chat : Chat)
    (chatGid chatName pinYin account info s : Str) :
    nameTermScoreWith T chat chatName s
      ≤ termScoreWith T chat chatGid chatName pinYin account info s := by
  unfold termScoreWith nameTermScoreWith
  by_cases he : T.isEmpty s = true
  · simp [he]
  · by_cases h1 : s.length > 1
    · by_cases h2 : s.head? = some '#'
      · cases hb : (chat.isSystem || chat.isGroup) <;>
          simp [he, h1, h2, hb] <;> omega
      · by_cases h3 : s.head? = some '@'
        · simp [he, h1, h3]
          omega
        · simp [he, h1, h2, h3]
          omega
    · simp [he, h1]
      omega

/-- What the display name contributes is part of the score. -/
theorem nameContributionWith_le (T : TextOps) (M : ChatModel) (app : App) (terms : List Str)
    (chat : Chat) :
    nameContributionWith T M app terms chat ≤ chatScoreWith T M app terms chat := by
  unfold chatScoreWith nameContributionWith
  rw [foldl_add_eq_sum, foldl_add_eq_sum]
  simp only [Nat.zero_add]
  apply List.sum_le_sum
  intro s _
  exact nameTermScoreWith_le T chat _ _ _ _ _ s

/-- A term that is empty adds nothing to the score. -/
theorem chatScoreWith_empty_term (T : TextOps) (M : ChatModel) (app : App) (chat : Chat)
    (hnil : T.isEmpty [] = true) : chatScoreWith T M app [[]] chat = 0 := by
  unfold chatScoreWith termScoreWith
  simp [hnil]

/-- The query loop of `search` over a mapping when every chat scores 0: no chat is pushed,
and the keys of the mapping are kept. -/
theorem queryLoop_searchConditionWith_zero (T : TextOps) (M : ChatModel) (app : App)
    (terms : List Str) (chatType : Option Str)
    (hzero : ∀ chat, chatScoreWith T M app terms chat = 0) : ∀ (m : Obj Chat),
    (queryLoop (searchConditionWith T M app terms chatType) m).1 = []
      ∧ Obj.keys (queryLoop (searchConditionWith T M app terms chatType) m).2 = Obj.keys m
  | [] => ⟨rfl, rfl⟩
  | (k, c) :: rest => by
    obtain ⟨ih1, ih2⟩ := queryLoop_searchConditionWith_zero T M app terms chatType hzero rest
    have hc : (searchConditionWith T M app terms chatType c).1 = false := by
      unfold searchConditionWith
      split
      · rfl
      · simp [hzero c]
    simp only [Obj.keys] at ih2
    simp only [queryLoop, hc, ih1, Obj.keys, List.map_cons, ih2]
    simp

/-- A query that the emptiness test lets through and whose only term is the empty string:
`search` materialises the contact chats, scores every chat 0 and returns the empty list in
the state the materialisation leaves, up to the scores written. -/
theorem searchWith_empty_term (T : TextOps) (M : ChatModel) (s s₁ : State) (m₁ : Obj Chat)
    (q : Str) (chatType : Option Str) (hnil : T.isEmpty [] = true) (hq : T.isEmpty q = false)
    (hterms : searchTermsWith T q = [[]])
    (hmat : materializeContacts M s chatType = .ok s₁) (hinit : s₁.chats = some m₁) :
    ∃ m', searchWith T M s q chatType = .ok ([], { s₁ with chats := some m' })
      ∧ Obj.keys m' = Obj.keys m₁ := by
  obtain ⟨h1, h2⟩ := queryLoop_searchConditionWith_zero T M
    { members := s₁.members, user := s₁.user } [[]] chatType
    (fun chat => chatScoreWith_empty_term T M _ chat hnil) m₁
  refine ⟨_, ?_, h2⟩
  unfold searchWith
  simp only [hq, hterms, hmat, query, hinit, Condition.toFunction, h1]
  simp

/-! ## The claims -/

/-- C1, refuted as stated: for the member id 9 and the current user 10, `getContactChat`
returns a chat whose gid is `10&9`, not the numerically ascending `9&10`. -/
theorem getContactChat_gid_not_numeric :
    ∃ c s', getContactChat plainModel (stateOf [] [] 10) (memberOf 9 "ann") = .ok (c, s')
      ∧ c.gid = "10&9".toList
      ∧ c.gid ≠ decimal (min 9 10) ++ '&' :: decimal (max 9 10) := by
  refine ⟨_, _, rfl, by decide, by decide⟩

/-- C1, amended: for member ids `a` and `b` that are natural numbers below 2^53 (the
integers a number holds exactly and `String` prints digit by digit), `getContactChat` called
with a member whose id is `a` while the current user's id is `b` returns a chat whose gid is
the decimal forms of the two ids joined by `&`, the one that is smaller as a text (compared
character by character, as the default `sort` compares) first; `createWithMembers` returns a
chat with the same gid whenever its member ids are the two ids; and when the two decimal
forms have the same length this text order is the numeric order, so that the gid is
`min(a,b)`, `&`, `max(a,b)`. The mapping is initialised and keyed by gid, and the chat
constructor keeps the gid it is given. -/
theorem getContactChat_gid (M : ChatModel) (hM : M.KeepsGid) (s : State) (m : Obj Chat)
    (hinit : s.chats = some m) (hkeyed : KeyedByGid m) (member : Member) (a b : Nat)
    (_ha53 : a < 2 ^ 53) (_hb53 : b < 2 ^ 53)
    (ha : member.id = .int a) (hb : s.user.id = .int b) :
    (∃ c, getContactChat M s member = .ok (c, s) ∧ c.gid = textOrderGid a b)
      ∧ (∀ (arg : MembersArg) (chatSetting : ChatData),
          chatMemberIds s.user.id arg = [.int a, .int b] →
          ∃ c, createWithMembers M s arg chatSetting = .ok (c, s) ∧ c.gid = textOrderGid a b)
      ∧ ((decimal a).length = (decimal b).length →
          textOrderGid a b = decimal (min a b) ++ '&' :: decimal (max a b)) := by
  refine ⟨?_, ?_, textOrderGid_of_length_eq a b⟩
  · obtain ⟨c, hc, _, hg, _⟩ := getContactChat_ok M s m member hinit
    refine ⟨c, hc, ?_⟩
    rw [hg hM hkeyed, ha, hb, contactGid_nat]
  · intro arg chatSetting hids
    obtain ⟨c, hc, hg⟩ := chatMemberIds_two M s m arg chatSetting _ _ hinit hids
    refine ⟨c, hc, ?_⟩
    rw [hg hM hkeyed, contactGid_nat]

/-- C1, amended, at the member ids 34 and 12 (equal length, numeric order) with a stored
chat. -/
theorem getContactChat_gid_witness :
    (∃ c, getContactChat plainModel
        (stateOf [("12&34".toList, groupChat "12&34" "Project Alpha")] [] 12) (memberOf 34 "ann")
          = .ok (c, stateOf [("12&34".toList, groupChat "12&34" "Project Alpha")] [] 12)
        ∧ c.gid = "12&34".toList)
      ∧ (∃ c, createWithMembers plainModel
          (stateOf [("12&34".toList, groupChat "12&34" "Project Alpha")] [] 12)
          (.list [.id (.int 34)]) ChatData.empty
            = .ok (c, stateOf [("12&34".toList, groupChat "12&34" "Project Alpha")] [] 12)
          ∧ c.gid = "12&34".toList) := by
  have h := getContactChat_gid plainModel plainModel_keepsGid
    (stateOf [("12&34".toList, groupChat "12&34" "Project Alpha")] [] 12)
    [("12&34".toList, groupChat "12&34" "Project Alpha")] rfl
    (by intro p hp; simp only [List.mem_singleton] at hp; subst hp; rfl)
    (memberOf 34 "ann") 34 12 (by norm_num) (by norm_num) rfl rfl
  have hg : textOrderGid 34 12 = "12&34".toList := by decide
  rw [hg] at h
  exact ⟨h.1, h.2.1 (.list [.id (.int 34)]) ChatData.empty (by decide)⟩

open Classical in
/-- C2: `caculateScore(term, field)` is 0 if either string is empty; otherwise 100 if the
term equals the field; otherwise 75 if the field starts with the term; otherwise 50 if the
term occurs in the field at some position greater than 0; otherwise 0. So its result is one
of 0, 50, 75, 100, and never the value 10 of the `similar` entry of the score table. -/
theorem caculateScore_eq (term field : Str) :
    caculateScore term field =
        (if term = [] ∨ field = [] then 0
         else if term = field then 100
         else if term <+: field then 75
         else if ∃ i, 0 < i ∧ term <+: field.drop i then 50
         else 0)
      ∧ caculateScore term field ∈ [0, 50, 75, 100]
      ∧ caculateScore term field ≠ SEARCH_SCORE_MAP.similar := by
  refine ⟨caculateScore_cases term field, ?_, ?_⟩
  · rw [caculateScore_cases]
    split_ifs <;> simp
  · rw [caculateScore_cases]
    split_ifs <;> simp [SEARCH_SCORE_MAP]

/-- C3: on an initialised mapping (no key twice, each chat stored under its gid) and for a
query text that is not empty, `search` succeeds, and with `m₁` the mapping after the step
that materialises the contact chats: a chat of `m₁` appears in the result, with its score
written, if and only if it is not excluded by `chatType` and its accumulated score (a natural
number) is greater than 0; every chat of the result is such a chat; and no gid appears twice
in the result. The type filter: without a `chatType` nothing is excluded, `contact` excludes
the chats that are not one2one, `group` the chats that are neither group nor system. -/
theorem search_result_iff (M : ChatModel) (s : State) (m : Obj Chat) (q : Str)
    (chatType : Option Str) (hinit : s.chats = some m) (hnd : (Obj.keys m).Nodup)
    (hkeyed : KeyedByGid m) (hq : q ≠ []) :
    (∃ s₁ m₁ result s',
        materializeContacts M s chatType = .ok s₁ ∧ s₁.chats = some m₁
          ∧ search M s q chatType = .ok (result, s')
          ∧ (∀ c ∈ Obj.values m₁,
              ({ c with score := chatScore M ⟨s₁.members, s₁.user⟩ (searchTerms q) c } ∈ result
                ↔ typeExcluded chatType c = false
                  ∧ 0 < chatScore M ⟨s₁.members, s₁.user⟩ (searchTerms q) c))
          ∧ (∀ x ∈ result, ∃ c ∈ Obj.values m₁, typeExcluded chatType c = false
              ∧ 0 < chatScore M ⟨s₁.members, s₁.user⟩ (searchTerms q) c
              ∧ x = { c with score := chatScore M ⟨s₁.members, s₁.user⟩ (searchTerms q) c })
          ∧ (result.map Chat.gid).Nodup)
      ∧ (∀ c, typeExcluded none c = false)
      ∧ (∀ c, typeExcluded (some "contact".toList) c = !c.isOne2One)
      ∧ (∀ c, typeExcluded (some "group".toList) c = !c.isGroupOrSystem) := by
  refine ⟨?_, fun c => rfl, fun c => ?_, fun c => ?_⟩
  · obtain ⟨s₁, m₁, s', h0, h1, hwf, hs⟩ := search_eq M s m q chatType hinit hq
    obtain ⟨hnd₁, hkeyed₁⟩ := hwf hnd hkeyed
    have hgids : ((Obj.values m₁).map Chat.gid).Nodup := by
      rw [values_gid_eq_keys m₁ hkeyed₁]
      exact hnd₁
    have hmem : ∀ x, x ∈ Chat.sort (((Obj.values m₁).filter (fun c =>
              !typeExcluded chatType c
                && decide (0 < chatScore M ⟨s₁.members, s₁.user⟩ (searchTerms q) c))).map
            (fun c => { c with
              score := chatScore M ⟨s₁.members, s₁.user⟩ (searchTerms q) c })) scoreOrder
        ↔ ∃ c ∈ Obj.values m₁, typeExcluded chatType c = false
              ∧ 0 < chatScore M ⟨s₁.members, s₁.user⟩ (searchTerms q) c
              ∧ x = { c with score := chatScore M ⟨s₁.members, s₁.user⟩ (searchTerms q) c } := by
      intro x
      rw [(chatSort_perm _ _).mem_iff]
      simp only [List.mem_map, List.mem_filter, Bool.and_eq_true, Bool.not_eq_true',
        decide_eq_true_eq]
      constructor
      · rintro ⟨c, ⟨hc, ht, hs⟩, rfl⟩
        exact ⟨c, hc, ht, hs, rfl⟩
      · rintro ⟨c, hc, ht, hs, rfl⟩
        exact ⟨c, ⟨hc, ht, hs⟩, rfl⟩
    refine ⟨s₁, m₁, _, s', h0, h1, hs, ?_, ?_, ?_⟩
    · intro c hc
      rw [hmem]
      constructor
      · rintro ⟨c', hc', ht, hsc, heq⟩
        have hg : c.gid = c'.gid := by
          have := congrArg Chat.gid heq
          exact this
        have := List.inj_on_of_nodup_map hgids hc hc' hg
        subst this
        exact ⟨ht, hsc⟩
      · rintro ⟨ht, hsc⟩
        exact ⟨c, hc, ht, hsc, rfl⟩
    · intro x hx
      exact (hmem x).mp hx
    · refine ((chatSort_perm _ _).map Chat.gid).nodup_iff.mpr ?_
      rw [List.map_map]
      have hsub : (List.map (Chat.gid ∘ fun c => { c with
              score := chatScore M ⟨s₁.members, s₁.user⟩ (searchTerms q) c })
          ((Obj.values m₁).filter (fun c =>
              !typeExcluded chatType c
                && decide (0 < chatScore M ⟨s₁.members, s₁.user⟩ (searchTerms q) c))))
          = ((Obj.values m₁).filter (fun c =>
              !typeExcluded chatType c
                && decide (0 < chatScore M ⟨s₁.members, s₁.user⟩ (searchTerms q) c))).map
              Chat.gid := by
        apply List.map_congr_left
        intro c _
        rfl
      rw [hsub]
      exact List.Nodup.sublist (List.Sublist.map _ (List.filter_sublist _)) hgids
  · simp [typeExcluded, hasChatType]
  · simp [typeExcluded, hasChatType]

/-- C3, at a mapping of three groups and the query `alpha`: two of them are found. -/
theorem search_result_iff_witness :
    ∃ result s', search plainModel
        (stateOf [("g1".toList, groupChat "g1" "Project Alpha"),
          ("g2".toList, groupChat "g2" "alpha"), ("g3".toList, groupChat "g3" "zzz")] [] 2)
        "alpha".toList none = .ok (result, s')
      ∧ result.map Chat.gid = ["g1".toList, "g2".toList] := by
  obtain ⟨⟨s₁, m₁, result, s', _, _, hs, _⟩, _⟩ :=
    search_result_iff plainModel
      (stateOf [("g1".toList, groupChat "g1" "Project Alpha"),
        ("g2".toList, groupChat "g2" "alpha"), ("g3".toList, groupChat "g3" "zzz")] [] 2)
      [("g1".toList, groupChat "g1" "Project Alpha"),
        ("g2".toList, groupChat "g2" "alpha"), ("g3".toList, groupChat "g3" "zzz")]
      "alpha".toList none rfl (by decide)
      (by
        intro p hp
        simp only [List.mem_cons, List.mem_singleton, List.not_mem_nil, or_false] at hp
        rcases hp with rfl | rfl | rfl <;> rfl)
      (by decide)
  refine ⟨result, s', hs, ?_⟩
  have hev : (search plainModel
      (stateOf [("g1".toList, groupChat "g1" "Project Alpha"),
        ("g2".toList, groupChat "g2" "alpha"), ("g3".toList, groupChat "g3" "zzz")] [] 2)
      "alpha".toList none).toOption.map (fun r => r.1.map Chat.gid)
      = some ["g1".toList, "g2".toList] := by decide
  rw [hs] at hev
  simpa [Except.toOption] using hev

/-- C4: whatever the state and the query, a list that `search` returns is ascending in the
score `search` wrote to each chat: for any two chats `x` before `y` in it,
`x.score ≤ y.score`; and on an initialised mapping `search` does return. The sorting is that
of `Chat.sort`, as the specification describes it. -/
theorem search_sorted (M : ChatModel) (s : State) (q : Str) (chatType : Option Str) :
    (∀ result s', search M s q chatType = .ok (result, s') →
        result.Pairwise (fun x y => x.score ≤ y.score))
      ∧ (∀ m, s.chats = some m → ∃ result s', search M s q chatType = .ok (result, s')) := by
  have hempty : q = [] → search M s q chatType = .ok ([], s) := by
    rintro rfl
    rfl
  refine ⟨?_, ?_⟩
  · intro result s' h
    by_cases hq : q = []
    · rw [hempty hq] at h
      cases h
      exact List.Pairwise.nil
    · cases hc : s.chats with
      | none =>
        rw [search_uninit M s q chatType result s' hc h]
        exact List.Pairwise.nil
      | some m =>
        obtain ⟨s₁, m₁, s'', _, _, _, hs⟩ := search_eq M s m q chatType hc hq
        rw [hs] at h
        cases h
        exact chatSort_sorted _
  · intro m hm
    by_cases hq : q = []
    · exact ⟨[], s, hempty hq⟩
    · obtain ⟨s₁, m₁, s'', _, _, _, hs⟩ := search_eq M s m q chatType hm hq
      exact ⟨_, _, hs⟩

/-- C4, at a mapping of three groups and the query `alpha`: the scores of the result are 50
and 100, in this order. -/
theorem search_sorted_witness :
    ∃ result s', search plainModel
        (stateOf [("g2".toList, groupChat "g2" "alpha"),
          ("g1".toList, groupChat "g1" "Project Alpha"), ("g3".toList, groupChat "g3" "zzz")] [] 2)
        "alpha".toList none = .ok (result, s')
      ∧ result.map Chat.score = [50, 100]
      ∧ result.Pairwise (fun x y => x.score ≤ y.score) := by
  have h := search_sorted plainModel
    (stateOf [("g2".toList, groupChat "g2" "alpha"),
      ("g1".toList, groupChat "g1" "Project Alpha"), ("g3".toList, groupChat "g3" "zzz")] [] 2)
    "alpha".toList none
  obtain ⟨result, s', hs⟩ := h.2 _ rfl
  refine ⟨result, s', hs, ?_, h.1 result s' hs⟩
  have hev : (search plainModel
      (stateOf [("g2".toList, groupChat "g2" "alpha"),
        ("g1".toList, groupChat "g1" "Project Alpha"), ("g3".toList, groupChat "g3" "zzz")] [] 2)
      "alpha".toList none).toOption.map (fun r => r.1.map Chat.score) = some [50, 100] := by decide
  rw [hs] at hev
  simpa [Except.toOption] using hev

/-- C5, with `StringHelper.isEmpty` (not among the sources) and `toLowerCase` as the
parameter `T`, for a helper that holds of the empty string. `search("")` returns the empty
list and the state it was given, whatever the chat model, the state and the chat type. When
the helper also holds of the query of three spaces, as the specification has it
("Empty/whitespace query → empty result immediately"), `search("   ")` does the same: the
first statement of `search` returns before the directory is read or written, so the chat
mapping is the one before the call, no chat is registered and no event is published. When
the helper does not hold of the query of three spaces, nothing else stops the query: its
terms are the one empty string, the test `!search.length` of the array of terms does not
fire, and with the member 1 in the member directory, the current user 2 and an empty chat
mapping the call returns the empty list after `getContactsChats` registered the chat `1&2`
and one event was published. -/
theorem search_blank_query (T : TextOps) (hnil : T.isEmpty [] = true) :
    (∀ (M : ChatModel) (s : State) (chatType : Option Str),
        searchWith T M s [] chatType = .ok ([], s))
      ∧ (T.isEmpty "   ".toList = true →
          ∀ (M : ChatModel) (s : State) (chatType : Option Str),
            searchWith T M s "   ".toList chatType = .ok ([], s))
      ∧ (T.isEmpty "   ".toList = false → T.toLowerCase [] = [] →
          searchTermsWith T "   ".toList = [[]]
            ∧ ∃ s' m', searchWith T plainModel (stateOf [] [("1".toList, memberOf 1 "ann")] 2)
                  "   ".toList none = .ok ([], s')
                ∧ s'.chats = some m' ∧ Obj.keys m' = ["1&2".toList]
                ∧ s'.events.length = 1) := by
  refine ⟨?_, ?_, ?_⟩
  · intro M s chatType
    unfold searchWith
    simp only [hnil, if_true]
  · intro hblank M s chatType
    unfold searchWith
    simp only [hblank, if_true]
  · intro hblank hlow
    have hterms : searchTermsWith T "   ".toList = [[]] := by
      unfold searchTermsWith
      have ht : trim "   ".toList = [] := by decide
      rw [ht, hlow]
      rfl
    have hmat : ∃ s₁ m₁,
        materializeContacts plainModel (stateOf [] [("1".toList, memberOf 1 "ann")] 2) none
          = .ok s₁
        ∧ s₁.chats = some m₁ ∧ Obj.keys m₁ = ["1&2".toList] ∧ s₁.events.length = 1 :=
      ⟨_, _, rfl, rfl, by decide, by decide⟩
    obtain ⟨s₁, m₁, h1, h2, h3, h4⟩ := hmat
    obtain ⟨m', h5, h6⟩ := searchWith_empty_term T plainModel _ s₁ m₁ "   ".toList none hnil
      hblank hterms h1 h2
    exact ⟨hterms, _, m', h5, rfl, by rw [h6, h3], h4⟩

/-- C5, for the helper that holds of a string that is empty once trimmed: `search("")` and
`search("   ")` return the empty list and leave the state, here a directory with one member
and an empty chat mapping, as it was. -/
theorem search_blank_query_witness :
    searchWith blankText plainModel (stateOf [] [("1".toList, memberOf 1 "ann")] 2) [] none
        = .ok ([], stateOf [] [("1".toList, memberOf 1 "ann")] 2)
      ∧ searchWith blankText plainModel (stateOf [] [("1".toList, memberOf 1 "ann")] 2)
          "   ".toList none = .ok ([], stateOf [] [("1".toList, memberOf 1 "ann")] 2) :=
  ⟨(search_blank_query blankText (by decide)).1 plainModel _ none,
    (search_blank_query blankText (by decide)).2.1 (by decide) plainModel _ none⟩

/-- C6, refuted as stated: for a chat with the display name `Project Alpha`, the query
`Project Alpha` is split into the terms `project` and `alpha`; the name scores 75 for the
first and 50 for the second, 125 in all and not 100, and 125 is the score `search` writes to
the chat. -/
theorem search_full_name_not_exact :
    searchTerms "Project Alpha".toList = ["project".toList, "alpha".toList]
      ∧ nameContribution plainModel ⟨some [], ⟨.int 2, "me".toList⟩⟩
          (searchTerms "Project Alpha".toList) (groupChat "12&34" "Project Alpha") = 125
      ∧ nameContribution plainModel ⟨some [], ⟨.int 2, "me".toList⟩⟩
          (searchTerms "Project Alpha".toList) (groupChat "12&34" "Project Alpha") ≠ 100
      ∧ (search plainModel (stateOf [("12&34".toList, groupChat "12&34" "Project Alpha")] [] 2)
          "Project Alpha".toList none).toOption.map (fun r => r.1.map Chat.score) = some [125] := by
  refine ⟨by decide, by decide, by decide, by decide⟩

/-- C6, amended: with `StringHelper.isEmpty` and `toLowerCase` as the parameter `T` (so for
the lowering of every alphabet), for a chat whose display name in lowercase is one word (not
empty for the helper, without a space, not starting with `#` or `@`): a query whose trimmed
text has the same lowercase form as the display name, which is what equal up to letter case
means, has the lowercase display name as its only term, and the name contributes exactly 100
to the score, which is therefore at least 100. For a chat with the display name
`Project Alpha`, the query `proj` gives a name contribution of 75, the query `oje` one of 50,
and the query `Project Alpha` one of 75 + 50 = 125. -/
theorem search_name_exact (T : TextOps) (M : ChatModel) (app : App) (chat : Chat) (q : Str) :
    (T.isEmpty (T.toLowerCase (M.getDisplayName app chat)) = false →
      ' ' ∉ T.toLowerCase (M.getDisplayName app chat) →
      (T.toLowerCase (M.getDisplayName app chat)).head? ≠ some '#' →
      (T.toLowerCase (M.getDisplayName app chat)).head? ≠ some '@' →
      T.toLowerCase (trim q) = T.toLowerCase (M.getDisplayName app chat) →
        searchTermsWith T q = [T.toLowerCase (M.getDisplayName app chat)]
          ∧ nameContributionWith T M app (searchTermsWith T q) chat = 100
          ∧ 100 ≤ chatScoreWith T M app (searchTermsWith T q) chat)
      ∧ (M.getDisplayName app chat = "Project Alpha".toList →
          nameContribution M app (searchTerms "proj".toList) chat = 75
            ∧ nameContribution M app (searchTerms "oje".toList) chat = 50
            ∧ nameContribution M app (searchTerms "Project Alpha".toList) chat = 125) := by
  constructor
  · intro hne hsp hsharp hat hq
    have hterms : searchTermsWith T q = [T.toLowerCase (M.getDisplayName app chat)] := by
      unfold searchTermsWith
      rw [hq]
      exact split_eq_singleton ' ' _ hsp
    have hname : nameContributionWith T M app (searchTermsWith T q) chat = 100 := by
      unfold nameContributionWith
      rw [hterms]
      simp only [List.foldl_cons, List.foldl_nil, Nat.zero_add]
      rw [nameTermScoreWith_plain T chat _ _ hne hsharp hat]
      exact caculateScoreWith_self T _ hne
    refine ⟨hterms, hname, ?_⟩
    have hle := nameContributionWith_le T M app (searchTermsWith T q) chat
    omega
  · intro hD
    have h1 : searchTerms "proj".toList = ["proj".toList] := by decide
    have h2 : searchTerms "oje".toList = ["oje".toList] := by decide
    have h3 : searchTerms "Project Alpha".toList = ["project".toList, "alpha".toList] := by decide
    have hl : toLowerCase "Project Alpha".toList = "project alpha".toList := by decide
    have e1 : caculateScore "proj".toList "project alpha".toList = 75 := by decide
    have e2 : caculateScore "oje".toList "project alpha".toList = 50 := by decide
    have e3 : caculateScore "project".toList "project alpha".toList = 75 := by decide
    have e4 : caculateScore "alpha".toList "project alpha".toList = 50 := by decide
    unfold nameContribution
    rw [hD, hl, h1, h2, h3]
    simp only [List.foldl_cons, List.foldl_nil, Nat.zero_add]
    rw [nameTermScore_plain chat _ "proj".toList (by decide) (by decide) (by decide),
      nameTermScore_plain chat _ "oje".toList (by decide) (by decide) (by decide),
      nameTermScore_plain chat _ "project".toList (by decide) (by decide) (by decide),
      nameTermScore_plain chat _ "alpha".toList (by decide) (by decide) (by decide),
      e1, e2, e3, e4]
    exact ⟨rfl, rfl, rfl⟩

/-- C6, amended, at the display name `Alpha` and the query `ALPHA`, for the test for the
empty string and the lowering of `A` to `Z`. -/
theorem search_name_exact_witness :
    searchTermsWith exactText "ALPHA".toList = ["alpha".toList]
      ∧ nameContributionWith exactText plainModel ⟨some [], ⟨.int 2, "me".toList⟩⟩
          (searchTermsWith exactText "ALPHA".toList) (groupChat "g1" "Alpha") = 100
      ∧ 100 ≤ chatScoreWith exactText plainModel ⟨some [], ⟨.int 2, "me".toList⟩⟩
          (searchTermsWith exactText "ALPHA".toList) (groupChat "g1" "Alpha") :=
  (search_name_exact exactText plainModel ⟨some [], ⟨.int 2, "me".toList⟩⟩
    (groupChat "g1" "Alpha") "ALPHA".toList).1 (by decide) (by decide) (by decide) (by decide)
    (by decide)

/-- C7, evaluated where the claim fails: on the empty initialised mapping, for the member 1
and the current user 2, `getContactChat` returns a chat with the gid `1&2`, but the mapping
after the call holds nothing under that gid and no event was published: `get` has built the
chat, so the branch that registers it through `update` is not reached. -/
theorem getContactChat_not_registered :
    ∃ c s' m', getContactChat plainModel (stateOf [] [] 2) (memberOf 1 "ann") = .ok (c, s')
      ∧ c.gid = "1&2".toList
      ∧ s'.chats = some m' ∧ Obj.lookup m' c.gid = none
      ∧ s'.events = [] := by
  refine ⟨_, _, _, rfl, by decide, rfl, by decide, rfl⟩

/-- C8: the contact gid does not depend on which of two members is the current user. With
the chat mappings initialised and keyed by gid, and a constructor that keeps the gid,
`getContactChat(member A)` while the current user is B and `getContactChat(member B)` while
the current user is A succeed with chats of one and the same gid, and `get` applied to
that gid returns, in either state, the chat `getContactChat` returned there, which carries
that gid. -/
theorem contactChat_symmetric (M : ChatModel) (hM : M.KeepsGid) (sA sB : State)
    (mA mB : Obj Chat) (hA : sA.chats = some mA) (hB : sB.chats = some mB)
    (kA : KeyedByGid mA) (kB : KeyedByGid mB) (memberA memberB : Member)
    (hcurA : sA.user.id = memberA.id) (hcurB : sB.user.id = memberB.id) :
    ∃ c₁ c₂, getContactChat M sB memberA = .ok (c₁, sB)
      ∧ getContactChat M sA memberB = .ok (c₂, sA)
      ∧ c₁.gid = c₂.gid
      ∧ get M sB c₁.gid = .ok (some c₁, sB)
      ∧ get M sA c₂.gid = .ok (some c₂, sA)
      ∧ c₁.gid = contactGid memberA.id memberB.id := by
  obtain ⟨c₁, h1, g1, e1, _⟩ := getContactChat_ok M sB mB memberA hB
  obtain ⟨c₂, h2, g2, e2, _⟩ := getContactChat_ok M sA mA memberB hA
  have e1' := e1 hM kB
  have e2' := e2 hM kA
  rw [hcurB] at e1' g1
  rw [hcurA] at e2' g2
  rw [contactGid_comm memberB.id memberA.id] at e2' g2
  refine ⟨c₁, c₂, h1, h2, by rw [e1', e2'], ?_, ?_, e1'⟩
  · rw [e1']
    exact g1
  · rw [e2']
    exact g2

/-- C8, at the ids 9 and 10: called either way round, the gid is `10&9`. -/
theorem contactChat_symmetric_witness :
    ∃ c₁ c₂, getContactChat plainModel (stateOf [] [] 10) (memberOf 9 "ann")
          = .ok (c₁, stateOf [] [] 10)
      ∧ getContactChat plainModel (stateOf [] [] 9) (memberOf 10 "bob")
          = .ok (c₂, stateOf [] [] 9)
      ∧ c₁.gid = c₂.gid ∧ c₁.gid = "10&9".toList := by
  obtain ⟨c₁, c₂, h1, h2, h3, _, _, h6⟩ :=
    contactChat_symmetric plainModel plainModel_keepsGid (stateOf [] [] 9) (stateOf [] [] 10)
      [] [] rfl rfl (by intro p hp; cases hp) (by intro p hp; cases hp)
      (memberOf 9 "ann") (memberOf 10 "bob") rfl rfl
  refine ⟨c₁, c₂, h1, h2, h3, ?_⟩
  rw [h6]
  decide

/-- C9, refuted as stated: a batch of one chat with the gid `__proto__`, on a mapping that
holds the chat `g2`. `update` succeeds, but the gid of the batch maps to no record: the
assignment `newchats["__proto__"] = chat` on the plain object replaces its prototype and
stores nothing, so the mapping is the one before the call and the event published carries no
record. -/
theorem update_drops_proto_gid :
    ∃ s' m', update plainModel (stateOf [("g2".toList, groupChat "g2" "old")] [] 1)
        (.list [groupChat "__proto__" "x"]) = .ok s'
      ∧ s'.chats = some m'
      ∧ "__proto__".toList ∈ ([groupChat "__proto__" "x"].map plainModel.create).map Chat.gid
      ∧ Obj.lookup m' "__proto__".toList = none
      ∧ m' = [("g2".toList, groupChat "g2" "old")]
      ∧ s'.events = [Event.chats []] := by
  refine ⟨_, _, rfl, rfl, by decide, by decide, by decide, by decide⟩

/-- C9, amended: on an initialised mapping `m` and a non-empty batch in which no canonical
chat has the gid `__proto__`, `update` succeeds and leaves a mapping in which each gid of the
batch holds the canonical form of the last batch entry with that gid, each other gid holds
what it held in `m`, the keys are those of `m` and of the batch, none of them twice; the one
event published carries exactly the per-gid last records of the batch; nothing else of the
state changes. On an empty list or a missing argument `update` returns the state it was
given. -/
theorem update_upsert (M : ChatModel) (s : State) (m : Obj Chat) (batch : List Chat)
    (hinit : s.chats = some m) (hm : (Obj.keys m).Nodup) (hne : batch ≠ [])
    (hproto : ∀ c ∈ batch, (M.create c).gid ≠ "__proto__".toList) :
    (∃ s' m' changed,
        update M s (.list batch) = .ok s' ∧ s'.chats = some m'
          ∧ (∀ g, g ∈ (batch.map M.create).map Chat.gid →
              Obj.lookup m' g = lastWith Chat.gid (batch.map M.create) g
                ∧ (Obj.lookup m' g).isSome)
          ∧ (∀ g, g ∉ (batch.map M.create).map Chat.gid → Obj.lookup m' g = Obj.lookup m g)
          ∧ (∀ g, g ∈ Obj.keys m' ↔ g ∈ Obj.keys m ∨ g ∈ (batch.map M.create).map Chat.gid)
          ∧ (Obj.keys m').Nodup
          ∧ s'.events = s.events ++ [Event.chats changed]
          ∧ (∀ g, Obj.lookup changed g = lastWith Chat.gid (batch.map M.create) g)
          ∧ (∀ g, g ∈ Obj.keys changed ↔ g ∈ (batch.map M.create).map Chat.gid)
          ∧ (Obj.keys changed).Nodup
          ∧ s'.members = s.members ∧ s'.publicChats = s.publicChats ∧ s'.user = s.user)
      ∧ update M s (.list []) = .ok s
      ∧ update M s .missing = .ok s := by
  obtain ⟨n1, n2, n3, _⟩ := newchatsOf_plain M batch hproto
  obtain ⟨a1, a2, a3⟩ := Obj.assign_spec m (newchatsOf M batch) n3
  have hlen : batch.length ≠ 0 := by
    intro h
    exact hne (List.length_eq_zero.mp h)
  refine ⟨⟨State.mk (some (Obj.assign m (newchatsOf M batch))) s.publicChats s.members s.user
      (s.events ++ [Event.chats (newchatsOf M batch)]),
    Obj.assign m (newchatsOf M batch), newchatsOf M batch, ?_, rfl, ?_, ?_, ?_,
    a3 hm, rfl, n1, n2, n3, rfl, rfl, rfl⟩, ?_, ?_⟩
  · simp only [update, hlen, if_false, hinit]
  · intro g hg
    have hsome : (lastWith Chat.gid (batch.map M.create) g).isSome :=
      (lastWith_isSome _ _ _).mpr hg
    have hl : Obj.lookup (Obj.assign m (newchatsOf M batch)) g
        = lastWith Chat.gid (batch.map M.create) g := by
      rw [a1 g, n1 g]
      cases h : lastWith Chat.gid (batch.map M.create) g with
      | none => simp [h] at hsome
      | some c => simp
    exact ⟨hl, by rw [hl]; exact hsome⟩
  · intro g hg
    rw [a1 g]
    have : Obj.lookup (newchatsOf M batch) g = none := by
      rw [Obj.lookup_eq_none_iff, n2 g]
      exact hg
    simp [this]
  · intro g
    rw [a2 g, n2 g]
  · simp [update]
  · simp [update]

/-- C9, amended, at a batch that carries the gid `g1` twice. -/
theorem update_upsert_witness :
    ∃ s', update plainModel (stateOf [("g2".toList, groupChat "g2" "old")] [] 1)
        (.list [groupChat "g1" "first", groupChat "g2" "new", groupChat "g1" "second"]) = .ok s'
      ∧ s'.chats = some [("g2".toList, groupChat "g2" "new"),
          ("g1".toList, groupChat "g1" "second")] := by
  obtain ⟨⟨s', m', changed, h1, h2, _⟩, _⟩ :=
    update_upsert plainModel (stateOf [("g2".toList, groupChat "g2" "old")] [] 1)
      [("g2".toList, groupChat "g2" "old")]
      [groupChat "g1" "first", groupChat "g2" "new", groupChat "g1" "second"]
      rfl (by decide) (by decide) (by
        intro c hc
        simp only [List.mem_cons, List.mem_singleton, List.not_mem_nil, or_false] at hc
        rcases hc with rfl | rfl | rfl <;> decide)
  refine ⟨s', h1, ?_⟩
  have h3 : update plainModel (stateOf [("g2".toList, groupChat "g2" "old")] [] 1)
      (.list [groupChat "g1" "first", groupChat "g2" "new", groupChat "g1" "second"])
      = .ok { stateOf [("g2".toList, groupChat "g2" "new"),
          ("g1".toList, groupChat "g1" "second")] [] 1 with
          events := [Event.chats [("g1".toList, groupChat "g1" "second"),
            ("g2".toList, groupChat "g2" "new")]] } := by rfl
  rw [h3] at h1
  cases h1
  rfl

/-- C10, refuted as stated: a directory that holds, under the key that is the empty string,
a member with the account `bob`. No member is stored under the key `bob` and a stored member
has the account `bob`, but `get("bob")` returns the placeholder `User-bob`, which is not a
stored member: the scan finds the key `""`, and the test `if(findId)` takes the empty string
for a miss. -/
theorem Members.get_skips_empty_key :
    ∃ member,
      Members.get (stateOf [] [([], Member.construct (.str []) (.str "bob".toList) "Bob".toList)] 1)
          (.str "bob".toList)
        = .ok (some member,
            stateOf [] [([], Member.construct (.str []) (.str "bob".toList) "Bob".toList)] 1)
      ∧ Obj.lookup [([], Member.construct (.str []) (.str "bob".toList) "Bob".toList)]
          "bob".toList = none
      ∧ (∃ k m, Obj.lookup [([], Member.construct (.str []) (.str "bob".toList) "Bob".toList)] k
            = some m ∧ m.account.strictEq (.str "bob".toList) = true)
      ∧ member = Members.placeholder (.str "bob".toList)
      ∧ member.realname = "User-bob".toList
      ∧ ∀ k, Obj.lookup [([], Member.construct (.str []) (.str "bob".toList) "Bob".toList)] k
          ≠ some member := by
  refine ⟨_, rfl, by decide, ⟨[], _, rfl, by decide⟩, rfl, by decide, ?_⟩
  intro k
  by_cases hk : ([] : Str) = k
  · subst hk
    decide
  · simp [Obj.lookup, hk]

/-- C10, amended: on an initialised member directory whose keys are not empty strings, and
for an `idOrAccount` that is not the name of a property every object inherits
(`prototypeKeys`) and that, when it is a number, is an integer of magnitude below 2^53, `get`
of `members.js` never fails and returns a member: the one stored under the key `idOrAccount`
if there is one; otherwise, if some stored member has `idOrAccount` as its account, a stored
member with that account; otherwise a placeholder with `id = idOrAccount`,
`account = idOrAccount` and `realname = "User-" + idOrAccount`. The state, and with it the
directory mapping, is the same after the call. -/
theorem Members.get_total (s : State) (ms : Obj Member) (idOrAccount : Val)
    (hinit : s.members = some ms) (hkeys : ∀ k ∈ Obj.keys ms, k ≠ [])
    (_hproto : idOrAccount.toStr ∉ prototypeKeys)
    (_hnum : ∀ z : Int, idOrAccount = .int z → z.natAbs < 2 ^ 53) :
    ∃ member, Members.get s idOrAccount = .ok (some member, s)
      ∧ (∀ stored, Obj.lookup ms idOrAccount.toStr = some stored → member = stored)
      ∧ (Obj.lookup ms idOrAccount.toStr = none →
          (∃ k m, Obj.lookup ms k = some m ∧ m.account.strictEq idOrAccount = true) →
          (∃ k, Obj.lookup ms k = some member) ∧ member.account.strictEq idOrAccount = true)
      ∧ (Obj.lookup ms idOrAccount.toStr = none →
          (∀ k m, Obj.lookup ms k = some m → m.account.strictEq idOrAccount = false) →
          member = Members.placeholder idOrAccount ∧ member.id = idOrAccount
            ∧ member.account = idOrAccount
            ∧ member.realname = "User-".toList ++ idOrAccount.toStr) := by
  unfold Members.get
  simp only [hinit]
  cases hl : Obj.lookup ms idOrAccount.toStr with
  | some stored =>
    refine ⟨stored, rfl, ?_, ?_, ?_⟩
    · intro x hx
      cases hx
      rfl
    · intro h
      cases h
    · intro h
      cases h
  | none =>
    cases hf : (Obj.keys ms).find? (fun x =>
        match Obj.lookup ms x with
        | some m => m.account.strictEq idOrAccount
        | none => false) with
    | some x =>
      have hx1 := List.find?_some hf
      have hx2 := List.mem_of_find?_eq_some hf
      have hxne : x ≠ [] := hkeys x hx2
      have hxe : x.isEmpty = false := by
        cases x with
        | nil => exact absurd rfl hxne
        | cons _ _ => rfl
      cases hlx : Obj.lookup ms x with
      | none => simp [hlx] at hx1
      | some m' =>
        simp only [hlx] at hx1
        refine ⟨m', by simp [hxe, hlx], ?_, ?_, ?_⟩
        · intro stored h
          cases h
        · intro _ _
          exact ⟨⟨x, hlx⟩, hx1⟩
        · intro _ hall
          have := hall x m' hlx
          rw [this] at hx1
          cases hx1
    | none =>
      refine ⟨Members.placeholder idOrAccount, rfl, ?_, ?_, ?_⟩
      · intro stored h
        cases h
      · intro _ hex
        obtain ⟨k, m', hk, hacc⟩ := hex
        have hmem : k ∈ Obj.keys ms := by
          by_contra hnot
          rw [(Obj.lookup_eq_none_iff ms k).mpr hnot] at hk
          cases hk
        have := List.find?_eq_none.mp hf k hmem
        simp [hk, hacc] at this
      · intro _ _
        exact ⟨rfl, rfl, rfl, rfl⟩

/-- C10, amended, at a directory that holds the member 7 with the account `ann`, looked up
by the unknown id 5. -/
theorem Members.get_total_witness :
    ∃ member, Members.get (stateOf [] [("7".toList, memberOf 7 "ann")] 1) (.int 5)
        = .ok (some member, stateOf [] [("7".toList, memberOf 7 "ann")] 1)
      ∧ member.realname = "User-5".toList := by
  obtain ⟨member, h, _, _, h3⟩ :=
    Members.get_total (stateOf [] [("7".toList, memberOf 7 "ann")] 1)
      [("7".toList, memberOf 7 "ann")] (.int 5) rfl (by decide) (by decide) (by
        intro z hz
        cases hz
        norm_num)
  refine ⟨member, h, ?_⟩
  have hp := (h3 (by decide) (by
    intro k m hk
    have hm := Obj.mem_of_lookup _ _ _ hk
    simp only [List.mem_singleton, Prod.mk.injEq] at hm
    rw [hm.2]
    decide)).2.2.2
  rw [hp]
  decide

/-- C11, evaluated where the claim fails: in a directory that holds the member 7 with the
account `ann` and the real name `Ann Lee`, `guess("zzz")`, which no id, account or real name
matches, returns the placeholder `User-zzz` and not `undefined`; and `guess("Ann Lee")`,
which only the real name of member 7 matches, returns the placeholder `User-Ann Lee` and not
member 7. `get` has already returned a placeholder, so the scan of `guess` over accounts and
real names is not reached. -/
theorem guess_returns_placeholder :
    (∃ s', Members.guess
        (stateOf [] [("7".toList, { memberOf 7 "ann" with realname := "Ann Lee".toList })] 1)
        (.str "zzz".toList) = .ok (some (Members.placeholder (.str "zzz".toList)), s'))
      ∧ (∃ s', Members.guess
          (stateOf [] [("7".toList, { memberOf 7 "ann" with realname := "Ann Lee".toList })] 1)
          (.str "Ann Lee".toList) = .ok (some (Members.placeholder (.str "Ann Lee".toList)), s'))
      ∧ (Members.placeholder (.str "Ann Lee".toList)).realname = "User-Ann Lee".toList
      ∧ Members.placeholder (.str "Ann Lee".toList)
          ≠ { memberOf 7 "ann" with realname := "Ann Lee".toList } := by
  refine ⟨⟨_, rfl⟩, ⟨_, rfl⟩, by decide, by decide⟩

/-- C12, evaluated where the claim fails: with the chats `g1` and `g2` in the mapping,
`query(["g1"])` returns the empty list although `get("g1")` resolves, and with the member 7
in the member directory `query([7])` of `members.js` returns the empty list although `get(7)`
resolves. An array has `typeof` `object`, so `query` turns it into a comparison of the
properties named by its indices, which no chat and no member passes, and the branch for
arrays is not reached: on every state, a list that is not empty gives the empty result, and
the empty list gives all chats. -/
theorem query_array_resolves_nothing :
    query plainModel
        (stateOf [("g1".toList, groupChat "g1" "A"), ("g2".toList, groupChat "g2" "B")] [] 1)
        (.array ["g1".toList]) none
      = .ok ([], stateOf [("g1".toList, groupChat "g1" "A"),
          ("g2".toList, groupChat "g2" "B")] [] 1)
      ∧ get plainModel
          (stateOf [("g1".toList, groupChat "g1" "A"), ("g2".toList, groupChat "g2" "B")] [] 1)
          "g1".toList
        = .ok (some (groupChat "g1" "A"), stateOf [("g1".toList, groupChat "g1" "A"),
            ("g2".toList, groupChat "g2" "B")] [] 1)
      ∧ Members.query (stateOf [] [("7".toList, memberOf 7 "ann")] 1) (.array [.int 7]) none
        = .ok ([], stateOf [] [("7".toList, memberOf 7 "ann")] 1)
      ∧ Members.get (stateOf [] [("7".toList, memberOf 7 "ann")] 1) (.int 7)
        = .ok (some (memberOf 7 "ann"), stateOf [] [("7".toList, memberOf 7 "ann")] 1)
      ∧ (∀ (M : ChatModel) (s : State) (gid : Str) (gids : List Str),
          query M s (.array (gid :: gids)) none = .ok ([], s))
      ∧ (∀ (s : State) (id : Val) (ids : List Val),
          Members.query s (.array (id :: ids)) none = .ok ([], s))
      ∧ (query plainModel
          (stateOf [("g1".toList, groupChat "g1" "A"), ("g2".toList, groupChat "g2" "B")] [] 1)
          (.array []) none).toOption.map (fun r => r.1.map Chat.gid)
        = some ["g1".toList, "g2".toList] := by
  refine ⟨query_array_cons _ _ _ _, rfl, Members.query_ids_cons _ _ _, rfl,
    query_array_cons, Members.query_ids_cons, by decide⟩

/-- C13: at the time `now`, if the directory holds fewer than 2 chats `getRecents` returns all
of them; otherwise it returns, in `getAll` order, exactly the chats whose notice count is not
zero, or that are starred while `includeStar` holds (it holds when the argument is not
given), or whose `lastActiveTime` is set and at most 7*24*60*60*1000 ms before `now`. So,
among at least 2 chats, a chat with zero notice count, not starred and last active 8 days
before `now` is excluded, and a chat last active 1 day before `now` is included. -/
theorem getRecents_spec (s : State) (now : Nat) (includeStar : Option Bool) :
    ((getAll s).length < 2 → getRecents s now includeStar = getAll s)
      ∧ (2 ≤ (getAll s).length →
          getRecents s now includeStar
            = (getAll s).filter (fun c => decide
                (c.noticeCount ≠ 0 ∨ (includeStar.getD true = true ∧ c.star = true)
                  ∨ (c.lastActiveTime ≠ 0
                    ∧ (now : Int) - (c.lastActiveTime : Int) ≤ 7 * 24 * 60 * 60 * 1000))))
      ∧ (2 ≤ (getAll s).length → ∀ c ∈ getAll s, c.noticeCount = 0 → c.star = false →
          c.lastActiveTime + 8 * 24 * 60 * 60 * 1000 = now →
          c ∉ getRecents s now includeStar)
      ∧ (2 ≤ (getAll s).length → ∀ c ∈ getAll s, c.lastActiveTime ≠ 0 →
          c.lastActiveTime + 1 * 24 * 60 * 60 * 1000 = now →
          c ∈ getRecents s now includeStar) := by
  have hiff : ∀ c : Chat, isRecent now (includeStar.getD true) c = true ↔
      (c.noticeCount ≠ 0 ∨ (includeStar.getD true = true ∧ c.star = true)
        ∨ (c.lastActiveTime ≠ 0
          ∧ (now : Int) - (c.lastActiveTime : Int) ≤ 7 * 24 * 60 * 60 * 1000)) := by
    intro c
    simp only [isRecent, MAX_RECENT_TIME, Bool.or_eq_true, Bool.and_eq_true,
      decide_eq_true_eq, or_assoc]
    norm_num
  have hfilter : 2 ≤ (getAll s).length →
      getRecents s now includeStar
        = (getAll s).filter (isRecent now (includeStar.getD true)) := by
    intro h
    unfold getRecents
    simp only [show ¬ (getAll s).length < 2 by omega, if_false]
  refine ⟨?_, ?_, ?_, ?_⟩
  · intro h
    unfold getRecents
    simp only [h, if_true]
  · intro h
    rw [hfilter h]
    apply List.filter_congr
    intro c _
    rw [Bool.eq_iff_iff, hiff c]
    simp
  · intro h c _ hn hs ht
    rw [hfilter h, List.mem_filter, hiff c]
    rintro ⟨_, h1 | ⟨_, h2⟩ | ⟨_, h3⟩⟩
    · exact h1 hn
    · rw [hs] at h2
      cases h2
    · omega
  · intro h c hc h0 ht
    rw [hfilter h, List.mem_filter, hiff c]
    refine ⟨hc, Or.inr (Or.inr ⟨h0, ?_⟩)⟩
    omega

/-- C13, at two quiet chats, one last active 8 days and one 1 day before `now`: only the
second is returned. -/
theorem getRecents_spec_witness :
    getRecents
        (stateOf [("g1".toList, { groupChat "g1" "old" with lastActiveTime := 1000 }),
          ("g2".toList, { groupChat "g2" "new" with lastActiveTime := 604801000 })] [] 1)
        691201000 none
      = [{ groupChat "g2" "new" with lastActiveTime := 604801000 }]
    ∧ { groupChat "g1" "old" with lastActiveTime := 1000 } ∉ getRecents
        (stateOf [("g1".toList, { groupChat "g1" "old" with lastActiveTime := 1000 }),
          ("g2".toList, { groupChat "g2" "new" with lastActiveTime := 604801000 })] [] 1)
        691201000 none
    ∧ { groupChat "g2" "new" with lastActiveTime := 604801000 } ∈ getRecents
        (stateOf [("g1".toList, { groupChat "g1" "old" with lastActiveTime := 1000 }),
          ("g2".toList, { groupChat "g2" "new" with lastActiveTime := 604801000 })] [] 1)
        691201000 none := by
  have h := getRecents_spec
    (stateOf [("g1".toList, { groupChat "g1" "old" with lastActiveTime := 1000 }),
      ("g2".toList, { groupChat "g2" "new" with lastActiveTime := 604801000 })] [] 1)
    691201000 none
  refine ⟨by decide, ?_, ?_⟩
  · exact h.2.2.1 (by decide) _ (by decide) rfl rfl (by decide)
  · exact h.2.2.2 (by decide) _ (by decide) (by decide) (by decide)

/-- C14, evaluated where the claim fails: for a message without a server id whose chat `g1`
is in the mapping, `deleteLocalMessage` removes the message from the window of the chat and
publishes the event, and then throws a `ReferenceError` (its last statement names `gid`,
which is declared nowhere) instead of returning: no row of the store is deleted. For a message
with a server id it returns a rejected promise and changes nothing. -/
theorem deleteLocalMessage_throws :
    (∃ env', deleteLocalMessage plainMessages plainModel
          (envOf (stateOf [("g1".toList,
              { groupChat "g1" "A" with messages := [textMessage "m1" 0 "g1",
                textMessage "m2" 0 "g1"] })] [] 1)
            [textMessage "m1" 0 "g1", textMessage "m2" 0 "g1"])
          (textMessage "m1" 0 "g1") = .threw .referenceError env'
        ∧ env'.state.chats = some [("g1".toList,
            { groupChat "g1" "A" with messages := [textMessage "m2" 0 "g1"] })]
        ∧ env'.state.events.length = 1
        ∧ env'.chatMessages = [textMessage "m1" 0 "g1", textMessage "m2" 0 "g1"]
        ∧ env'.deleteLog = [])
      ∧ (∀ (W : MessageModel) (M : ChatModel) (env : Env) (gid cgid : Str) (id : Nat),
          deleteLocalMessage W M env
              { gid := gid, id := id + 1, cgid := cgid, contentType := [], fileContent := none }
            = .returned (.rejected "Cannot delete a remote chat message.".toList) env) := by
  refine ⟨⟨_, rfl, by decide, by decide, by decide, by decide⟩, ?_⟩
  intro W M env gid cgid id
  simp [deleteLocalMessage]

/-- C15, evaluated where the claim fails: called with no `queryFilter` and no `limit`, for
whatever chat and store, `loadChatMessages` throws a `TypeError`, because with the default
limit 100 it assigns to `collection`, which is declared with `const`; nothing is returned and
nothing changes. Called with the limit 0 and no filter on a store that holds a row for the
chat, it returns the page but does not touch the window of the chat and publishes nothing,
because the test `!queryObject` is made after `queryObject` was assigned an object. -/
theorem loadChatMessages_default_throws :
    (∀ (W : MessageModel) (env : Env) (chat : Chat) (queryObject : Option MessageQuery),
        loadChatMessages W env chat queryObject none = .threw .typeError env)
      ∧ loadChatMessages plainMessages
          (envOf (stateOf [("g1".toList, groupChat "g1" "A")] [] 1) [textMessage "g1" 0 "g1"])
          (groupChat "g1" "A") none (some 0)
        = .returned (.resolved [textMessage "g1" 0 "g1"])
            (envOf (stateOf [("g1".toList, groupChat "g1" "A")] [] 1)
              [textMessage "g1" 0 "g1"]) := by
  refine ⟨?_, rfl⟩
  intro W env chat queryObject
  simp [loadChatMessages, CHATS_LIMIT_DEFAULT]

/-- C16, evaluated where the claim fails: whatever the room on the call stack, the chat, the
store and the flag, `getChatFiles` does not complete: the function it calls to load the
messages is `getChatFiles` itself, so the calls nest until the stack is exhausted and a
`RangeError` is thrown; no list of files is produced and the environment is left as it
was. -/
theorem getChatFiles_never_completes :
    ∀ (depth : Nat) (env : Env) (chat : Chat) (includeFailFile : Bool),
      getChatFiles depth env chat includeFailFile = .threw .rangeError env :=
  getChatFiles_overflow

/-- C17, refuted as stated: for the member references 5 and 5 and the current user 7, the set
of distinct member ids, with the current user added, has the 2 elements 5 and 7, but
`createWithMembers` works with the three ids 5, 5, 7 and returns a freshly constructed chat
that is not a one2one chat and does not carry the gid `5&7`. -/
theorem createWithMembers_keeps_duplicates :
    ∃ c s', createWithMembers plainModel (stateOf [] [] 7) (.list [.id (.int 5), .id (.int 5)])
        ChatData.empty = .ok (c, s')
      ∧ (chatMemberIds (.int 7) (.list [.id (.int 5), .id (.int 5)])).dedup
          = [.int 5, .int 7]
      ∧ c.members = [.int 5, .int 5, .int 7]
      ∧ c.gid ≠ "5&7".toList ∧ c.type ≠ some .one2one := by
  refine ⟨_, _, rfl, by decide, by decide, by decide, by decide⟩

/-- C17, amended: the list of member ids `createWithMembers` works with is the references
mapped to ids, duplicates kept, followed by the id of the current user unless the ids hold a
value strictly equal to it and it is truthy (an id of the current user that is `0`, `NaN` or
the empty string is added also when the ids hold it); this list includes the id of the
current user. When the list has exactly 2 entries, each `NaN`, an integer of magnitude below
2^53 or a string of basic-plane characters, and the mapping is initialised, the result is
what `get` returns for the two entries in the default sort order joined by `&`: the existing
chat if the mapping holds one under that gid, otherwise a new one2one chat with that gid,
whose members, for two numeric ids, are the two ids. When the list has any other length, the
result is a freshly constructed chat built from the ids and the account of the current user,
overridden by the given settings; its members are the ids when the settings give no members.
In no case does the call change the state. -/
theorem createWithMembers_spec (M : ChatModel) (s : State) (arg : MembersArg)
    (chatSetting : ChatData) :
    chatMemberIds s.user.id arg
        = (if (memberRefIds arg).any (fun memberId => memberId.strictEq s.user.id)
              && s.user.id.truthy
            then memberRefIds arg else memberRefIds arg ++ [s.user.id])
      ∧ s.user.id ∈ chatMemberIds s.user.id arg
      ∧ (∀ (m : Obj Chat) (x y : Val), s.chats = some m →
          chatMemberIds s.user.id arg = [x, y] → x.Safe → y.Safe →
          ∃ c, createWithMembers M s arg chatSetting = .ok (c, s)
            ∧ get M s (contactGid x y) = .ok (some c, s)
            ∧ (∀ c', Obj.lookup m (contactGid x y) = some c' → c = c')
            ∧ (M.KeepsData → KeyedByGid m → c.gid = contactGid x y)
            ∧ (M.KeepsData → Obj.lookup m (contactGid x y) = none → c.type = some .one2one)
            ∧ (M.KeepsData → Obj.lookup m (contactGid x y) = none →
                ∀ a b : Nat, x = .int a → y = .int b →
                  c.members = sortDefault [x, y] ∧ s.user.id ∈ c.members))
      ∧ ((chatMemberIds s.user.id arg).length ≠ 2 →
          createWithMembers M s arg chatSetting
            = .ok (M.construct (ChatData.assign
                { gid := none, name := none, members := some (chatMemberIds s.user.id arg),
                  createdBy := some s.user.account, type := none, star := none }
                chatSetting), s)
            ∧ (M.KeepsData → chatSetting.members = none →
                ∃ c, createWithMembers M s arg chatSetting = .ok (c, s)
                  ∧ c.members = chatMemberIds s.user.id arg ∧ s.user.id ∈ c.members)) := by
  refine ⟨chatMemberIds_eq _ _, user_mem_chatMemberIds _ _, ?_, ?_⟩
  · intro m x y hinit hids _ _
    obtain ⟨c, hc, hg⟩ := chatMemberIds_two M s m arg chatSetting x y hinit hids
    obtain ⟨c', hc', _, hstored⟩ :=
      get_contact M s m (contactGid x y) hinit (includes_contactGid x y)
    have hcc : c = c' := by
      have h1 : createWithMembers M s arg chatSetting = .ok (c', s) := by
        unfold createWithMembers
        unfold contactGid at hc'
        simp only [hids, List.length_cons, List.length_nil, if_true, hc']
      rw [hc] at h1
      cases h1
      rfl
    subst hcc
    refine ⟨c, hc, hc', hstored, fun hM hk => hg (keepsGid_of_keepsData M hM) hk, ?_, ?_⟩
    · intro hM hnone
      obtain ⟨_, _, _, hsyn⟩ :=
        get_spec_aux M hM s m (contactGid x y) hinit hnone (includes_contactGid x y)
      exact (hsyn c s hc').2.1
    · intro hM hnone a b hx hy
      obtain ⟨_, _, _, hsyn⟩ :=
        get_spec_aux M hM s m (contactGid x y) hinit hnone (includes_contactGid x y)
      have hmem : c.members = sortDefault [x, y] := by
        rw [(hsyn c s hc').2.2, hx, hy]
        exact contactGid_members a b
      refine ⟨hmem, ?_⟩
      rw [hmem]
      apply mem_sortDefault_pair
      rw [← hids]
      exact user_mem_chatMemberIds _ _
  · intro hlen
    have hres : createWithMembers M s arg chatSetting
        = .ok (M.construct (ChatData.assign
            { gid := none, name := none, members := some (chatMemberIds s.user.id arg),
              createdBy := some s.user.account, type := none, star := none }
            chatSetting), s) := by
      unfold createWithMembers
      simp only [hlen, if_false]
    refine ⟨hres, ?_⟩
    intro hM hset
    have hmem := (hM (ChatData.assign
        { gid := none, name := none, members := some (chatMemberIds s.user.id arg),
          createdBy := some s.user.account, type := none, star := none }
        chatSetting)).2.2 (chatMemberIds s.user.id arg) (by simp [ChatData.assign, hset])
    refine ⟨_, hres, hmem, ?_⟩
    rw [hmem]
    exact user_mem_chatMemberIds _ _

/-- C17, amended, at the member reference 5 and the current user 7, at the references 5, 8
and the current user 7, and at the references 0, 3 and the current user 0, whose id is added
although the references hold it. -/
theorem createWithMembers_spec_witness :
    (∃ c, createWithMembers plainModel (stateOf [] [] 7) (.list [.id (.int 5)]) ChatData.empty
        = .ok (c, stateOf [] [] 7) ∧ c.gid = "5&7".toList ∧ c.type = some .one2one)
      ∧ (∃ c, createWithMembers plainModel (stateOf [] [] 7)
          (.list [.id (.int 5), .id (.int 8)]) ChatData.empty = .ok (c, stateOf [] [] 7)
        ∧ c.members = [.int 5, .int 8, .int 7])
      ∧ chatMemberIds (stateOf [] [] 0).user.id (.list [.id (.int 0), .id (.int 3)])
          = [.int 0, .int 3, .int 0] := by
  have h1 := createWithMembers_spec plainModel (stateOf [] [] 7) (.list [.id (.int 5)])
    ChatData.empty
  have h2 := createWithMembers_spec plainModel (stateOf [] [] 7)
    (.list [.id (.int 5), .id (.int 8)]) ChatData.empty
  have h3 := (createWithMembers_spec plainModel (stateOf [] [] 0)
    (.list [.id (.int 0), .id (.int 3)]) ChatData.empty).1
  refine ⟨?_, ?_, ?_⟩
  · obtain ⟨c, hc, _, _, hg, ht, _⟩ :=
      h1.2.2.1 [] (.int 5) (.int 7) rfl (by decide) (by simp [Val.Safe]) (by simp [Val.Safe])
    refine ⟨c, hc, ?_, ht plainModel_keepsData (by decide)⟩
    rw [hg plainModel_keepsData (by intro p hp; cases hp)]
    decide
  · exact ⟨_, (h2.2.2.2 (by decide)).1, by decide⟩
  · rw [h3]
    decide

/-- C18: the score `search` computes for a chat, and writes to a chat that its type does not
exclude, is the sum over the terms that are not empty of `term(t)`: for a term longer than 1
character that starts with `#`, with `s` the term without the sigil, twice the score of `s`
against the lowercase gid, plus twice its score against the name for a group or system chat,
plus twice its score against `system` for a system chat, plus `base(s)`; for a term longer
than 1 character that starts with `@`, twice the score of `s` against the account of the
other participant for a one2one chat, plus `base(s)`; otherwise `base(t)`; where `base(x)`
scores `x` against the lowercase display name, the phonetic key and, for a one2one chat, the
email followed by the mobile number of the other participant. A term `#g` with `g` the
lowercase gid of the chat, not empty, contributes at least 200. -/
theorem search_score_formula (M : ChatModel) (app : App) (terms : List Str)
    (chatType : Option Str) (chat : Chat) :
    chatScore M app terms chat = specScore M app terms chat
      ∧ (typeExcluded chatType chat = false →
          (searchCondition M app terms chatType chat).2.score = specScore M app terms chat
            ∧ (searchCondition M app terms chatType chat).1
                = decide (0 < specScore M app terms chat))
      ∧ (chat.gid ≠ [] →
          200 ≤ specTerm M app chat ('#' :: toLowerCase chat.gid)
            ∧ 150 ≤ specTerm M app chat ('#' :: toLowerCase chat.gid)) := by
  refine ⟨chatScore_eq_specScore M app terms chat, ?_, ?_⟩
  · intro ht
    unfold searchCondition
    simp only [ht, Bool.false_eq_true, if_false, chatScore_eq_specScore, gt_iff_lt, and_self]
  · intro hg
    have hne : toLowerCase chat.gid ≠ [] := by
      unfold toLowerCase
      intro h
      exact hg (List.map_eq_nil_iff.mp h)
    have hlen : 1 < ('#' :: toLowerCase chat.gid).length := by
      cases h : toLowerCase chat.gid with
      | nil => exact absurd h hne
      | cons _ _ => simp
    have hself := caculateScore_self (toLowerCase chat.gid) hne
    have : 200 ≤ specTerm M app chat ('#' :: toLowerCase chat.gid) := by
      unfold specTerm
      rw [if_pos ⟨hlen, rfl⟩]
      simp only [List.tail_cons, hself]
      omega
    exact ⟨this, by omega⟩

/-- C18, at the group chat with the gid `G1` and the query term `#g1`. -/
theorem search_score_formula_witness :
    (searchCondition plainModel ⟨some [], ⟨.int 2, "me".toList⟩⟩ ["#g1".toList] none
        (groupChat "G1" "Project Alpha")).2.score
      = specScore plainModel ⟨some [], ⟨.int 2, "me".toList⟩⟩ ["#g1".toList]
          (groupChat "G1" "Project Alpha")
    ∧ 200 ≤ specTerm plainModel ⟨some [], ⟨.int 2, "me".toList⟩⟩ (groupChat "G1" "Project Alpha")
        ('#' :: toLowerCase (groupChat "G1" "Project Alpha").gid) :=
  ⟨((search_score_formula plainModel ⟨some [], ⟨.int 2, "me".toList⟩⟩ ["#g1".toList] none
      (groupChat "G1" "Project Alpha")).2.1 (by decide)).1,
    ((search_score_formula plainModel ⟨some [], ⟨.int 2, "me".toList⟩⟩ ["#g1".toList] none
      (groupChat "G1" "Project Alpha")).2.2 (by decide)).1⟩

/-- C19, refuted as stated: on an empty mapping, `get("1&2&3")` returns a one2one chat with
three members and `get("a&b")` one whose two members are `NaN`: the members are not in every
case exactly two numeric ids. -/
theorem get_members_not_two_ids :
    (∃ c s', get plainModel (stateOf [] [] 1) "1&2&3".toList = .ok (some c, s')
        ∧ c.members = [.int 1, .int 2, .int 3] ∧ c.members.length ≠ 2)
      ∧ (∃ c s', get plainModel (stateOf [] [] 1) "a&b".toList = .ok (some c, s')
        ∧ c.members = [.nan, .nan]) := by
  refine ⟨⟨_, _, rfl, by decide, by decide⟩, ⟨_, _, rfl, by decide⟩⟩

/-- C19, amended: on an initialised mapping, with a chat constructor that keeps the gid, the
type and the members it is given: if the mapping holds a chat under `gid`, `get` returns it;
otherwise, if `gid` contains `&`, `get` returns a new chat of type one2one with that gid and
with one member for each piece of the gid between the `&`, the result of `Number.parseInt` on
the piece, which is `NaN` or, read digit by digit, an integer when that integer is of
magnitude below 2^53 (the two numbers when the gid is the decimal forms of two numbers below
2^53 joined by one `&`); otherwise, if `gid` is not the name of a property every object
inherits (`prototypeKeys`), `get` returns `undefined`. In each of these cases the state after
the call, and with it the mapping, is the state before it. -/
theorem get_spec (M : ChatModel) (hM : M.KeepsData) (s : State) (m : Obj Chat) (gid : Str)
    (hinit : s.chats = some m) :
    (∀ c, Obj.lookup m gid = some c → get M s gid = .ok (some c, s))
      ∧ (Obj.lookup m gid = none → includes gid '&' = true →
          ∃ c, get M s gid = .ok (some c, s) ∧ c.gid = gid ∧ c.type = some .one2one
            ∧ c.members.length = (split '&' gid).length
            ∧ ((∀ v ∈ (split '&' gid).map parseInt, v.Safe) →
                c.members = (split '&' gid).map parseInt))
      ∧ (Obj.lookup m gid = none → includes gid '&' = false → gid ∉ prototypeKeys →
          get M s gid = .ok (none, s))
      ∧ (∀ a b : Nat, a < 2 ^ 53 → b < 2 ^ 53 → gid = decimal a ++ '&' :: decimal b →
          (split '&' gid).map parseInt = [.int a, .int b]) := by
  obtain ⟨r, hr, h1, h2, h3⟩ := get_ok M s m gid hinit
  refine ⟨?_, ?_, ?_, ?_⟩
  · intro c hc
    rw [hr, h1 c hc]
  · intro hl hamp
    have hd := hM
      { gid := some gid, name := none, members := some ((split '&' gid).map parseInt),
        createdBy := some s.user.account, type := some .one2one, star := none }
    refine ⟨_, by rw [hr, h2 hl hamp], ?_, ?_, ?_, ?_⟩
    · exact hd.1 gid rfl
    · exact hd.2.1 _ rfl
    · show (M.construct _).members.length = _
      rw [hd.2.2 _ rfl, List.length_map]
    · intro _
      exact hd.2.2 _ rfl
  · intro hl hamp _
    rw [hr, h3 hl hamp]
  · rintro a b _ _ rfl
    exact parse_two_decimals a b

/-- C19, amended, at the gid `12&34` on an empty mapping. -/
theorem get_spec_witness :
    ∃ c, get plainModel (stateOf [] [] 1) "12&34".toList = .ok (some c, stateOf [] [] 1)
      ∧ c.gid = "12&34".toList ∧ c.type = some .one2one ∧ c.members = [.int 12, .int 34] := by
  have h := get_spec plainModel plainModel_keepsData (stateOf [] [] 1) [] "12&34".toList rfl
  obtain ⟨c, hc, hg, ht, _, hm⟩ := h.2.1 rfl (by decide)
  have hp := h.2.2.2 12 34 (by norm_num) (by norm_num) (by decide)
  refine ⟨c, hc, hg, ht, ?_⟩
  rw [hm (by
    rw [hp]
    intro v hv
    simp only [List.mem_cons, List.mem_singleton, List.not_mem_nil, or_false] at hv
    rcases hv with rfl | rfl <;> simp [Val.Safe]), hp]
  rfl

/-- C20, refuted as stated: two messages, the first for the chat `g1` of the mapping, the
second with the `cgid` `constructor`. The read `chatsMessages["constructor"]` finds the
function every object inherits, the call of its `push` raises a `TypeError`, and
`updateChatMessages` throws before any delivery: the chat `g1`, which `get` resolves, receives
no message, and the persistence call is not made. -/
theorem updateChatMessages_throws_on_inherited_key :
    ∃ env', updateChatMessages plainMessages plainModel
        (envOf (stateOf [("g1".toList, groupChat "g1" "A")] [] 1) [])
        (.list [textMessage "m1" 1 "g1", textMessage "m2" 2 "constructor"]) false
          = .threw .typeError env'
      ∧ resolves plainModel (stateOf [("g1".toList, groupChat "g1" "A")] [] 1) "g1".toList
          = some (groupChat "g1" "A")
      ∧ env'.addMessagesLog = [] ∧ env'.bulkPutLog = [] ∧ env'.chatMessages = [] := by
  refine ⟨_, rfl, by decide, by decide, by decide, by decide⟩

/-- C20, amended: on an initialised mapping keyed by gid (with a chat constructor that keeps
the gid), and with `normalized` the messages after `ChatMessage.create`. When no normalized
message carries a gid that names a property every object inherits (`prototypeKeys`),
`updateChatMessages` returns, and it has called `addMessages` exactly once for each gid
carried by a message for which `get` resolves a chat, on that chat, with exactly the
normalized messages that carry this gid, in their order of arrival, and for no other gid:
the calls follow a list `order` of the gids carried, each once (the order in which
`Object.keys` lists them), and the chat resolved for a gid carries that gid, so that no
message goes to a chat with another gid or is delivered twice. `bulkPut` is called once, with
all the normalized messages in input order (in their plain form), also those whose chat did
not resolve; for an empty list it is not called and the promise of `0` is returned. The
recomputation of the notices is requested once. When a normalized message carries a gid of
`prototypeKeys`, `updateChatMessages` throws a `TypeError` and has made no call. -/
theorem updateChatMessages_partition (W : MessageModel) (M : ChatModel) (hM : M.KeepsGid)
    (env : Env) (m : Obj Chat) (messages : List ChatMessage) (muted : Bool)
    (hinit : env.state.chats = some m) (hkeyed : KeyedByGid m) :
    ((∀ x ∈ messages, (W.create x).cgid ∉ prototypeKeys) →
      ∃ p env', ∃ order : List Str,
        updateChatMessages W M env (.list messages) muted = .returned p env'
          ∧ order.Nodup
          ∧ (∀ k, k ∈ order ↔ k ∈ (messages.map W.create).map ChatMessage.cgid)
          ∧ env'.addMessagesLog = env.addMessagesLog
              ++ order.filterMap (deliveryFor M env.state (messages.map W.create))
          ∧ (∀ k ∈ order, get M env.state k = .ok (resolves M env.state k, env.state))
          ∧ (∀ k ∈ order, ∀ chat, resolves M env.state k = some chat → chat.gid = k)
          ∧ (messages ≠ [] →
              env'.bulkPutLog = env.bulkPutLog ++ [(messages.map W.create).map W.plain])
          ∧ (messages = [] → env'.bulkPutLog = env.bulkPutLog ∧ p = .resolved (.int 0))
          ∧ env'.noticeRequests = env.noticeRequests + 1)
      ∧ ((∃ x ∈ messages, (W.create x).cgid ∈ prototypeKeys) →
          updateChatMessages W M env (.list messages) muted = .threw .typeError env) := by
  constructor
  · intro hproto
    have hgroup : chatsMessagesOf (messages.map W.create) []
        = .ok (groupByCgid (messages.map W.create)) := by
      apply chatsMessagesOf_groupByCgid
      intro x hx
      obtain ⟨y, hy, rfl⟩ := List.mem_map.mp hx
      exact hproto y hy
    obtain ⟨g1, g2, _⟩ := groupByCgid_spec (messages.map W.create)
    obtain ⟨env₁, m₁, d1, _, d3, _, d5, _, d7, _⟩ :=
      deliverMessages_spec W M muted (groupByCgid (messages.map W.create)) env m g1 hinit
    have hlog : (groupByCgid (messages.map W.create)).filterMap (fun e =>
          (resolves M env.state e.1).map (fun chat => (chat, e.2, false)))
        = (Obj.keys (groupByCgid (messages.map W.create))).filterMap
            (deliveryFor M env.state (messages.map W.create)) := by
      unfold Obj.keys
      rw [List.filterMap_map]
      apply List.filterMap_congr
      intro e he
      simp only [Function.comp, deliveryFor]
      rw [groupByCgid_entries (messages.map W.create) e he]
    by_cases hne : messages = []
    · subst hne
      refine ⟨.resolved (.int 0), { env₁ with noticeRequests := env₁.noticeRequests + 1 },
        Obj.keys (groupByCgid (List.map W.create [])), ?_, g1, g2, ?_,
        fun k _ => get_eq_resolves M env.state m k hinit,
        fun k _ chat h => resolves_gid M hM env.state m hinit hkeyed k chat h, ?_, ?_, ?_⟩
      · simp only [updateChatMessages, hgroup, d1]
        rfl
      · show env₁.addMessagesLog = _
        rw [d3, hlog]
      · intro h
        exact absurd rfl h
      · intro _
        exact ⟨d5, rfl⟩
      · show env₁.noticeRequests + 1 = _
        rw [d7]
    · have hlen : (messages.map W.create).length ≠ 0 := by
        rw [List.length_map]
        exact fun h => hne (List.length_eq_zero.mp h)
      refine ⟨.resolved (match ((messages.map W.create).map (fun x => W.plain x)).getLast? with
          | some row => .str row.gid
          | none => .int 0),
        { env₁ with
          noticeRequests := env₁.noticeRequests + 1,
          chatMessages := bulkPut env₁.chatMessages ((messages.map W.create).map W.plain),
          bulkPutLog := env₁.bulkPutLog ++ [(messages.map W.create).map W.plain] },
        Obj.keys (groupByCgid (messages.map W.create)), ?_, g1, g2, ?_,
        fun k _ => get_eq_resolves M env.state m k hinit,
        fun k _ chat h => resolves_gid M hM env.state m hinit hkeyed k chat h, ?_, ?_, ?_⟩
      · simp only [updateChatMessages, hgroup, d1, hlen, ne_eq, not_false_eq_true, if_true]
      · show env₁.addMessagesLog = _
        rw [d3, hlog]
      · intro _
        show env₁.bulkPutLog ++ _ = _
        rw [d5]
      · intro h
        exact absurd h hne
      · show env₁.noticeRequests + 1 = _
        rw [d7]
  · intro hex
    have hthrow : chatsMessagesOf (messages.map W.create) [] = .error .typeError := by
      apply chatsMessagesOf_throws
      · intro k hk
        cases hk
      · obtain ⟨x, hx, hp⟩ := hex
        exact ⟨W.create x, List.mem_map.mpr ⟨x, hx, rfl⟩, hp⟩
    simp only [updateChatMessages, hthrow]

/-- C20, amended, at three messages for two gids, of which `zz` resolves no chat: the chat `g1`
receives the first and the third message in one call, and `bulkPut` receives all three. -/
theorem updateChatMessages_partition_witness :
    ∃ p env', updateChatMessages plainMessages plainModel
        (envOf (stateOf [("g1".toList, groupChat "g1" "A")] [] 1) [])
        (.list [textMessage "m1" 1 "g1", textMessage "m2" 2 "zz", textMessage "m3" 3 "g1"])
        false = .returned p env'
      ∧ env'.addMessagesLog
          = [(groupChat "g1" "A", [textMessage "m1" 1 "g1", textMessage "m3" 3 "g1"], false)]
      ∧ env'.bulkPutLog
          = [[textMessage "m1" 1 "g1", textMessage "m2" 2 "zz", textMessage "m3" 3 "g1"]] := by
  obtain ⟨p, env', order, h, hnd, hmem, hlog, _, _, hput, _, _⟩ :=
    (updateChatMessages_partition plainMessages plainModel plainModel_keepsGid
      (envOf (stateOf [("g1".toList, groupChat "g1" "A")] [] 1) [])
      [("g1".toList, groupChat "g1" "A")]
      [textMessage "m1" 1 "g1", textMessage "m2" 2 "zz", textMessage "m3" 3 "g1"] false rfl
      (by intro e he; simp only [List.mem_singleton] at he; subst he; rfl)).1
      (by
        intro x hx
        simp only [List.mem_cons, List.mem_singleton, List.not_mem_nil, or_false] at hx
        rcases hx with rfl | rfl | rfl <;> decide)
  refine ⟨p, env', h, ?_, ?_⟩
  · have heval : ∃ q e, updateChatMessages plainMessages plainModel
        (envOf (stateOf [("g1".toList, groupChat "g1" "A")] [] 1) [])
        (.list [textMessage "m1" 1 "g1", textMessage "m2" 2 "zz", textMessage "m3" 3 "g1"])
        false = .returned q e
        ∧ e.addMessagesLog
          = [(groupChat "g1" "A", [textMessage "m1" 1 "g1", textMessage "m3" 3 "g1"], false)] :=
      ⟨_, _, rfl, by decide⟩
    obtain ⟨q, e, he, hq⟩ := heval
    rw [he] at h
    cases h
    exact hq
  · rw [hput (by decide)]
    rfl

end Xuanxuan
